import Mathlib

/-!
# Summoner-Analysis: the rate-limited, retrying request engine

A shallow embedding of `internal/riot/ratelimiter.go`, of
`Client.doRequestWithRateLimit` and of the analysis functions with their fetch loop
(`internal/riot/client.go`).

Conventions of the embedding:

* a `time.Time` is an `Int` counting nanoseconds on the process clock (every
  time held by the limiter comes from `time.Now()` and keeps its monotonic
  reading, so `After`, `Add` and `Sub` act on that reading);
* a `time.Duration` is an `Int` of nanoseconds; `Time.Sub` saturates at the
  `int64` range as in Go;
* Go `int` fields are `Int`; the code only decrements a positive token count,
  so no token arithmetic can wrap;
* the mutex is not modelled: each operation below is one critical section and
  is embedded as an atomic state transformer;
* everything the code obtains from outside (clock readings, the winner of a
  `select`, the outcome of `HTTPClient.Do`) is read from an explicit script.
-/

namespace Riot

/-! ## Durations and times -/

/-- The Go constant `time.Millisecond` in nanoseconds. -/
def Millisecond : Int := 1000000

/-- The Go constant `time.Second` in nanoseconds. -/
def Second : Int := 1000000000

/-- The Go constant `time.Minute` in nanoseconds. -/
def Minute : Int := 60 * Second

/-- Largest `time.Duration` (`1<<63 - 1`). -/
def maxDuration : Int := 9223372036854775807

/-- Smallest `time.Duration` (`-1 << 63`). -/
def minDuration : Int := -9223372036854775808

/-- Go `t.Sub(u)`: the difference `t - u`, saturated to the range of a `Duration`. -/
def timeSub (t u : Int) : Int :=
  if t - u > maxDuration then maxDuration
  else if t - u < minDuration then minDuration
  else t - u

/-- Go `t.After(u)`. -/
def timeAfter (t u : Int) : Bool := decide (u < t)

/-- Go `t.Add(d)`. -/
def timeAdd (t d : Int) : Int := t + d

/-! ## The rate limiter (`ratelimiter.go`) -/

/-- The struct `RateLimiter` without its mutex. -/
structure RateLimiter where
  shortTermTokens : Int
  shortTermLimit : Int
  shortTermWindow : Int
  shortTermReset : Int
  longTermTokens : Int
  longTermLimit : Int
  longTermWindow : Int
  longTermReset : Int
  deriving DecidableEq, Repr

/-- `NewRateLimiter`, with the reading of `time.Now()` as argument. -/
def NewRateLimiter (now : Int) : RateLimiter :=
  { shortTermTokens := 20
    shortTermLimit := 20
    shortTermWindow := Second
    shortTermReset := timeAdd now Second
    longTermTokens := 100
    longTermLimit := 100
    longTermWindow := 2 * Minute
    longTermReset := timeAdd now (2 * Minute) }

/-- The expiry check on the short window (`Wait` lines 51-54, `GetStatus` lines 112-115). -/
def refreshShort (rl : RateLimiter) (now : Int) : RateLimiter :=
  if timeAfter now rl.shortTermReset then
    { rl with shortTermTokens := rl.shortTermLimit
              shortTermReset := timeAdd now rl.shortTermWindow }
  else rl

/-- The expiry check on the long window (`Wait` lines 56-59, `GetStatus` lines 117-120). -/
def refreshLong (rl : RateLimiter) (now : Int) : RateLimiter :=
  if timeAfter now rl.longTermReset then
    { rl with longTermTokens := rl.longTermLimit
              longTermReset := timeAdd now rl.longTermWindow }
  else rl

/-- Both expiry checks in the order of the code. -/
def refresh (rl : RateLimiter) (now : Int) : RateLimiter :=
  refreshLong (refreshShort rl now) now

/-- What one pass through the loop of `Wait` does after releasing the lock. -/
inductive PassResult where
  /-- Tokens were taken and `Wait` returns nil (line 67). -/
  | admitted
  /-- No token was taken; the pass goes on to wait for `d` (line 95). -/
  | sleep (d : Int)
  deriving DecidableEq, Repr

/-- The wait time computed by lines 71-87 from the refreshed state. -/
def computeWaitTime (rl : RateLimiter) (now : Int) : Int :=
  let waitTime : Int := 0
  let waitTime := if rl.shortTermTokens ≤ 0 then timeSub rl.shortTermReset now else waitTime
  let waitTime :=
    if rl.longTermTokens ≤ 0 then
      let longWaitTime := timeSub rl.longTermReset now
      if longWaitTime > waitTime then longWaitTime else waitTime
    else waitTime
  if waitTime ≤ 0 then 100 * Millisecond else waitTime

/-- One pass through the loop body of `Wait` (lines 46-89) at clock reading `now`. -/
def waitPass (rl : RateLimiter) (now : Int) : RateLimiter × PassResult :=
  let rl := refresh rl now
  if rl.shortTermTokens > 0 ∧ rl.longTermTokens > 0 then
    ({ rl with shortTermTokens := rl.shortTermTokens - 1
               longTermTokens := rl.longTermTokens - 1 }, PassResult.admitted)
  else
    (rl, PassResult.sleep (computeWaitTime rl now))

/-- What the environment presents to one pass of `Wait`: the reading of
`time.Now()` and, should the pass wait, whether `ctx.Done()` wins the `select`. -/
structure Pass where
  now : Int
  ctxDone : Bool
  deriving DecidableEq, Repr

/-- Observable steps of a run, in program order. -/
inductive Event where
  /-- A pass of `Wait` took a token at the given time. -/
  | admitted (now : Int)
  /-- A pass of `Wait` entered its `select` with `time.After(d)`. -/
  | rateSleep (d : Int)
  /-- One call of `HTTPClient.Do`. -/
  | httpDo
  /-- The retry loop entered a `select` with `time.After(d)`. -/
  | backoff (d : Int)
  deriving DecidableEq, Repr

/-- How a call of `Wait` ends. -/
inductive WaitResult where
  /-- `Wait` returned nil. -/
  | ok
  /-- `Wait` returned `ctx.Err()`. -/
  | cancelled
  /-- The script ended while `Wait` was still in its loop. -/
  | blocked
  deriving DecidableEq, Repr

/-- A finished (or still blocked) call of `Wait`. -/
structure WaitRun where
  rl : RateLimiter
  log : List Event
  result : WaitResult
  deriving DecidableEq, Repr

/-- `RateLimiter.Wait`: the loop of lines 44-101 driven by a script of passes. -/
def Wait (rl : RateLimiter) : List Pass → WaitRun
  | [] => { rl := rl, log := [], result := WaitResult.blocked }
  | p :: ps =>
    match waitPass rl p.now with
    | (rl1, PassResult.admitted) =>
      { rl := rl1, log := [Event.admitted p.now], result := WaitResult.ok }
    | (rl1, PassResult.sleep d) =>
      if p.ctxDone then
        { rl := rl1, log := [Event.rateSleep d], result := WaitResult.cancelled }
      else
        let r := Wait rl1 ps
        { rl := r.rl, log := Event.rateSleep d :: r.log, result := r.result }

/-- `RateLimiter.GetStatus` at clock reading `now`: the limiter afterwards and the
four returned values. -/
def GetStatus (rl : RateLimiter) (now : Int) : RateLimiter × (Int × Int × Int × Int) :=
  let rl := refresh rl now
  (rl, (rl.shortTermTokens, rl.longTermTokens, rl.shortTermReset, rl.longTermReset))

/-- `RateLimiter.Reset` at clock reading `now`. -/
def Reset (rl : RateLimiter) (now : Int) : RateLimiter :=
  { rl with shortTermTokens := rl.shortTermLimit
            shortTermReset := timeAdd now rl.shortTermWindow
            longTermTokens := rl.longTermLimit
            longTermReset := timeAdd now rl.longTermWindow }

/-- The data-model invariant of both token windows. -/
def WindowInvariant (rl : RateLimiter) : Prop :=
  (0 ≤ rl.shortTermTokens ∧ rl.shortTermTokens ≤ rl.shortTermLimit) ∧
  (0 ≤ rl.longTermTokens ∧ rl.longTermTokens ≤ rl.longTermLimit)

instance (rl : RateLimiter) : Decidable (WindowInvariant rl) := by
  unfold WindowInvariant; infer_instance

/-- The passes of `Wait` made at the given clock readings, one after the other on
the same limiter: for each reading, whether that pass admitted. A sequence of calls of
`Wait` is such a sequence of passes, one or more per call. -/
def runPasses (rl : RateLimiter) : List Int → List (Int × Bool)
  | [] => []
  | t :: ts =>
    let r := waitPass rl t
    (t, decide (r.2 = PassResult.admitted)) :: runPasses r.1 ts

/-- Number of admissions whose time lies in the closed interval `[a, b]`. -/
def admissionsIn (rl : RateLimiter) (ts : List Int) (a b : Int) : Nat :=
  (runPasses rl ts).countP (fun e => e.2 && decide (a ≤ e.1) && decide (e.1 ≤ b))

/-! ## `time.ParseDuration` (Go standard library, package `time`)

`doRequestWithRateLimit` reads the `Retry-After` header through
`time.ParseDuration(retryAfter + "s")`. The function is embedded from the Go release
sources (`time/format.go`): unsigned 64-bit arithmetic is `Nat` arithmetic, reduced
modulo `2^64` where a sum can wrap, and the two `float64` operations on the fraction
are computed by correct rounding of the exact rational result. A string is the list of
its characters; the parser only tests characters for being a sign, a digit or a dot,
which no byte of a multi-byte character is. -/

/-- The test `c < '0' || c > '9'` negated. -/
def isDigit (c : Char) : Bool := decide ('0' ≤ c) && decide (c ≤ '9')

/-- The value `uint64(c) - '0'` of a digit. -/
def digitVal (c : Char) : Nat := c.toNat - 48

/-- Go `leadingInt`, started with `x`: the leading digits of the string as a number
and the rest of the string, or `none` for `errLeadingInt` (overflow). -/
def leadingInt (x : Nat) : List Char → Option (Nat × List Char)
  | [] => some (x, [])
  | c :: cs =>
    if !isDigit c then some (x, c :: cs)
    else if x > 2 ^ 63 / 10 then none
    else
      let x1 := x * 10 + digitVal c
      if x1 > 2 ^ 63 then none else leadingInt x1 cs

/-- The largest `k` with `2 ^ k ≤ q`, for a positive rational `q`. -/
def floorLog2 (q : ℚ) : Int :=
  let k : Int := (Nat.log2 q.num.natAbs : Int) - (Nat.log2 q.den : Int)
  if (2 : ℚ) ^ k ≤ q then k else k - 1

/-- Rounding of a non-negative rational to an integer, ties to the even neighbour. -/
def roundHalfEven (r : ℚ) : Int :=
  let fl := Rat.floor r
  if r - fl < 1 / 2 then fl
  else if 1 / 2 < r - fl then fl + 1
  else if fl % 2 = 0 then fl else fl + 1

/-- The `float64` nearest to a non-negative rational (round to nearest, ties to even,
53-bit significand, gradual underflow), as a rational; not capped at the largest finite
`float64`. -/
def roundFloat64 (q : ℚ) : ℚ :=
  if q ≤ 0 then 0
  else
    let e : Int := max (floorLog2 q - 52) (-1074)
    (roundHalfEven (q / 2 ^ e) : ℚ) * 2 ^ e

/-- The statement `scale *= 10` on a `float64` that is a finite value or `+Inf` (`none`). -/
def scaleTimesTen (scale : Option ℚ) : Option ℚ :=
  match scale with
  | none => none
  | some s =>
    let r := roundFloat64 (s * 10)
    if r ≥ 2 ^ 1024 then none else some r

/-- Go `leadingFraction`, started with `x`, `scale` and `overflow`: the digits after
the point as `x / scale`, and the rest of the string. -/
def leadingFraction (x : Nat) (scale : Option ℚ) (overflow : Bool) :
    List Char → Nat × Option ℚ × List Char
  | [] => (x, scale, [])
  | c :: cs =>
    if !isDigit c then (x, scale, c :: cs)
    else if overflow then leadingFraction x scale overflow cs
    else if x > (2 ^ 63 - 1) / 10 then leadingFraction x scale true cs
    else
      let y := x * 10 + digitVal c
      if y > 2 ^ 63 then leadingFraction x scale true cs
      else leadingFraction y (scaleTimesTen scale) overflow cs

/-- The expression `uint64(float64(f) * (float64(unit) / scale))`. -/
def fractionUnits (f unit : Nat) (scale : Option ℚ) : Nat :=
  match scale with
  | none => 0
  | some s =>
    (Rat.floor (roundFloat64 (roundFloat64 f * roundFloat64 (roundFloat64 unit / s)))).toNat

/-- Go `unitMap`: nanoseconds per unit. -/
def unitMap (u : List Char) : Option Nat :=
  if u = ['n', 's'] then some 1
  else if u = ['u', 's'] then some 1000
  else if u = [Char.ofNat 0xB5, 's'] then some 1000
  else if u = [Char.ofNat 0x3BC, 's'] then some 1000
  else if u = ['m', 's'] then some 1000000
  else if u = ['s'] then some 1000000000
  else if u = ['m'] then some 60000000000
  else if u = ['h'] then some 3600000000000
  else none

/-- The step "consume `(\.[0-9]*)?`" of `ParseDuration`: `f`, `scale`, `post` and the
rest of the string. -/
def parseFraction (s : List Char) : Nat × Option ℚ × Bool × List Char :=
  match s with
  | '.' :: tail =>
    let r := leadingFraction 0 (some 1) false tail
    (r.1, r.2.1, decide (tail.length ≠ r.2.2.length), r.2.2)
  | _ => (0, some 1, false, s)

/-- The test `c == '.' || '0' <= c && c <= '9'` that ends a unit. -/
def isNumberChar (c : Char) : Bool := decide (c = '.') || isDigit c

/-- The loop `for s != ""` of `ParseDuration`: the accumulated `d`, or `none` for an
error. Every round consumes at least two characters, so `fuel = len(s)` rounds suffice. -/
def parseDurationLoop : Nat → List Char → Nat → Option Nat
  | _, [], d => some d
  | 0, _ :: _, _ => none
  | fuel + 1, c :: cs, d =>
    if !isNumberChar c then none
    else
      match leadingInt 0 (c :: cs) with
      | none => none
      | some (v, s1) =>
        let pre := decide ((c :: cs).length ≠ s1.length)
        let fr := parseFraction s1
        let f := fr.1
        let scale := fr.2.1
        let post := fr.2.2.1
        let s2 := fr.2.2.2
        if !pre && !post then none
        else
          let u := s2.takeWhile (fun c => !isNumberChar c)
          let s3 := s2.dropWhile (fun c => !isNumberChar c)
          if u.length = 0 then none
          else
            match unitMap u with
            | none => none
            | some unit =>
              if v > 2 ^ 63 / unit then none
              else
                let v1 := v * unit
                let v2 := if f > 0 then (v1 + fractionUnits f unit scale) % 2 ^ 64 else v1
                if f > 0 ∧ v2 > 2 ^ 63 then none
                else
                  let d1 := (d + v2) % 2 ^ 64
                  if d1 > 2 ^ 63 then none else parseDurationLoop fuel s3 d1

/-- Two's-complement wrapping of an integer into the range of `int64`. -/
def wrapInt64 (x : Int) : Int := (x + 2 ^ 63) % 2 ^ 64 - 2 ^ 63

/-- The body of `ParseDuration` after the step "consume `[-+]?`", on the rest `s` of
the string. -/
def parseUnsigned (neg : Bool) (s : List Char) : Option Int :=
  if s = ['0'] then some 0
  else if s = [] then none
  else
    match parseDurationLoop s.length s 0 with
    | none => none
    | some d =>
      if neg then some (wrapInt64 (-wrapInt64 d))
      else if d > 2 ^ 63 - 1 then none
      else some (wrapInt64 d)

/-- Go `time.ParseDuration`: the duration in nanoseconds, or `none` for an error. -/
def ParseDuration (s : String) : Option Int :=
  match s.toList with
  | c :: cs => if c = '-' ∨ c = '+' then parseUnsigned (decide (c = '-')) cs
               else parseUnsigned false (c :: cs)
  | [] => parseUnsigned false []

/-- The number written by a string of decimal digits. -/
def decimalValue (ds : List Char) : Nat := ds.foldl (fun x c => x * 10 + digitVal c) 0

/-! ## The retrying request executor (`client.go`, `doRequestWithRateLimit`) -/

/-- The value of `ctx.Err()` once the context is done. -/
inductive CtxErr where
  | canceled
  | deadlineExceeded
  deriving DecidableEq, Repr

/-- Go error values, as far as `doRequestWithRateLimit` builds and passes them on. -/
inductive Error where
  /-- The value `ctx.Err()`. -/
  | context (e : CtxErr)
  /-- An error made outside this code, such as the one returned by `HTTPClient.Do`. -/
  | external (msg : String)
  /-- The value `fmt.Errorf(msg)`. -/
  | errorf (msg : String)
  /-- The value `fmt.Errorf(msg + " %d", n)`. -/
  | errorfInt (msg : String) (n : Int)
  /-- The value `fmt.Errorf(msg + ": %w", inner)`. -/
  | wrap (msg : String) (inner : Error)
  /-- The value `fmt.Errorf("APIエラー (status: %d): %s", code, body)`. -/
  | apiStatus (code : Int) (body : String)
  deriving DecidableEq, Repr

/-- What the code reads of an `*http.Response`: the status code, the value of
`Header.Get("Retry-After")` (empty when the header is absent) and the body. -/
structure Response where
  StatusCode : Int
  RetryAfter : String
  Body : String
  deriving DecidableEq, Repr

/-- The two returns of `HTTPClient.Do`. -/
inductive NetOutcome where
  | failure (err : Error)
  | response (resp : Response)
  deriving DecidableEq, Repr

/-- What the environment presents to one attempt of the retry loop: the passes of
its `Wait`, the outcome of its network call, and whether `ctx.Done()` wins the
`select` of its backoff. -/
structure AttemptEnv where
  passes : List Pass
  net : NetOutcome
  ctxDone : Bool
  deriving DecidableEq, Repr

/-- The two returns of `doRequestWithRateLimit`, and the case that the script ended
inside a `Wait`. -/
inductive CallResult where
  | response (resp : Response)
  | error (err : Error)
  | blocked
  deriving DecidableEq, Repr

/-- A call of `doRequestWithRateLimit`: the limiter afterwards, the steps taken and
the result. -/
structure CallRun where
  rl : RateLimiter
  log : List Event
  result : CallResult
  deriving DecidableEq, Repr

/-- The constant `maxRetries`. -/
def maxRetries : Nat := 3

/-- The wait after a 429 (lines 65-72): the parsed `Retry-After` value, by default 2 s. -/
def retryAfterDelay (retryAfter : String) : Int :=
  let waitDuration : Int := 2 * Second
  if retryAfter ≠ "" then
    match ParseDuration (retryAfter ++ "s") with
    | some seconds => seconds
    | none => waitDuration
  else waitDuration

/-- The statement `select { case <-time.After(d): continue; case <-ctx.Done(): return nil,
ctx.Err() }`, reached with limiter `rl` after the steps `pre`; `next` is the run of the
following iterations. -/
def selectBackoff (ctxErr : CtxErr) (d : Int) (ctxDone : Bool) (rl : RateLimiter)
    (pre : List Event) (next : CallRun) : CallRun :=
  if ctxDone then
    { rl := rl, log := pre ++ [Event.backoff d], result := CallResult.error (Error.context ctxErr) }
  else
    { rl := next.rl, log := pre ++ Event.backoff d :: next.log, result := next.result }

/-- Lines 43-112 of the loop body: what iteration `attempt` does with the outcome of
its network call, reached with limiter `rl` after the steps `pre`; `next` is the run of
the following iterations (the target of `continue`). -/
def handleOutcome (ctxErr : CtxErr) (attempt : Nat) (out : NetOutcome) (ctxDone : Bool)
    (rl : RateLimiter) (pre : List Event) (next : CallRun) : CallRun :=
  match out with
  | NetOutcome.failure err =>
    if attempt < maxRetries - 1 then
      selectBackoff ctxErr Second ctxDone rl pre next
    else
      { rl := rl, log := pre
        result := CallResult.error (Error.wrap "HTTPリクエストエラー" err) }
  | NetOutcome.response resp =>
    if resp.StatusCode < 500 ∧ resp.StatusCode ≠ 429 then
      { rl := rl, log := pre, result := CallResult.response resp }
    else if resp.StatusCode = 429 then
      let waitDuration := retryAfterDelay resp.RetryAfter
      if attempt < maxRetries - 1 then
        selectBackoff ctxErr waitDuration ctxDone rl pre next
      else
        { rl := rl, log := pre
          result := CallResult.error (Error.errorf "レート制限エラー: 最大試行回数に到達") }
    else if resp.StatusCode ≥ 500 then
      if attempt < maxRetries - 1 then
        let waitTime : Int := ((attempt + 1 : Nat) : Int) * Second
        selectBackoff ctxErr waitTime ctxDone rl pre next
      else
        { rl := rl, log := pre
          result := CallResult.error
            (Error.errorfInt "サーバーエラー: ステータスコード" resp.StatusCode) }
    else
      { rl := rl, log := pre, result := CallResult.response resp }

/-- The loop of `doRequestWithRateLimit` from iteration `attempt` on, with limiter `rl`;
`fuel` bounds the number of iterations. -/
def attemptLoop (ctxErr : CtxErr) (env : Nat → AttemptEnv) :
    Nat → Nat → RateLimiter → CallRun
  | 0, _, rl =>
    { rl := rl, log := [], result := CallResult.error (Error.errorf "最大試行回数に到達") }
  | fuel + 1, attempt, rl =>
    if attempt < maxRetries then
      let w := Wait rl (env attempt).passes
      match w.result with
      | WaitResult.cancelled =>
        { rl := w.rl, log := w.log
          result := CallResult.error (Error.wrap "レート制限待機エラー" (Error.context ctxErr)) }
      | WaitResult.blocked => { rl := w.rl, log := w.log, result := CallResult.blocked }
      | WaitResult.ok =>
        handleOutcome ctxErr attempt (env attempt).net (env attempt).ctxDone w.rl
          (w.log ++ [Event.httpDo]) (attemptLoop ctxErr env fuel (attempt + 1) w.rl)
    else
      { rl := rl, log := [], result := CallResult.error (Error.errorf "最大試行回数に到達") }

/-- `Client.doRequestWithRateLimit` on the client's limiter `rl`. -/
def doRequestWithRateLimit (ctxErr : CtxErr) (env : Nat → AttemptEnv) (rl : RateLimiter) :
    CallRun :=
  attemptLoop ctxErr env maxRetries 0 rl

/-- Number of network calls among the steps of a run. -/
def networkCalls (log : List Event) : Nat := log.count Event.httpDo

/-- Number of admissions (successful calls of `Wait`) among the steps of a run. -/
def tokensConsumed (log : List Event) : Nat :=
  log.countP (fun e => match e with | Event.admitted _ => true | _ => false)

/-- The durations of the backoff waits among the steps of a run, in order. -/
def backoffDelays (log : List Event) : List Int :=
  log.filterMap (fun e => match e with | Event.backoff d => some d | _ => none)

/-- The limiter at the start of iteration `k` of a call whose earlier iterations each
went through their `Wait`. -/
def limiterAfter (env : Nat → AttemptEnv) (rl : RateLimiter) : Nat → RateLimiter
  | 0 => rl
  | k + 1 => (Wait (limiterAfter env rl k) (env k).passes).rl

/-- The `Wait` of each of the first `n` iterations returns nil. -/
def AdmittedThrough (env : Nat → AttemptEnv) (rl : RateLimiter) (n : Nat) : Prop :=
  ∀ k, k < n → (Wait (limiterAfter env rl k) (env k).passes).result = WaitResult.ok

instance (env : Nat → AttemptEnv) (rl : RateLimiter) (n : Nat) :
    Decidable (AdmittedThrough env rl n) := by
  unfold AdmittedThrough; infer_instance

/-- A header value that cannot begin a duration: after an optional sign, its first
character is neither a digit nor a dot (or there is none). -/
def nonNumericStart (v : String) : Bool :=
  match v.toList with
  | [] => true
  | c :: cs =>
    if c = '-' ∨ c = '+' then
      match cs with
      | [] => true
      | c1 :: _ => !isNumberChar c1
    else !isNumberChar c

/-- A view `tok`, `lim`, `win`, `rst` of one of the two windows follows a pass of
`Wait` the way the code treats a window: capacity and length stay, the expiry check
refills and re-dates the window exactly when `rst < t`, and an admission takes one
token from a positive count. -/
def TracksWindow (tok lim win rst : RateLimiter → Int) : Prop :=
  ∀ (rl : RateLimiter) (t : Int),
    lim (waitPass rl t).1 = lim rl ∧
    win (waitPass rl t).1 = win rl ∧
    rst (waitPass rl t).1 = (if rst rl < t then t + win rl else rst rl) ∧
    tok (waitPass rl t).1 =
      (if rst rl < t then lim rl else tok rl) -
        (if (waitPass rl t).2 = PassResult.admitted then 1 else 0) ∧
    ((waitPass rl t).2 = PassResult.admitted → 0 < (if rst rl < t then lim rl else tok rl))

/-- Consecutive calls of `Wait` on one limiter, each with its own script of passes. -/
def runWaits (rl : RateLimiter) : List (List Pass) → List WaitRun
  | [] => []
  | ps :: rest => Wait rl ps :: runWaits (Wait rl ps).rl rest

/-- The script that a single caller's clock presents to a call of `Wait` entered at
`now` when the signal never fires: after a sleep of `d` the next reading of the clock is
`now + d + late`, with the lateness of each wake-up taken from the list (all `0` for a
clock that advances by exactly the slept durations). The list bounds the number of
sleeps the script covers. -/
def clockScript : List Int → RateLimiter → Int → List Pass
  | [], _, now => [{ now := now, ctxDone := false }]
  | late :: lates, rl, now =>
    { now := now, ctxDone := false } ::
      (match waitPass rl now with
       | (_, PassResult.admitted) => []
       | (rl1, PassResult.sleep d) => clockScript lates rl1 (now + d + late))

/-- The durations of the sleeps of `Wait` among the steps of a run, in order. -/
def rateSleeps (log : List Event) : List Int :=
  log.filterMap (fun e => match e with | Event.rateSleep d => some d | _ => none)

/-- The limiter after only the expiry checks of passes at the given clock readings. -/
def refreshedThrough (rl : RateLimiter) (ps : List Pass) : RateLimiter :=
  ps.foldl (fun r p => refresh r p.now) rl

/-- Every window of the limiter either holds a token or has a reset time at or before
`t`: from `t` on, no window is both exhausted and still closed. -/
def AwakeBy (rl : RateLimiter) (t : Int) : Prop :=
  (0 < rl.shortTermTokens ∨ rl.shortTermReset ≤ t) ∧
  (0 < rl.longTermTokens ∨ rl.longTermReset ≤ t)

/-- The sum of the durations slept by `Wait` among the steps of a run. -/
def sleptTotal (log : List Event) : Int := (rateSleeps log).sum

/-- The larger of the remaining times to reset, `resetAt.Sub(now)`, taken over the windows
of `rl` that hold no token; a window holding a token contributes nothing (0). -/
def remainingOverExhausted (rl : RateLimiter) (now : Int) : Int :=
  max (if rl.shortTermTokens ≤ 0 then timeSub rl.shortTermReset now else 0)
    (if rl.longTermTokens ≤ 0 then timeSub rl.longTermReset now else 0)

/-- The operations of `ratelimiter.go` that write the fields of a limiter, each one
critical section under the mutex at its own reading of `time.Now()`: one pass through the
loop of `Wait`, a call of `GetStatus`, a call of `Reset`. -/
inductive LimiterOp where
  | pass (now : Int)
  | status (now : Int)
  | reset (now : Int)
  deriving DecidableEq, Repr

/-- The clock reading of an operation. -/
def opTime : LimiterOp → Int
  | LimiterOp.pass now => now
  | LimiterOp.status now => now
  | LimiterOp.reset now => now

/-- The limiter after one operation. -/
def applyOp (rl : RateLimiter) : LimiterOp → RateLimiter
  | LimiterOp.pass now => (waitPass rl now).1
  | LimiterOp.status now => (GetStatus rl now).1
  | LimiterOp.reset now => Reset rl now

/-- The limiter after a history of operations, in order. The fields of `RateLimiter` are
unexported and written by `NewRateLimiter`, `Wait`, `GetStatus` and `Reset` only, so the
states a limiter of the program can be in are the `applyOps (NewRateLimiter t0) ops`. -/
def applyOps (rl : RateLimiter) (ops : List LimiterOp) : RateLimiter :=
  ops.foldl applyOp rl

/-- What every limiter of the program keeps from `NewRateLimiter`: capacities 20 and 100,
window lengths 1 s and 2 min, and the window invariant. -/
def BuiltLimiter (rl : RateLimiter) : Prop :=
  (rl.shortTermLimit = 20 ∧ rl.longTermLimit = 100) ∧
  (rl.shortTermWindow = Second ∧ rl.longTermWindow = 2 * Minute) ∧
  WindowInvariant rl

/-! ## The sequential fetch orchestrator (`client.go`, `constants.go`, `types.go`)

The four functions `GetPlayer{Ranked,Normal,ARAM,All}AnalysisWithContext` are four copies
of one body that differ in the queue filter, in the `MatchType` string and in the text
wrapped around a history error; the body is embedded once, with these three as
parameters. Building the request URL, the progress lines and the decoding of JSON are not
modelled: the decoders `json.Unmarshal` are parameters, and the outcome of every network
call and of `io.ReadAll` is read from the script. -/

/-- The constant `QueueSoloRanked`. -/
def QueueSoloRanked : Int := 420

/-- The constant `QueueFlexRanked`. -/
def QueueFlexRanked : Int := 440

/-- The constant `QueueNormalDraft`. -/
def QueueNormalDraft : Int := 400

/-- The constant `QueueNormalBlind`. -/
def QueueNormalBlind : Int := 430

/-- The constant `QueueARAM`. -/
def QueueARAM : Int := 450

/-- `IsRankedQueue` of `constants.go`. -/
def IsRankedQueue (queueID : Int) : Bool :=
  decide (queueID = QueueSoloRanked) || decide (queueID = QueueFlexRanked)

/-- `IsNormalQueue` of `constants.go`. -/
def IsNormalQueue (queueID : Int) : Bool :=
  decide (queueID = QueueNormalDraft) || decide (queueID = QueueNormalBlind)

/-- `IsARAMQueue` of `constants.go`. -/
def IsARAMQueue (queueID : Int) : Bool := decide (queueID = QueueARAM)

/-- The struct `Account`. -/
structure Account where
  PUUID : String
  SummonerName : String
  TagLine : String
  deriving DecidableEq, Repr

/-- The struct `MatchMetadata`, reduced to the match identifier. -/
structure MatchMetadata where
  MatchID : String
  deriving DecidableEq, Repr

/-- The struct `MatchInfo`, reduced to the field the orchestrator reads. -/
structure MatchInfo where
  QueueID : Int
  deriving DecidableEq, Repr

/-- The struct `MatchDetail`. -/
structure MatchDetail where
  Metadata : MatchMetadata
  Info : MatchInfo
  deriving DecidableEq, Repr

/-- The struct `PlayerMatchSummary`. -/
structure PlayerMatchSummary where
  Account : Account
  MatchHistory : List MatchDetail
  GeneratedAt : Int
  TotalMatches : Int
  MatchType : String
  deriving DecidableEq, Repr

/-- The two returns of `GetMatchDetailWithContext`, and the case that the script ended
inside a `Wait`. -/
inductive FetchResult where
  | detail (d : MatchDetail)
  | error (err : Error)
  | blocked
  deriving DecidableEq, Repr

/-- A call of `GetMatchDetailWithContext`. -/
structure FetchRun where
  rl : RateLimiter
  log : List Event
  result : FetchResult
  deriving DecidableEq, Repr

/-- `Client.GetMatchDetailWithContext` on the client's limiter `rl`: `attempts` is the
script of its `doRequestWithRateLimit`, `readErr` the error of `io.ReadAll` if it fails,
`decode` stands for `json.Unmarshal` into a `MatchDetail`. -/
def GetMatchDetailWithContext (decode : String → Except Error MatchDetail) (ctxErr : CtxErr)
    (attempts : Nat → AttemptEnv) (readErr : Option Error) (rl : RateLimiter) : FetchRun :=
  let r := doRequestWithRateLimit ctxErr attempts rl
  match r.result with
  | CallResult.error err =>
    { rl := r.rl, log := r.log, result := FetchResult.error (Error.wrap "APIリクエストエラー" err) }
  | CallResult.blocked => { rl := r.rl, log := r.log, result := FetchResult.blocked }
  | CallResult.response resp =>
    if resp.StatusCode ≠ 200 then
      { rl := r.rl, log := r.log
        result := FetchResult.error (Error.apiStatus resp.StatusCode resp.Body) }
    else
      match readErr with
      | some err =>
        { rl := r.rl, log := r.log
          result := FetchResult.error (Error.wrap "レスポンス読み取りエラー" err) }
      | none =>
        match decode resp.Body with
        | Except.error err =>
          { rl := r.rl, log := r.log
            result := FetchResult.error (Error.wrap "JSON解析エラー" err) }
        | Except.ok d => { rl := r.rl, log := r.log, result := FetchResult.detail d }

/-- What the environment presents to the one network call of
`GetRankedMatchHistoryWithContext`. -/
structure HistoryEnv where
  net : NetOutcome
  readErr : Option Error
  deriving DecidableEq, Repr

/-- The two returns of `GetRankedMatchHistoryWithContext`. -/
inductive HistoryResult where
  | ids (matchHistory : List String)
  | error (err : Error)
  deriving DecidableEq, Repr

/-- `Client.GetRankedMatchHistoryWithContext`: one call of `c.HTTPClient.Do(request)`,
made directly, and the decoding of its answer; `decodeIDs` stands for `json.Unmarshal`
into a `MatchHistory`. -/
def GetRankedMatchHistoryWithContext (decodeIDs : String → Except Error (List String))
    (h : HistoryEnv) : HistoryResult :=
  match h.net with
  | NetOutcome.failure err => HistoryResult.error (Error.wrap "APIリクエストエラー" err)
  | NetOutcome.response response =>
    if response.StatusCode ≠ 200 then
      HistoryResult.error (Error.apiStatus response.StatusCode response.Body)
    else
      match h.readErr with
      | some err => HistoryResult.error (Error.wrap "レスポンス抽出エラー" err)
      | none =>
        match decodeIDs response.Body with
        | Except.error err => HistoryResult.error (Error.wrap "JSONパースエラー" err)
        | Except.ok matchHistory => HistoryResult.ids matchHistory

/-- What the environment presents to iteration `i` of the fetch loop: whether the
non-blocking check `case <-ctx.Done()` at its top finds the signal fired, and the script
of its `GetMatchDetailWithContext`. -/
structure ItemEnv where
  ctxDone : Bool
  attempts : Nat → AttemptEnv
  readErr : Option Error

/-- How the fetch loop ends: it falls through with `matchDetails`, it returns an error,
or the script ended inside a `Wait`. -/
inductive LoopResult where
  | done (matchDetails : List MatchDetail)
  | error (err : Error)
  | blocked
  deriving DecidableEq, Repr

/-- A run of the fetch loop; `fetched` lists the identifiers handed to
`GetMatchDetailWithContext`, in order. -/
structure LoopRun where
  rl : RateLimiter
  log : List Event
  fetched : List String
  result : LoopResult
  deriving DecidableEq, Repr

/-- The loop `for i, matchID := range matchIDs` from index `i` on, with limiter `rl` and
accumulator `matchDetails`; `keep` is the queue filter of the variant. -/
def fetchLoop (keep : Int → Bool) (decode : String → Except Error MatchDetail)
    (ctxErr : CtxErr) (items : Nat → ItemEnv) :
    List String → Nat → RateLimiter → List MatchDetail → LoopRun
  | [], _, rl, matchDetails =>
    { rl := rl, log := [], fetched := [], result := LoopResult.done matchDetails }
  | matchID :: rest, i, rl, matchDetails =>
    if (items i).ctxDone then
      { rl := rl, log := [], fetched := []
        result := LoopResult.error
          (Error.wrap "処理がキャンセルされました" (Error.context ctxErr)) }
    else
      let f := GetMatchDetailWithContext decode ctxErr (items i).attempts (items i).readErr rl
      match f.result with
      | FetchResult.blocked =>
        { rl := f.rl, log := f.log, fetched := [matchID], result := LoopResult.blocked }
      | FetchResult.error _ =>
        let r := fetchLoop keep decode ctxErr items rest (i + 1) f.rl matchDetails
        { rl := r.rl, log := f.log ++ r.log, fetched := matchID :: r.fetched
          result := r.result }
      | FetchResult.detail d =>
        let r := fetchLoop keep decode ctxErr items rest (i + 1) f.rl
          (if keep d.Info.QueueID then matchDetails ++ [d] else matchDetails)
        { rl := r.rl, log := f.log ++ r.log, fetched := matchID :: r.fetched
          result := r.result }

/-- The two returns of an analysis function, and the case that the script ended inside a
`Wait`. -/
inductive JobResult where
  | summary (s : PlayerMatchSummary)
  | error (err : Error)
  | blocked
  deriving DecidableEq, Repr

/-- A run of an analysis function. -/
structure JobRun where
  rl : RateLimiter
  log : List Event
  fetched : List String
  result : JobResult
  deriving DecidableEq, Repr

/-- The common body of the four analysis functions on the client's limiter `rl`;
`generatedAt` is the reading of `time.Now()` for the summary. -/
def playerAnalysisWithContext (keep : Int → Bool) (matchType historyErr : String)
    (decodeIDs : String → Except Error (List String))
    (decode : String → Except Error MatchDetail) (ctxErr : CtxErr) (account : Account)
    (history : HistoryEnv) (generatedAt : Int) (items : Nat → ItemEnv) (rl : RateLimiter) :
    JobRun :=
  match GetRankedMatchHistoryWithContext decodeIDs history with
  | HistoryResult.error err =>
    { rl := rl, log := [Event.httpDo], fetched := []
      result := JobResult.error (Error.wrap historyErr err) }
  | HistoryResult.ids matchIDs =>
    if matchIDs.length = 0 then
      { rl := rl, log := [Event.httpDo], fetched := []
        result := JobResult.summary
          { Account := account, MatchHistory := [], GeneratedAt := generatedAt
            TotalMatches := 0, MatchType := matchType } }
    else
      let r := fetchLoop keep decode ctxErr items matchIDs 0 rl []
      { rl := r.rl, log := Event.httpDo :: r.log, fetched := r.fetched
        result :=
          match r.result with
          | LoopResult.done matchDetails =>
            JobResult.summary
              { Account := account, MatchHistory := matchDetails, GeneratedAt := generatedAt
                TotalMatches := matchDetails.length, MatchType := matchType }
          | LoopResult.error err => JobResult.error err
          | LoopResult.blocked => JobResult.blocked }

/-- `Client.GetPlayerRankedAnalysisWithContext`. -/
def GetPlayerRankedAnalysisWithContext :=
  playerAnalysisWithContext IsRankedQueue "ranked" "ランク戦マッチ履歴取得エラー"

/-- `Client.GetPlayerNormalAnalysisWithContext`. -/
def GetPlayerNormalAnalysisWithContext :=
  playerAnalysisWithContext IsNormalQueue "normal" "マッチ履歴取得エラー"

/-- `Client.GetPlayerARAMAnalysisWithContext`. -/
def GetPlayerARAMAnalysisWithContext :=
  playerAnalysisWithContext IsARAMQueue "aram" "マッチ履歴取得エラー"

/-- `Client.GetPlayerAllAnalysisWithContext`, which keeps every fetched match. -/
def GetPlayerAllAnalysisWithContext :=
  playerAnalysisWithContext (fun _ => true) "all" "マッチ履歴取得エラー"

/-- The limiter at the start of iteration `i` of the fetch loop begun on `rl`. -/
def limiterAtItem (decode : String → Except Error MatchDetail) (ctxErr : CtxErr)
    (items : Nat → ItemEnv) (rl : RateLimiter) : Nat → RateLimiter
  | 0 => rl
  | i + 1 =>
    (GetMatchDetailWithContext decode ctxErr (items i).attempts (items i).readErr
      (limiterAtItem decode ctxErr items rl i)).rl

/-- The fetch of the identifier at index `i` in a loop begun on `rl`. -/
def itemFetch (decode : String → Except Error MatchDetail) (ctxErr : CtxErr)
    (items : Nat → ItemEnv) (rl : RateLimiter) (i : Nat) : FetchRun :=
  GetMatchDetailWithContext decode ctxErr (items i).attempts (items i).readErr
    (limiterAtItem decode ctxErr items rl i)

/-- The detail a fetch contributes to the result: the one it returned, if it returned one
and its queue passes the filter. -/
def keptDetail (keep : Int → Bool) : FetchResult → Option MatchDetail
  | FetchResult.detail d => if keep d.Info.QueueID then some d else none
  | _ => none

/-- The details contributed by the fetches at the indices `i`, ..., `i + n - 1`, in the
order of the indices. -/
def keptDetails (keep : Int → Bool) (decode : String → Except Error MatchDetail)
    (ctxErr : CtxErr) (items : Nat → ItemEnv) (rl : RateLimiter) (i n : Nat) :
    List MatchDetail :=
  (List.range' i n).filterMap
    (fun j => keptDetail keep (itemFetch decode ctxErr items rl j).result)

/-- Ten match identifiers, for the scripted runs below. -/
def tenMatchIDs : List String :=
  ["m1", "m2", "m3", "m4", "m5", "m6", "m7", "m8", "m9", "m10"]

/-- A decoder for the scripted runs: the body is the match identifier, the queue is the
solo ranked queue. -/
def scriptedDecode (body : String) : Except Error MatchDetail :=
  Except.ok { Metadata := { MatchID := body }, Info := { QueueID := QueueSoloRanked } }

/-- A history answer for the scripted runs: status 200, decoded to the given identifiers. -/
def scriptedHistory : HistoryEnv :=
  { net := NetOutcome.response { StatusCode := 200, RetryAfter := "", Body := "ids" }
    readErr := none }

/-- A script for the fetch loop over `ids`: every `Wait` is entered at time 5, the fetch
at index `i` is answered with status 500 on every attempt when `failing i` and with
status 200 and the identifier as body otherwise, and the check before iteration `i`
finds the signal fired when `cancelled i`. -/
def scriptedItems (ids : List String) (failing cancelled : Nat → Bool) : Nat → ItemEnv :=
  fun i =>
    { ctxDone := cancelled i
      attempts := fun _ =>
        { passes := [{ now := 5, ctxDone := false }]
          net := NetOutcome.response
            { StatusCode := if failing i then 500 else 200, RetryAfter := ""
              Body := ids.getD i "" }
          ctxDone := false }
      readErr := none }

/-- Whether a fetch returned an error: the branch `if err != nil` of the loop, which
prints the failure and continues. -/
def fetchFailed : FetchResult → Bool
  | FetchResult.error _ => true
  | _ => false

/-- Whether a fetch returned a detail that the queue filter `keep` of the variant does not
let into `matchDetails`. -/
def fetchRejected (keep : Int → Bool) : FetchResult → Bool
  | FetchResult.detail d => !keep d.Info.QueueID
  | _ => false

/-- The number of identifiers at the indices `i`, ..., `i + n - 1` whose fetch failed. -/
def failedFetches (decode : String → Except Error MatchDetail) (ctxErr : CtxErr)
    (items : Nat → ItemEnv) (rl : RateLimiter) (i n : Nat) : Nat :=
  (List.range' i n).countP (fun j => fetchFailed (itemFetch decode ctxErr items rl j).result)

/-- The number of identifiers at the indices `i`, ..., `i + n - 1` whose fetch returned a
detail that the queue filter does not keep. -/
def rejectedFetches (keep : Int → Bool) (decode : String → Except Error MatchDetail)
    (ctxErr : CtxErr) (items : Nat → ItemEnv) (rl : RateLimiter) (i n : Nat) : Nat :=
  (List.range' i n).countP
    (fun j => fetchRejected keep (itemFetch decode ctxErr items rl j).result)

/-- A decoder for scripted runs over matches of two queues: the body is the match
identifier; the match `"m2"` was played in the ARAM queue, every other one in the solo
ranked queue. -/
def scriptedDecodeQueues (body : String) : Except Error MatchDetail :=
  Except.ok
    { Metadata := { MatchID := body }
      Info := { QueueID := if body = "m2" then QueueARAM else QueueSoloRanked } }

/-! ## Basic facts about one pass of `Wait` -/

theorem refresh_shortTermTokens (rl : RateLimiter) (now : Int) :
    (refresh rl now).shortTermTokens =
      if rl.shortTermReset < now then rl.shortTermLimit else rl.shortTermTokens := by
  unfold refresh refreshLong refreshShort timeAfter
  split_ifs <;> simp_all

theorem refresh_longTermTokens (rl : RateLimiter) (now : Int) :
    (refresh rl now).longTermTokens =
      if rl.longTermReset < now then rl.longTermLimit else rl.longTermTokens := by
  unfold refresh refreshLong refreshShort timeAfter
  split_ifs <;> simp_all

theorem refresh_shortTermReset (rl : RateLimiter) (now : Int) :
    (refresh rl now).shortTermReset =
      if rl.shortTermReset < now then now + rl.shortTermWindow else rl.shortTermReset := by
  unfold refresh refreshLong refreshShort timeAfter timeAdd
  split_ifs <;> simp_all

theorem refresh_longTermReset (rl : RateLimiter) (now : Int) :
    (refresh rl now).longTermReset =
      if rl.longTermReset < now then now + rl.longTermWindow else rl.longTermReset := by
  unfold refresh refreshLong refreshShort timeAfter timeAdd
  split_ifs <;> simp_all

theorem refresh_limits (rl : RateLimiter) (now : Int) :
    (refresh rl now).shortTermLimit = rl.shortTermLimit ∧
    (refresh rl now).longTermLimit = rl.longTermLimit ∧
    (refresh rl now).shortTermWindow = rl.shortTermWindow ∧
    (refresh rl now).longTermWindow = rl.longTermWindow := by
  unfold refresh refreshLong refreshShort
  split_ifs <;> simp_all

theorem waitPass_admitted_iff (rl : RateLimiter) (now : Int) :
    (waitPass rl now).2 = PassResult.admitted ↔
      0 < (refresh rl now).shortTermTokens ∧ 0 < (refresh rl now).longTermTokens := by
  unfold waitPass
  by_cases h : (refresh rl now).shortTermTokens > 0 ∧ (refresh rl now).longTermTokens > 0
  · simp only [h, and_self, if_true]
  · rw [if_neg h]
    exact ⟨fun h' => (by cases h'), fun h' => absurd h' h⟩

theorem waitPass_of_admitted (rl : RateLimiter) (now : Int)
    (h : (waitPass rl now).2 = PassResult.admitted) :
    (waitPass rl now).1 =
      { refresh rl now with
        shortTermTokens := (refresh rl now).shortTermTokens - 1
        longTermTokens := (refresh rl now).longTermTokens - 1 } := by
  have h' := (waitPass_admitted_iff rl now).1 h
  unfold waitPass
  simp only [gt_iff_lt, h', and_self, if_true]

theorem waitPass_of_not_admitted (rl : RateLimiter) (now : Int)
    (h : (waitPass rl now).2 ≠ PassResult.admitted) :
    (waitPass rl now).1 = refresh rl now := by
  have h' : ¬ (0 < (refresh rl now).shortTermTokens ∧ 0 < (refresh rl now).longTermTokens) :=
    fun hp => h ((waitPass_admitted_iff rl now).2 hp)
  unfold waitPass
  simp only [gt_iff_lt, h', if_false]

theorem Wait_cons_admitted (rl : RateLimiter) (p : Pass) (ps : List Pass)
    (h : (waitPass rl p.now).2 = PassResult.admitted) :
    Wait rl (p :: ps) =
      { rl := (waitPass rl p.now).1, log := [Event.admitted p.now], result := WaitResult.ok } := by
  rw [Wait]
  rcases hw : waitPass rl p.now with ⟨rl1, res⟩
  rw [hw] at h
  cases res with
  | admitted => rfl
  | sleep d => cases h

theorem Wait_cons_sleep (rl : RateLimiter) (p : Pass) (ps : List Pass) (d : Int)
    (h : (waitPass rl p.now).2 = PassResult.sleep d) :
    Wait rl (p :: ps) =
      if p.ctxDone then
        { rl := (waitPass rl p.now).1, log := [Event.rateSleep d],
          result := WaitResult.cancelled }
      else
        { rl := (Wait (waitPass rl p.now).1 ps).rl
          log := Event.rateSleep d :: (Wait (waitPass rl p.now).1 ps).log
          result := (Wait (waitPass rl p.now).1 ps).result } := by
  rw [Wait]
  rcases hw : waitPass rl p.now with ⟨rl1, res⟩
  rw [hw] at h
  cases res with
  | admitted => cases h
  | sleep d1 =>
    cases h
    rfl

theorem waitPass_sleep_of_not_admitted (rl : RateLimiter) (now : Int)
    (h : (waitPass rl now).2 ≠ PassResult.admitted) :
    (waitPass rl now).2 = PassResult.sleep (computeWaitTime (refresh rl now) now) := by
  have h' : ¬ (0 < (refresh rl now).shortTermTokens ∧ 0 < (refresh rl now).longTermTokens) :=
    fun hp => h ((waitPass_admitted_iff rl now).2 hp)
  unfold waitPass
  simp only [gt_iff_lt, h', if_false]

/-! ## The claims about one pass of `Wait` -/

/-- C1: one pass of `Wait` at time `now` admits (returns nil, logging no sleep) exactly
when, after the expiry refresh at `now`, both token counts are positive; an admitting
pass takes exactly one token from each window, and a pass that does not admit leaves
both refreshed token counts as they are and goes to sleep. -/
theorem C1_pass_admits_iff_both_windows (rl : RateLimiter) (now : Int) :
    ((waitPass rl now).2 = PassResult.admitted ↔
      0 < (refresh rl now).shortTermTokens ∧ 0 < (refresh rl now).longTermTokens) ∧
    ((waitPass rl now).2 = PassResult.admitted →
      (waitPass rl now).1.shortTermTokens = (refresh rl now).shortTermTokens - 1 ∧
      (waitPass rl now).1.longTermTokens = (refresh rl now).longTermTokens - 1 ∧
      ∀ (c : Bool) (ps : List Pass),
        Wait rl ({ now := now, ctxDone := c } :: ps) =
          { rl := (waitPass rl now).1, log := [Event.admitted now],
            result := WaitResult.ok }) ∧
    ((waitPass rl now).2 ≠ PassResult.admitted →
      (waitPass rl now).1.shortTermTokens = (refresh rl now).shortTermTokens ∧
      (waitPass rl now).1.longTermTokens = (refresh rl now).longTermTokens ∧
      ∀ (c : Bool) (ps : List Pass),
        (Wait rl ({ now := now, ctxDone := c } :: ps)).log.head? =
          some (Event.rateSleep (computeWaitTime (refresh rl now) now))) := by
  refine ⟨waitPass_admitted_iff rl now, ?_, ?_⟩
  · intro h
    refine ⟨?_, ?_, ?_⟩
    · rw [waitPass_of_admitted rl now h]
    · rw [waitPass_of_admitted rl now h]
    · intro c ps
      exact Wait_cons_admitted rl { now := now, ctxDone := c } ps h
  · intro h
    refine ⟨?_, ?_, ?_⟩
    · rw [waitPass_of_not_admitted rl now h]
    · rw [waitPass_of_not_admitted rl now h]
    · intro c ps
      rw [Wait_cons_sleep rl { now := now, ctxDone := c } ps _
        (waitPass_sleep_of_not_admitted rl now h)]
      cases c <;> simp

/-- C1 at concrete states: a fresh limiter admits and goes from 20/100 to 19/99; with the
long window at 0 and the short one at 5 the pass does not admit and keeps 5 and 0. -/
theorem C1_pass_admits_iff_both_windows_witness :
    ((waitPass (NewRateLimiter 0) 5).1.shortTermTokens = 20 - 1 ∧
      (waitPass (NewRateLimiter 0) 5).1.longTermTokens = 100 - 1) ∧
    ((waitPass { NewRateLimiter 0 with shortTermTokens := 5, longTermTokens := 0 } 5).1.shortTermTokens = 5 ∧
      (waitPass { NewRateLimiter 0 with shortTermTokens := 5, longTermTokens := 0 } 5).1.longTermTokens = 0) :=
  ⟨⟨((C1_pass_admits_iff_both_windows (NewRateLimiter 0) 5).2.1 (by decide)).1,
    ((C1_pass_admits_iff_both_windows (NewRateLimiter 0) 5).2.1 (by decide)).2.1⟩,
   ⟨((C1_pass_admits_iff_both_windows
        { NewRateLimiter 0 with shortTermTokens := 5, longTermTokens := 0 } 5).2.2
        (by decide)).1,
    ((C1_pass_admits_iff_both_windows
        { NewRateLimiter 0 with shortTermTokens := 5, longTermTokens := 0 } 5).2.2
        (by decide)).2.1⟩⟩

theorem WindowInvariant_refresh (rl : RateLimiter) (now : Int) (h : WindowInvariant rl) :
    WindowInvariant (refresh rl now) := by
  unfold WindowInvariant at *
  rw [refresh_shortTermTokens, refresh_longTermTokens, (refresh_limits rl now).1,
    (refresh_limits rl now).2.1]
  split_ifs <;> omega

theorem WindowInvariant_waitPass (rl : RateLimiter) (now : Int) (h : WindowInvariant rl) :
    WindowInvariant (waitPass rl now).1 := by
  have hr := WindowInvariant_refresh rl now h
  by_cases ha : (waitPass rl now).2 = PassResult.admitted
  · have hp := (waitPass_admitted_iff rl now).1 ha
    rw [waitPass_of_admitted rl now ha]
    unfold WindowInvariant at *
    simp only
    omega
  · rw [waitPass_of_not_admitted rl now ha]
    exact hr

theorem WindowInvariant_Wait (ps : List Pass) :
    ∀ rl : RateLimiter, WindowInvariant rl → WindowInvariant (Wait rl ps).rl := by
  induction ps with
  | nil => intro rl h; exact h
  | cons p ps ih =>
    intro rl h
    have hp := WindowInvariant_waitPass rl p.now h
    by_cases ha : (waitPass rl p.now).2 = PassResult.admitted
    · rw [Wait_cons_admitted rl p ps ha]
      exact hp
    · rw [Wait_cons_sleep rl p ps _ (waitPass_sleep_of_not_admitted rl p.now ha)]
      split_ifs
      · exact hp
      · exact ih _ hp

/-- C3: the limiter built by `NewRateLimiter` satisfies `0 ≤ tokens ≤ limit` in both
windows, and a pass of `Wait`, a whole call of `Wait` (any script), `GetStatus` and
`Reset` each preserve it, at every clock reading. -/
theorem C3_window_invariant_preserved :
    (∀ now : Int, WindowInvariant (NewRateLimiter now)) ∧
    (∀ (rl : RateLimiter) (now : Int), WindowInvariant rl →
      WindowInvariant (waitPass rl now).1 ∧
      WindowInvariant (GetStatus rl now).1 ∧
      WindowInvariant (Reset rl now)) ∧
    (∀ (rl : RateLimiter) (ps : List Pass), WindowInvariant rl →
      WindowInvariant (Wait rl ps).rl) := by
  refine ⟨?_, ?_, ?_⟩
  · intro now
    unfold WindowInvariant NewRateLimiter
    simp
  · intro rl now h
    refine ⟨WindowInvariant_waitPass rl now h, WindowInvariant_refresh rl now h, ?_⟩
    unfold WindowInvariant Reset at *
    simp only
    omega
  · intro rl ps h
    exact WindowInvariant_Wait ps rl h

/-- C3 on the fresh limiter of time 0: the invariant holds after a pass at time 5, after
`GetStatus` and `Reset` at time 5, and after a scripted call of `Wait`. -/
theorem C3_window_invariant_preserved_witness :
    WindowInvariant (NewRateLimiter 0) ∧
    (WindowInvariant (waitPass (NewRateLimiter 0) 5).1 ∧
      WindowInvariant (GetStatus (NewRateLimiter 0) 5).1 ∧
      WindowInvariant (Reset (NewRateLimiter 0) 5)) ∧
    WindowInvariant (Wait (NewRateLimiter 0) [{ now := 5, ctxDone := false }]).rl :=
  ⟨C3_window_invariant_preserved.1 0,
   C3_window_invariant_preserved.2.1 (NewRateLimiter 0) 5 (by decide),
   C3_window_invariant_preserved.2.2 (NewRateLimiter 0) [{ now := 5, ctxDone := false }]
     (by decide)⟩

/-- C4: in a pass of `Wait` at `now`, a window whose `resetAt` lies before `now` is
refilled to its capacity by the expiry check and gets `resetAt = now + windowLength`
(the pass ends with capacity, less the one token of an admission); a window whose
`resetAt` is not before `now` keeps its `resetAt` and its count does not grow. After the
pass a count is below its refreshed value only if the pass admitted, and on a limiter
satisfying the invariant it is below its value before the pass only if the pass
admitted. -/
theorem C4_refill_exactly_when_expired (rl : RateLimiter) (now : Int) :
    (rl.shortTermReset < now →
      (refresh rl now).shortTermTokens = rl.shortTermLimit ∧
      (waitPass rl now).1.shortTermReset = now + rl.shortTermWindow ∧
      (waitPass rl now).1.shortTermTokens =
        rl.shortTermLimit - (if (waitPass rl now).2 = PassResult.admitted then 1 else 0)) ∧
    (¬ rl.shortTermReset < now →
      (refresh rl now).shortTermTokens = rl.shortTermTokens ∧
      (waitPass rl now).1.shortTermReset = rl.shortTermReset ∧
      (waitPass rl now).1.shortTermTokens ≤ rl.shortTermTokens) ∧
    (rl.longTermReset < now →
      (refresh rl now).longTermTokens = rl.longTermLimit ∧
      (waitPass rl now).1.longTermReset = now + rl.longTermWindow ∧
      (waitPass rl now).1.longTermTokens =
        rl.longTermLimit - (if (waitPass rl now).2 = PassResult.admitted then 1 else 0)) ∧
    (¬ rl.longTermReset < now →
      (refresh rl now).longTermTokens = rl.longTermTokens ∧
      (waitPass rl now).1.longTermReset = rl.longTermReset ∧
      (waitPass rl now).1.longTermTokens ≤ rl.longTermTokens) ∧
    ((waitPass rl now).1.shortTermTokens < (refresh rl now).shortTermTokens ∨
      (waitPass rl now).1.longTermTokens < (refresh rl now).longTermTokens →
      (waitPass rl now).2 = PassResult.admitted) ∧
    (WindowInvariant rl →
      (waitPass rl now).1.shortTermTokens < rl.shortTermTokens ∨
        (waitPass rl now).1.longTermTokens < rl.longTermTokens →
      (waitPass rl now).2 = PassResult.admitted) := by
  have hst := refresh_shortTermTokens rl now
  have hlt := refresh_longTermTokens rl now
  have hsr := refresh_shortTermReset rl now
  have hlr := refresh_longTermReset rl now
  by_cases ha : (waitPass rl now).2 = PassResult.admitted
  · have hw := waitPass_of_admitted rl now ha
    simp only [ha, if_true, hw, hsr, hlr, hst, hlt, implies_true, and_true]
    refine ⟨?_, ?_, ?_, ?_⟩ <;> intro h <;> simp [h]
  · have hw := waitPass_of_not_admitted rl now ha
    simp only [ha, if_false, hw, hsr, hlr, hst, hlt, lt_self_iff_false, or_self,
      false_implies, true_and, sub_zero]
    refine ⟨?_, ?_, ?_, ?_, ?_⟩
    · intro h; simp [h]
    · intro h; simp [h]
    · intro h; simp [h]
    · intro h; simp [h]
    · intro hinv h
      unfold WindowInvariant at hinv
      split_ifs at h <;> omega

/-- C4 on the fresh limiter of time 0 at time 2 s: the short window (reset at 1 s) is
refilled to 20, reset at 3 s, and ends at 19; the long window (reset at 120 s) keeps its
reset time and does not grow; the short count fell, and the pass admitted. -/
theorem C4_refill_exactly_when_expired_witness :
    ((refresh (NewRateLimiter 0) 2000000000).shortTermTokens = 20 ∧
      (waitPass (NewRateLimiter 0) 2000000000).1.shortTermReset = 3000000000 ∧
      (waitPass (NewRateLimiter 0) 2000000000).1.shortTermTokens = 19) ∧
    ((refresh (NewRateLimiter 0) 2000000000).longTermTokens = 100 ∧
      (waitPass (NewRateLimiter 0) 2000000000).1.longTermReset = 120000000000 ∧
      (waitPass (NewRateLimiter 0) 2000000000).1.longTermTokens ≤ 100) ∧
    (waitPass (NewRateLimiter 0) 2000000000).2 = PassResult.admitted ∧
    (waitPass (NewRateLimiter 0) 2000000000).2 = PassResult.admitted :=
  ⟨(C4_refill_exactly_when_expired (NewRateLimiter 0) 2000000000).1 (by decide),
   (C4_refill_exactly_when_expired (NewRateLimiter 0) 2000000000).2.2.2.1 (by decide),
   (C4_refill_exactly_when_expired (NewRateLimiter 0) 2000000000).2.2.2.2.1
     (Or.inl (by decide)),
   (C4_refill_exactly_when_expired (NewRateLimiter 0) 2000000000).2.2.2.2.2 (by decide)
     (Or.inl (by decide))⟩

/-! ## Admissions inside a time interval -/

theorem admissionsIn_nil (rl : RateLimiter) (a b : Int) : admissionsIn rl [] a b = 0 := rfl

theorem admissionsIn_cons (rl : RateLimiter) (t : Int) (ts : List Int) (a b : Int) :
    admissionsIn rl (t :: ts) a b =
      admissionsIn (waitPass rl t).1 ts a b +
        (if (waitPass rl t).2 = PassResult.admitted ∧ a ≤ t ∧ t ≤ b then 1 else 0) := by
  unfold admissionsIn
  rw [runPasses, List.countP_cons]
  congr 1
  by_cases h : (waitPass rl t).2 = PassResult.admitted ∧ a ≤ t ∧ t ≤ b
  · simp [h]
  · rw [if_neg h]
    simp only [Bool.and_eq_true, decide_eq_true_eq, ite_eq_right_iff, one_ne_zero, imp_false]
    tauto

theorem admissionsIn_of_late (a b : Int) (ts : List Int) :
    ∀ rl : RateLimiter, (∀ t ∈ ts, b < t) → admissionsIn rl ts a b = 0 := by
  induction ts with
  | nil => intro rl _; rfl
  | cons t ts ih =>
    intro rl h
    rw [admissionsIn_cons, ih _ (fun t' ht' => h t' (List.mem_cons_of_mem _ ht'))]
    have := h t (List.mem_cons_self _ _)
    rw [if_neg (by omega)]

theorem tracksWindow_short :
    TracksWindow (fun rl => rl.shortTermTokens) (fun rl => rl.shortTermLimit)
      (fun rl => rl.shortTermWindow) (fun rl => rl.shortTermReset) := by
  intro rl t
  have hst := refresh_shortTermTokens rl t
  have hsr := refresh_shortTermReset rl t
  have hl := refresh_limits rl t
  by_cases ha : (waitPass rl t).2 = PassResult.admitted
  · have hp := (waitPass_admitted_iff rl t).1 ha
    rw [hst] at hp
    simp only [waitPass_of_admitted rl t ha, ha, if_true, hst, hsr, hl.1, hl.2.2.1,
      true_and, forall_const]
    exact hp.1
  · simp only [waitPass_of_not_admitted rl t ha, ha, if_false, hst, hsr, hl.1, hl.2.2.1,
      true_and, sub_zero, false_implies, and_true]

theorem tracksWindow_long :
    TracksWindow (fun rl => rl.longTermTokens) (fun rl => rl.longTermLimit)
      (fun rl => rl.longTermWindow) (fun rl => rl.longTermReset) := by
  intro rl t
  have hst := refresh_longTermTokens rl t
  have hsr := refresh_longTermReset rl t
  have hl := refresh_limits rl t
  by_cases ha : (waitPass rl t).2 = PassResult.admitted
  · have hp := (waitPass_admitted_iff rl t).1 ha
    rw [hst] at hp
    simp only [waitPass_of_admitted rl t ha, ha, if_true, hst, hsr, hl.2.1, hl.2.2.2,
      true_and, forall_const]
    exact hp.2
  · simp only [waitPass_of_not_admitted rl t ha, ha, if_false, hst, hsr, hl.2.1, hl.2.2.2,
      true_and, sub_zero, false_implies, and_true]

/-- While a window cannot be refilled before the end `b` of the interval, the admissions
up to `b` are paid from the tokens it holds. -/
theorem admissionsIn_le_tokens (tok lim win rst : RateLimiter → Int)
    (H : TracksWindow tok lim win rst) (a b : Int) (ts : List Int) :
    ∀ rl : RateLimiter, ts.Pairwise (fun x y => x ≤ y) → 0 ≤ tok rl → b ≤ rst rl →
      (admissionsIn rl ts a b : Int) ≤ tok rl := by
  induction ts with
  | nil => intro rl _ h0 _; simpa [admissionsIn_nil] using h0
  | cons t ts ih =>
    intro rl hs h0 hb
    rw [List.pairwise_cons] at hs
    obtain ⟨_, _, hr, ht, hp⟩ := H rl t
    rw [admissionsIn_cons]
    by_cases htb : t ≤ b
    · have hnr : ¬ rst rl < t := by omega
      rw [if_neg hnr] at hr ht hp
      by_cases ha : (waitPass rl t).2 = PassResult.admitted
      · rw [if_pos ha] at ht
        have hpos := hp ha
        have := ih (waitPass rl t).1 hs.2 (by omega) (by omega)
        split_ifs <;> push_cast <;> omega
      · rw [if_neg ha] at ht
        have := ih (waitPass rl t).1 hs.2 (by omega) (by omega)
        rw [if_neg (fun h => ha h.1)]
        push_cast
        omega
    · rw [admissionsIn_of_late a b ts _ (fun t' ht' => by have := hs.1 t' ht'; omega),
        if_neg (by omega)]
      simpa using h0

/-- From a state within the invariant, passes that all lie at or after `a` admit at most
`tokens + capacity` requests up to `a + windowLength`: at most one refill falls there. -/
theorem admissionsIn_le_tokens_add_limit (tok lim win rst : RateLimiter → Int)
    (H : TracksWindow tok lim win rst) (a : Int) (ts : List Int) :
    ∀ rl : RateLimiter, ts.Pairwise (fun x y => x ≤ y) → (∀ t ∈ ts, a ≤ t) →
      0 ≤ tok rl → tok rl ≤ lim rl →
      (admissionsIn rl ts a (a + win rl) : Int) ≤ tok rl + lim rl := by
  induction ts with
  | nil => intro rl _ _ h0 h1; simp only [admissionsIn_nil, Nat.cast_zero]; omega
  | cons t ts ih =>
    intro rl hs hge h0 h1
    have hs' := List.pairwise_cons.1 hs
    obtain ⟨hl, hw, hr, ht, hp⟩ := H rl t
    have hat := hge t (List.mem_cons_self _ _)
    rw [admissionsIn_cons]
    by_cases hexp : rst rl < t
    · rw [if_pos hexp] at hr ht hp
      by_cases ha : (waitPass rl t).2 = PassResult.admitted
      · rw [if_pos ha] at ht
        have hpos := hp ha
        have := admissionsIn_le_tokens tok lim win rst H a (a + win rl) ts (waitPass rl t).1
          hs'.2 (by omega) (by omega)
        split_ifs <;> push_cast <;> omega
      · rw [if_neg ha] at ht
        have := admissionsIn_le_tokens tok lim win rst H a (a + win rl) ts (waitPass rl t).1
          hs'.2 (by omega) (by omega)
        rw [if_neg (fun h => ha h.1)]
        push_cast
        omega
    · rw [if_neg hexp] at hr ht hp
      have hge' : ∀ t' ∈ ts, a ≤ t' := fun t' ht' => hge t' (List.mem_cons_of_mem _ ht')
      by_cases ha : (waitPass rl t).2 = PassResult.admitted
      · rw [if_pos ha] at ht
        have hpos := hp ha
        have := ih (waitPass rl t).1 hs'.2 hge' (by omega) (by omega)
        rw [hw, hl] at this
        split_ifs <;> push_cast <;> omega
      · rw [if_neg ha] at ht
        have := ih (waitPass rl t).1 hs'.2 hge' (by omega) (by omega)
        rw [hw, hl] at this
        rw [if_neg (fun h => ha h.1)]
        push_cast
        omega

/-- From a state within the invariant, passes at non-decreasing times admit at most twice
the capacity of a window inside any interval as long as the window. -/
theorem admissionsIn_le_two_limit (tok lim win rst : RateLimiter → Int)
    (H : TracksWindow tok lim win rst) (a : Int) (ts : List Int) :
    ∀ rl : RateLimiter, ts.Pairwise (fun x y => x ≤ y) → 0 ≤ tok rl → tok rl ≤ lim rl →
      (admissionsIn rl ts a (a + win rl) : Int) ≤ 2 * lim rl := by
  induction ts with
  | nil => intro rl _ h0 h1; simp only [admissionsIn_nil, Nat.cast_zero]; omega
  | cons t ts ih =>
    intro rl hs h0 h1
    have hs' := List.pairwise_cons.1 hs
    by_cases hat : a ≤ t
    · have := admissionsIn_le_tokens_add_limit tok lim win rst H a (t :: ts) rl hs
        (fun t' ht' => by
          rcases List.mem_cons.1 ht' with h | h
          · omega
          · have := hs'.1 t' h; omega) h0 h1
      omega
    · obtain ⟨hl, hw, _, ht, hp⟩ := H rl t
      rw [admissionsIn_cons, if_neg (fun h => hat h.2.1)]
      have hinv : 0 ≤ tok (waitPass rl t).1 ∧ tok (waitPass rl t).1 ≤ lim rl := by
        by_cases ha : (waitPass rl t).2 = PassResult.admitted
        · have hpos := hp ha
          rw [if_pos ha] at ht
          split_ifs at ht hpos <;> omega
        · rw [if_neg ha] at ht
          split_ifs at ht <;> omega
      have := ih (waitPass rl t).1 hs'.2 hinv.1 (by rw [hl]; exact hinv.2)
      rw [hw, hl] at this
      push_cast
      omega

/-! ## The claim about the provider's rate ceilings -/

set_option maxRecDepth 100000 in
/-- C2 fails as stated. On the limiter built at time 0, twenty passes at 1 s (not after
the short reset time 1 s, so paid from the first 20 tokens) followed by one pass at
1 s + 1 ns (after it, so the window is refilled) are all admitted: 21 admissions inside
the one-second interval [1 s, 2 s]. Likewise 5 bursts of 20 from 115 s on use up the
long window before its reset time 120 s and a pass at 120 s + 5 ns is admitted from the
refilled window: 101 admissions inside the two-minute interval [115 s, 235 s]. -/
theorem C2_rate_ceilings_counterexample :
    (List.replicate 20 (1000000000 : Int) ++ [1000000001]).Pairwise (fun x y => x ≤ y) ∧
    admissionsIn (NewRateLimiter 0) (List.replicate 20 (1000000000 : Int) ++ [1000000001])
      1000000000 (1000000000 + Second) = 21 ∧
    (List.replicate 20 (115000000000 : Int) ++ List.replicate 20 116000000001 ++
      List.replicate 20 117000000002 ++ List.replicate 20 118000000003 ++
      List.replicate 20 119000000004 ++ [120000000005]).Pairwise (fun x y => x ≤ y) ∧
    admissionsIn (NewRateLimiter 0)
      (List.replicate 20 (115000000000 : Int) ++ List.replicate 20 116000000001 ++
        List.replicate 20 117000000002 ++ List.replicate 20 118000000003 ++
        List.replicate 20 119000000004 ++ [120000000005])
      115000000000 (115000000000 + 2 * Minute) = 101 := by
  refine ⟨?_, ?_, ?_, ?_⟩ <;> decide

/-- C2 as amended: for the limiter built by `NewRateLimiter` at any time and passes of
`Wait` at non-decreasing times, the admissions inside any closed interval of one second
number at most 40 and inside any closed interval of two minutes at most 200, twice the
capacity of the window, because at most one refill of a window falls inside an interval
of its length. -/
theorem C2_rate_ceilings_amended (t0 : Int) (ts : List Int) (a : Int)
    (hs : ts.Pairwise (fun x y => x ≤ y)) :
    admissionsIn (NewRateLimiter t0) ts a (a + Second) ≤ 40 ∧
    admissionsIn (NewRateLimiter t0) ts a (a + 2 * Minute) ≤ 200 := by
  have h1 := admissionsIn_le_two_limit _ _ _ _ tracksWindow_short a ts (NewRateLimiter t0) hs
    (by simp [NewRateLimiter]) (by simp [NewRateLimiter])
  have h2 := admissionsIn_le_two_limit _ _ _ _ tracksWindow_long a ts (NewRateLimiter t0) hs
    (by simp [NewRateLimiter]) (by simp [NewRateLimiter])
  have e1 : (NewRateLimiter t0).shortTermWindow = Second := rfl
  have e2 : (NewRateLimiter t0).longTermWindow = 2 * Minute := rfl
  have e3 : (NewRateLimiter t0).shortTermLimit = 20 := rfl
  have e4 : (NewRateLimiter t0).longTermLimit = 100 := rfl
  simp only [e1, e2, e3, e4] at h1 h2
  constructor <;> omega

set_option maxRecDepth 100000 in
/-- C2 as amended, on twenty passes at 1 s followed by twenty at 1 s + 1 ns: the bound
of 40 per second holds and is attained. -/
theorem C2_rate_ceilings_amended_witness :
    (List.replicate 20 (1000000000 : Int) ++ List.replicate 20 1000000001).Pairwise
      (fun x y => x ≤ y) ∧
    (admissionsIn (NewRateLimiter 0)
        (List.replicate 20 (1000000000 : Int) ++ List.replicate 20 1000000001)
        1000000000 (1000000000 + Second) ≤ 40 ∧
      admissionsIn (NewRateLimiter 0)
        (List.replicate 20 (1000000000 : Int) ++ List.replicate 20 1000000001)
        1000000000 (1000000000 + 2 * Minute) ≤ 200) ∧
    admissionsIn (NewRateLimiter 0)
      (List.replicate 20 (1000000000 : Int) ++ List.replicate 20 1000000001)
      1000000000 (1000000000 + Second) = 40 :=
  ⟨by decide,
   C2_rate_ceilings_amended 0
     (List.replicate 20 (1000000000 : Int) ++ List.replicate 20 1000000001) 1000000000
     (by decide),
   by decide⟩

/-! ## Steps of a run: counting lemmas -/

theorem networkCalls_append (l₁ l₂ : List Event) :
    networkCalls (l₁ ++ l₂) = networkCalls l₁ + networkCalls l₂ := by
  simp [networkCalls]

theorem tokensConsumed_append (l₁ l₂ : List Event) :
    tokensConsumed (l₁ ++ l₂) = tokensConsumed l₁ + tokensConsumed l₂ := by
  simp [tokensConsumed]

theorem backoffDelays_append (l₁ l₂ : List Event) :
    backoffDelays (l₁ ++ l₂) = backoffDelays l₁ ++ backoffDelays l₂ := by
  simp [backoffDelays]

theorem networkCalls_backoff_cons (d : Int) (l : List Event) :
    networkCalls (Event.backoff d :: l) = networkCalls l := by
  simp [networkCalls]

theorem tokensConsumed_backoff_cons (d : Int) (l : List Event) :
    tokensConsumed (Event.backoff d :: l) = tokensConsumed l := by
  simp [tokensConsumed]

theorem backoffDelays_backoff_cons (d : Int) (l : List Event) :
    backoffDelays (Event.backoff d :: l) = d :: backoffDelays l := by
  simp [backoffDelays]

theorem Wait_log_counts (ps : List Pass) :
    ∀ rl : RateLimiter,
      networkCalls (Wait rl ps).log = 0 ∧
      backoffDelays (Wait rl ps).log = [] ∧
      tokensConsumed (Wait rl ps).log =
        (if (Wait rl ps).result = WaitResult.ok then 1 else 0) := by
  induction ps with
  | nil => intro rl; simp [Wait, networkCalls, backoffDelays, tokensConsumed]
  | cons p ps ih =>
    intro rl
    by_cases ha : (waitPass rl p.now).2 = PassResult.admitted
    · rw [Wait_cons_admitted rl p ps ha]
      simp [networkCalls, backoffDelays, tokensConsumed]
    · rw [Wait_cons_sleep rl p ps _ (waitPass_sleep_of_not_admitted rl p.now ha)]
      by_cases hc : p.ctxDone = true
      · simp [hc, networkCalls, backoffDelays, tokensConsumed]
      · have h := ih (waitPass rl p.now).1
        simp only [hc, Bool.false_eq_true, if_false]
        refine ⟨?_, ?_, ?_⟩
        · simpa [networkCalls] using h.1
        · simpa [backoffDelays] using h.2.1
        · simpa [tokensConsumed] using h.2.2

/-- The steps up to and including the network call of an iteration whose `Wait`
returned nil: one admission, one network call, no backoff. -/
theorem pre_counts (rl : RateLimiter) (ps : List Pass)
    (hw : (Wait rl ps).result = WaitResult.ok) :
    networkCalls ((Wait rl ps).log ++ [Event.httpDo]) = 1 ∧
    backoffDelays ((Wait rl ps).log ++ [Event.httpDo]) = [] ∧
    tokensConsumed ((Wait rl ps).log ++ [Event.httpDo]) = 1 := by
  have h := Wait_log_counts ps rl
  rw [networkCalls_append, backoffDelays_append, tokensConsumed_append, h.1, h.2.1, h.2.2,
    if_pos hw]
  simp [networkCalls, backoffDelays, tokensConsumed]

/-- An iteration either ends the call after its network call, or ends it in its backoff
wait, or waits and hands over to the next iteration. -/
theorem handleOutcome_cases (ctxErr : CtxErr) (attempt : Nat) (out : NetOutcome)
    (ctxDone : Bool) (rl : RateLimiter) (pre : List Event) (next : CallRun) :
    (handleOutcome ctxErr attempt out ctxDone rl pre next).log = pre ∨
    (∃ d, (handleOutcome ctxErr attempt out ctxDone rl pre next).log =
      pre ++ [Event.backoff d]) ∨
    (∃ d, attempt < maxRetries - 1 ∧
      handleOutcome ctxErr attempt out ctxDone rl pre next =
        { rl := next.rl, log := pre ++ Event.backoff d :: next.log, result := next.result }) := by
  unfold handleOutcome selectBackoff
  cases out with
  | failure err =>
    simp only
    split_ifs
    · exact Or.inr (Or.inl ⟨_, rfl⟩)
    · exact Or.inr (Or.inr ⟨_, by assumption, rfl⟩)
    · exact Or.inl rfl
  | response resp =>
    simp only
    split_ifs
    all_goals first
      | exact Or.inl rfl
      | exact Or.inr (Or.inl ⟨_, rfl⟩)
      | exact Or.inr (Or.inr ⟨_, by assumption, rfl⟩)

theorem attemptLoop_zero (ctxErr : CtxErr) (env : Nat → AttemptEnv) (attempt : Nat)
    (rl : RateLimiter) :
    attemptLoop ctxErr env 0 attempt rl =
      { rl := rl, log := [], result := CallResult.error (Error.errorf "最大試行回数に到達") } := by
  rw [attemptLoop]

theorem attemptLoop_ok (ctxErr : CtxErr) (env : Nat → AttemptEnv) (fuel attempt : Nat)
    (rl : RateLimiter) (ha : attempt < maxRetries)
    (hw : (Wait rl (env attempt).passes).result = WaitResult.ok) :
    attemptLoop ctxErr env (fuel + 1) attempt rl =
      handleOutcome ctxErr attempt (env attempt).net (env attempt).ctxDone
        (Wait rl (env attempt).passes).rl
        ((Wait rl (env attempt).passes).log ++ [Event.httpDo])
        (attemptLoop ctxErr env fuel (attempt + 1) (Wait rl (env attempt).passes).rl) := by
  rw [attemptLoop, if_pos ha]
  simp only [hw]

theorem attemptLoop_not_ok (ctxErr : CtxErr) (env : Nat → AttemptEnv) (fuel attempt : Nat)
    (rl : RateLimiter)
    (hw : ¬ (attempt < maxRetries ∧ (Wait rl (env attempt).passes).result = WaitResult.ok)) :
    networkCalls (attemptLoop ctxErr env (fuel + 1) attempt rl).log = 0 ∧
    tokensConsumed (attemptLoop ctxErr env (fuel + 1) attempt rl).log = 0 ∧
    backoffDelays (attemptLoop ctxErr env (fuel + 1) attempt rl).log = [] := by
  rw [attemptLoop]
  by_cases ha : attempt < maxRetries
  · rw [if_pos ha]
    have h := Wait_log_counts (env attempt).passes rl
    have hne : (Wait rl (env attempt).passes).result ≠ WaitResult.ok := fun e => hw ⟨ha, e⟩
    rw [if_neg hne] at h
    cases hr : (Wait rl (env attempt).passes).result with
    | ok => exact absurd hr hne
    | cancelled => simp only [hr]; exact ⟨h.1, h.2.2, h.2.1⟩
    | blocked => simp only [hr]; exact ⟨h.1, h.2.2, h.2.1⟩
  · rw [if_neg ha]
    simp [networkCalls, tokensConsumed, backoffDelays]

/-- Every network call of the loop follows its own admission, and the loop makes at most
`fuel` of them. -/
theorem attemptLoop_counts (ctxErr : CtxErr) (env : Nat → AttemptEnv) (fuel : Nat) :
    ∀ (attempt : Nat) (rl : RateLimiter),
      networkCalls (attemptLoop ctxErr env fuel attempt rl).log ≤ fuel ∧
      tokensConsumed (attemptLoop ctxErr env fuel attempt rl).log =
        networkCalls (attemptLoop ctxErr env fuel attempt rl).log := by
  induction fuel with
  | zero =>
    intro attempt rl
    rw [attemptLoop_zero]
    simp [networkCalls, tokensConsumed]
  | succ fuel ih =>
    intro attempt rl
    by_cases hok : attempt < maxRetries ∧ (Wait rl (env attempt).passes).result = WaitResult.ok
    · have hpre := pre_counts rl (env attempt).passes hok.2
      rw [attemptLoop_ok ctxErr env fuel attempt rl hok.1 hok.2]
      rcases handleOutcome_cases ctxErr attempt (env attempt).net (env attempt).ctxDone
        (Wait rl (env attempt).passes).rl ((Wait rl (env attempt).passes).log ++ [Event.httpDo])
        (attemptLoop ctxErr env fuel (attempt + 1) (Wait rl (env attempt).passes).rl)
        with h | ⟨d, h⟩ | ⟨d, _, h⟩
      · rw [h, hpre.1, hpre.2.2]
        omega
      · rw [h, networkCalls_append, tokensConsumed_append, hpre.1, hpre.2.2,
          networkCalls_backoff_cons, tokensConsumed_backoff_cons]
        simp [networkCalls, tokensConsumed]
      · have hn := ih (attempt + 1) (Wait rl (env attempt).passes).rl
        rw [h]
        simp only [networkCalls_append, tokensConsumed_append, hpre.1, hpre.2.2,
          networkCalls_backoff_cons, tokensConsumed_backoff_cons]
        omega
    · have h := attemptLoop_not_ok ctxErr env fuel attempt rl hok
      rw [h.1, h.2.1]
      omega

/-- If a run of the loop started at iteration `attempt` makes more than `k - attempt`
network calls, it reaches iteration `k`, whose `Wait` returns nil, after `k - attempt`
network calls, admissions and backoff waits; from there on it is the run of the loop
started at iteration `k`. -/
theorem attemptLoop_reaches (ctxErr : CtxErr) (env : Nat → AttemptEnv) (k fuel : Nat) :
    ∀ (attempt : Nat) (rl : RateLimiter), attempt ≤ k →
      k - attempt < networkCalls (attemptLoop ctxErr env fuel attempt rl).log →
      ∃ (fuel1 : Nat) (rlk : RateLimiter) (pfx : List Event),
        k < maxRetries ∧
        (Wait rlk (env k).passes).result = WaitResult.ok ∧
        attemptLoop ctxErr env fuel attempt rl =
          { rl := (attemptLoop ctxErr env (fuel1 + 1) k rlk).rl
            log := pfx ++ (attemptLoop ctxErr env (fuel1 + 1) k rlk).log
            result := (attemptLoop ctxErr env (fuel1 + 1) k rlk).result } ∧
        networkCalls pfx = k - attempt ∧
        (backoffDelays pfx).length = k - attempt ∧
        tokensConsumed pfx = k - attempt := by
  induction fuel with
  | zero =>
    intro attempt rl _ hlt
    rw [attemptLoop_zero] at hlt
    simp [networkCalls] at hlt
  | succ fuel ih =>
    intro attempt rl hle hlt
    by_cases hok : attempt < maxRetries ∧ (Wait rl (env attempt).passes).result = WaitResult.ok
    · by_cases hk : k = attempt
      · subst hk
        exact ⟨fuel, rl, [], hok.1, hok.2, by simp, by simp [networkCalls],
          by simp [backoffDelays], by simp [tokensConsumed]⟩
      · have hpre := pre_counts rl (env attempt).passes hok.2
        rw [attemptLoop_ok ctxErr env fuel attempt rl hok.1 hok.2] at hlt ⊢
        rcases handleOutcome_cases ctxErr attempt (env attempt).net (env attempt).ctxDone
          (Wait rl (env attempt).passes).rl
          ((Wait rl (env attempt).passes).log ++ [Event.httpDo])
          (attemptLoop ctxErr env fuel (attempt + 1) (Wait rl (env attempt).passes).rl)
          with h | ⟨d, h⟩ | ⟨d, _, h⟩
        · rw [h, hpre.1] at hlt
          omega
        · rw [h, networkCalls_append, hpre.1, networkCalls_backoff_cons] at hlt
          simp [networkCalls] at hlt
          omega
        · rw [h] at hlt ⊢
          simp only [networkCalls_append, networkCalls_backoff_cons, hpre.1] at hlt
          obtain ⟨fuel1, rlk, pfx, hk3, hwk, heq, hn, hb, ht⟩ :=
            ih (attempt + 1) (Wait rl (env attempt).passes).rl (by omega) (by omega)
          refine ⟨fuel1, rlk,
            ((Wait rl (env attempt).passes).log ++ [Event.httpDo]) ++ Event.backoff d :: pfx,
            hk3, hwk, ?_, ?_, ?_, ?_⟩
          · rw [heq]
            simp
          · rw [networkCalls_append, networkCalls_backoff_cons, hpre.1, hn]
            omega
          · rw [backoffDelays_append, backoffDelays_backoff_cons, hpre.2.1]
            simp only [List.nil_append, List.length_cons, hb]
            omega
          · rw [tokensConsumed_append, tokensConsumed_backoff_cons, hpre.2.2, ht]
            omega
    · have h := attemptLoop_not_ok ctxErr env fuel attempt rl hok
      rw [h.1] at hlt
      omega

/-! ## One iteration of the retry loop, by class of outcome -/

theorem selectBackoff_continue (ctxErr : CtxErr) (d : Int) (rl : RateLimiter)
    (pre : List Event) (next : CallRun) :
    selectBackoff ctxErr d false rl pre next =
      { rl := next.rl, log := pre ++ Event.backoff d :: next.log, result := next.result } := by
  simp [selectBackoff]

theorem selectBackoff_delays (ctxErr : CtxErr) (d : Int) (ctxDone : Bool) (rl : RateLimiter)
    (pre : List Event) (next : CallRun) :
    ∃ rest, backoffDelays (selectBackoff ctxErr d ctxDone rl pre next).log =
      backoffDelays pre ++ d :: rest := by
  unfold selectBackoff
  cases ctxDone with
  | true => exact ⟨[], by simp [backoffDelays_append, backoffDelays_backoff_cons, backoffDelays]⟩
  | false =>
    exact ⟨backoffDelays next.log, by
      simp [backoffDelays_append, backoffDelays_backoff_cons]⟩

theorem handleOutcome_client (ctxErr : CtxErr) (attempt : Nat) (resp : Response)
    (ctxDone : Bool) (rl : RateLimiter) (pre : List Event) (next : CallRun)
    (h500 : resp.StatusCode < 500) (h429 : resp.StatusCode ≠ 429) :
    handleOutcome ctxErr attempt (NetOutcome.response resp) ctxDone rl pre next =
      { rl := rl, log := pre, result := CallResult.response resp } := by
  simp [handleOutcome, h500, h429]

theorem handleOutcome_429 (ctxErr : CtxErr) (attempt : Nat) (resp : Response)
    (ctxDone : Bool) (rl : RateLimiter) (pre : List Event) (next : CallRun)
    (h429 : resp.StatusCode = 429) :
    handleOutcome ctxErr attempt (NetOutcome.response resp) ctxDone rl pre next =
      if attempt < maxRetries - 1 then
        selectBackoff ctxErr (retryAfterDelay resp.RetryAfter) ctxDone rl pre next
      else
        { rl := rl, log := pre
          result := CallResult.error (Error.errorf "レート制限エラー: 最大試行回数に到達") } := by
  simp [handleOutcome, h429]

theorem handleOutcome_5xx (ctxErr : CtxErr) (attempt : Nat) (resp : Response)
    (ctxDone : Bool) (rl : RateLimiter) (pre : List Event) (next : CallRun)
    (h500 : 500 ≤ resp.StatusCode) :
    handleOutcome ctxErr attempt (NetOutcome.response resp) ctxDone rl pre next =
      if attempt < maxRetries - 1 then
        selectBackoff ctxErr (((attempt + 1 : Nat) : Int) * Second) ctxDone rl pre next
      else
        { rl := rl, log := pre
          result := CallResult.error
            (Error.errorfInt "サーバーエラー: ステータスコード" resp.StatusCode) } := by
  have h1 : ¬ resp.StatusCode < 500 := by omega
  have h2 : resp.StatusCode ≠ 429 := by omega
  simp [handleOutcome, h1, h2, h500]

theorem handleOutcome_failure (ctxErr : CtxErr) (attempt : Nat) (err : Error)
    (ctxDone : Bool) (rl : RateLimiter) (pre : List Event) (next : CallRun) :
    handleOutcome ctxErr attempt (NetOutcome.failure err) ctxDone rl pre next =
      if attempt < maxRetries - 1 then
        selectBackoff ctxErr Second ctxDone rl pre next
      else
        { rl := rl, log := pre
          result := CallResult.error (Error.wrap "HTTPリクエストエラー" err) } := by
  simp [handleOutcome]

/-! ## The claims about `doRequestWithRateLimit` -/

/-- C5: in every run of `doRequestWithRateLimit`, if network call number `k` (counted
from 0) is made and receives a response with status below 500 and not 429, that response
is the result (with no error), it is returned unchanged, and the call made exactly
`k + 1` network calls, none after it; and when the first `Wait` returns nil and the
first response is a 404, the run is that `Wait`, one network call, and the response. -/
theorem C5_client_response_is_final (ctxErr : CtxErr) (env : Nat → AttemptEnv)
    (rl : RateLimiter) :
    (∀ (k : Nat) (resp : Response),
      (env k).net = NetOutcome.response resp →
      resp.StatusCode < 500 → resp.StatusCode ≠ 429 →
      k < networkCalls (doRequestWithRateLimit ctxErr env rl).log →
      (doRequestWithRateLimit ctxErr env rl).result = CallResult.response resp ∧
      networkCalls (doRequestWithRateLimit ctxErr env rl).log = k + 1 ∧
      (doRequestWithRateLimit ctxErr env rl).log.getLast? = some Event.httpDo) ∧
    (∀ resp : Response,
      (Wait rl (env 0).passes).result = WaitResult.ok →
      (env 0).net = NetOutcome.response resp →
      resp.StatusCode = 404 →
      doRequestWithRateLimit ctxErr env rl =
        { rl := (Wait rl (env 0).passes).rl
          log := (Wait rl (env 0).passes).log ++ [Event.httpDo]
          result := CallResult.response resp } ∧
      networkCalls (doRequestWithRateLimit ctxErr env rl).log = 1) := by
  constructor
  · intro k resp hnet h500 h429 hreach
    unfold doRequestWithRateLimit at hreach ⊢
    obtain ⟨fuel1, rlk, pfx, hk3, hwk, heq, hn, _, _⟩ :=
      attemptLoop_reaches ctxErr env k maxRetries 0 rl (Nat.zero_le _) (by simpa using hreach)
    have hpre := pre_counts rlk (env k).passes hwk
    rw [heq, attemptLoop_ok ctxErr env fuel1 k rlk hk3 hwk, hnet,
      handleOutcome_client ctxErr k resp _ _ _ _ h500 h429]
    refine ⟨rfl, ?_, ?_⟩
    · simp only [networkCalls_append, hn] at hpre ⊢
      omega
    · simp
  · intro resp hw hnet h404
    have h500 : resp.StatusCode < 500 := by omega
    have h429 : resp.StatusCode ≠ 429 := by omega
    have hrun : doRequestWithRateLimit ctxErr env rl =
        { rl := (Wait rl (env 0).passes).rl
          log := (Wait rl (env 0).passes).log ++ [Event.httpDo]
          result := CallResult.response resp } := by
      unfold doRequestWithRateLimit maxRetries
      rw [attemptLoop_ok ctxErr env 2 0 rl (by decide) hw, hnet,
        handleOutcome_client ctxErr 0 resp _ _ _ _ h500 h429]
    refine ⟨hrun, ?_⟩
    rw [hrun]
    exact (pre_counts rl (env 0).passes hw).1

/-- C5 on two scripts over a fresh limiter: a 503 followed by a 404 ends with the 404
after two network calls, and a 404 at once ends with it after one network call. -/
theorem C5_client_response_is_final_witness :
    ((doRequestWithRateLimit CtxErr.canceled
        (fun k => { passes := [{ now := 5, ctxDone := false }]
                    net := NetOutcome.response
                      { StatusCode := if k = 0 then 503 else 404, RetryAfter := "", Body := "b" }
                    ctxDone := false })
        (NewRateLimiter 0)).result =
        CallResult.response { StatusCode := 404, RetryAfter := "", Body := "b" } ∧
      networkCalls (doRequestWithRateLimit CtxErr.canceled
        (fun k => { passes := [{ now := 5, ctxDone := false }]
                    net := NetOutcome.response
                      { StatusCode := if k = 0 then 503 else 404, RetryAfter := "", Body := "b" }
                    ctxDone := false })
        (NewRateLimiter 0)).log = 1 + 1 ∧
      (doRequestWithRateLimit CtxErr.canceled
        (fun k => { passes := [{ now := 5, ctxDone := false }]
                    net := NetOutcome.response
                      { StatusCode := if k = 0 then 503 else 404, RetryAfter := "", Body := "b" }
                    ctxDone := false })
        (NewRateLimiter 0)).log.getLast? = some Event.httpDo) ∧
    networkCalls (doRequestWithRateLimit CtxErr.canceled
        (fun _ => { passes := [{ now := 5, ctxDone := false }]
                    net := NetOutcome.response { StatusCode := 404, RetryAfter := "", Body := "b" }
                    ctxDone := false })
        (NewRateLimiter 0)).log = 1 :=
  ⟨(C5_client_response_is_final CtxErr.canceled
      (fun k => { passes := [{ now := 5, ctxDone := false }]
                  net := NetOutcome.response
                    { StatusCode := if k = 0 then 503 else 404, RetryAfter := "", Body := "b" }
                  ctxDone := false })
      (NewRateLimiter 0)).1 1 { StatusCode := 404, RetryAfter := "", Body := "b" }
      (by decide) (by decide) (by decide) (by decide),
   ((C5_client_response_is_final CtxErr.canceled
      (fun _ => { passes := [{ now := 5, ctxDone := false }]
                  net := NetOutcome.response { StatusCode := 404, RetryAfter := "", Body := "b" }
                  ctxDone := false })
      (NewRateLimiter 0)).2 { StatusCode := 404, RetryAfter := "", Body := "b" }
      (by decide) (by decide) (by decide)).2⟩

/-- C6: every call of `doRequestWithRateLimit`, whatever the network, the clock and the
cancellation signal do, makes at most 3 network calls and takes exactly one admission
(one `Wait` that returned nil) per network call it makes. -/
theorem C6_at_most_three_calls_one_token_each (ctxErr : CtxErr) (env : Nat → AttemptEnv)
    (rl : RateLimiter) :
    networkCalls (doRequestWithRateLimit ctxErr env rl).log ≤ 3 ∧
    tokensConsumed (doRequestWithRateLimit ctxErr env rl).log =
      networkCalls (doRequestWithRateLimit ctxErr env rl).log ∧
    tokensConsumed (doRequestWithRateLimit ctxErr env rl).log ≤ 3 := by
  have h := attemptLoop_counts ctxErr env maxRetries 0 rl
  unfold doRequestWithRateLimit
  refine ⟨h.1, h.2, ?_⟩
  rw [h.2]
  exact h.1

/-- The steps of three iterations that each go through `Wait` and make their network
call, with waits `d0` and `d1` in between: three network calls, the two waits, and a
network call as last step. -/
theorem three_attempt_log_counts (rl0 rl1 rl2 : RateLimiter) (ps0 ps1 ps2 : List Pass)
    (d0 d1 : Int) :
    networkCalls (((Wait rl0 ps0).log ++ [Event.httpDo]) ++ Event.backoff d0 ::
      (((Wait rl1 ps1).log ++ [Event.httpDo]) ++ Event.backoff d1 ::
        ((Wait rl2 ps2).log ++ [Event.httpDo]))) = 3 ∧
    backoffDelays (((Wait rl0 ps0).log ++ [Event.httpDo]) ++ Event.backoff d0 ::
      (((Wait rl1 ps1).log ++ [Event.httpDo]) ++ Event.backoff d1 ::
        ((Wait rl2 ps2).log ++ [Event.httpDo]))) = [d0, d1] ∧
    (((Wait rl0 ps0).log ++ [Event.httpDo]) ++ Event.backoff d0 ::
      (((Wait rl1 ps1).log ++ [Event.httpDo]) ++ Event.backoff d1 ::
        ((Wait rl2 ps2).log ++ [Event.httpDo]))).getLast? = some Event.httpDo := by
  have w0 := Wait_log_counts ps0 rl0
  have w1 := Wait_log_counts ps1 rl1
  have w2 := Wait_log_counts ps2 rl2
  have e1 : networkCalls [Event.httpDo] = 1 := rfl
  have e2 : backoffDelays [Event.httpDo] = [] := rfl
  refine ⟨?_, ?_, ?_⟩
  · simp only [networkCalls_append, networkCalls_backoff_cons, w0.1, w1.1, w2.1, e1]
  · simp only [backoffDelays_append, backoffDelays_backoff_cons, w0.2.1, w1.2.1, w2.2.1, e2,
      List.nil_append, List.append_nil]
  · simp [List.getLast?_append, List.getLast?_cons]

/-- C7: when each of the three iterations is admitted by `Wait` and receives a response
with the same status `s ≥ 500`, and the signal does not fire in a backoff wait,
`doRequestWithRateLimit` makes exactly three network calls, waits 1 s after the first
and 2 s after the second (strictly increasing), does not wait after the third, and
fails with the server error that carries `s`. -/
theorem C7_three_server_errors (ctxErr : CtxErr) (env : Nat → AttemptEnv)
    (rl : RateLimiter) (s : Int) (hs : 500 ≤ s)
    (hnet : ∀ k, k < 3 → ∃ resp, (env k).net = NetOutcome.response resp ∧ resp.StatusCode = s)
    (hctx : ∀ k, k < 3 → (env k).ctxDone = false)
    (hadm : AdmittedThrough env rl 3) :
    (doRequestWithRateLimit ctxErr env rl).result =
      CallResult.error (Error.errorfInt "サーバーエラー: ステータスコード" s) ∧
    networkCalls (doRequestWithRateLimit ctxErr env rl).log = 3 ∧
    backoffDelays (doRequestWithRateLimit ctxErr env rl).log = [1 * Second, 2 * Second] ∧
    (1 * Second < 2 * Second) ∧
    (doRequestWithRateLimit ctxErr env rl).log.getLast? = some Event.httpDo ∧
    (doRequestWithRateLimit ctxErr env rl).rl = limiterAfter env rl 3 := by
  obtain ⟨r0, hn0, hs0⟩ := hnet 0 (by decide)
  obtain ⟨r1, hn1, hs1⟩ := hnet 1 (by decide)
  obtain ⟨r2, hn2, hs2⟩ := hnet 2 (by decide)
  have hw0 := hadm 0 (by decide)
  have hw1 := hadm 1 (by decide)
  have hw2 := hadm 2 (by decide)
  simp only [limiterAfter] at hw0 hw1 hw2
  have hrun : doRequestWithRateLimit ctxErr env rl =
      { rl := limiterAfter env rl 3
        log := ((Wait rl (env 0).passes).log ++ [Event.httpDo]) ++ Event.backoff (1 * Second) ::
          (((Wait (limiterAfter env rl 1) (env 1).passes).log ++ [Event.httpDo]) ++
            Event.backoff (2 * Second) ::
            ((Wait (limiterAfter env rl 2) (env 2).passes).log ++ [Event.httpDo]))
        result := CallResult.error (Error.errorfInt "サーバーエラー: ステータスコード" s) } := by
    unfold doRequestWithRateLimit maxRetries
    rw [attemptLoop_ok ctxErr env 2 0 rl (by decide) hw0, hn0,
      handleOutcome_5xx ctxErr 0 r0 _ _ _ _ (by omega), if_pos (by decide), hctx 0 (by decide),
      selectBackoff_continue,
      attemptLoop_ok ctxErr env 1 1 _ (by decide) hw1, hn1,
      handleOutcome_5xx ctxErr 1 r1 _ _ _ _ (by omega), if_pos (by decide), hctx 1 (by decide),
      selectBackoff_continue,
      attemptLoop_ok ctxErr env 0 2 _ (by decide) hw2, hn2,
      handleOutcome_5xx ctxErr 2 r2 _ _ _ _ (by omega), if_neg (by decide), hs2]
    simp [limiterAfter]
  have hc := three_attempt_log_counts rl (limiterAfter env rl 1) (limiterAfter env rl 2)
    (env 0).passes (env 1).passes (env 2).passes (1 * Second) (2 * Second)
  rw [hrun]
  exact ⟨rfl, hc.1, hc.2.1, by decide, hc.2.2, rfl⟩

/-- C7 on a fresh limiter with three responses 503: the error carries 503, three network
calls are made and the waits are 1 s and 2 s. -/
theorem C7_three_server_errors_witness :
    (doRequestWithRateLimit CtxErr.canceled
      (fun _ => { passes := [{ now := 5, ctxDone := false }]
                  net := NetOutcome.response { StatusCode := 503, RetryAfter := "", Body := "" }
                  ctxDone := false })
      (NewRateLimiter 0)).result =
      CallResult.error (Error.errorfInt "サーバーエラー: ステータスコード" 503) ∧
    networkCalls (doRequestWithRateLimit CtxErr.canceled
      (fun _ => { passes := [{ now := 5, ctxDone := false }]
                  net := NetOutcome.response { StatusCode := 503, RetryAfter := "", Body := "" }
                  ctxDone := false })
      (NewRateLimiter 0)).log = 3 ∧
    backoffDelays (doRequestWithRateLimit CtxErr.canceled
      (fun _ => { passes := [{ now := 5, ctxDone := false }]
                  net := NetOutcome.response { StatusCode := 503, RetryAfter := "", Body := "" }
                  ctxDone := false })
      (NewRateLimiter 0)).log = [1000000000, 2000000000] :=
  have h := C7_three_server_errors CtxErr.canceled
    (fun _ => { passes := [{ now := 5, ctxDone := false }]
                net := NetOutcome.response { StatusCode := 503, RetryAfter := "", Body := "" }
                ctxDone := false })
    (NewRateLimiter 0) 503 (by decide) (fun _ _ => ⟨_, rfl, rfl⟩) (fun _ _ => rfl) (by decide)
  ⟨h.1, h.2.1, h.2.2.1⟩

theorem getElem_append_cons_of_length {α : Type} (l₁ l₂ : List α) (x : α) (k : Nat)
    (h : l₁.length = k) : (l₁ ++ x :: l₂)[k]? = some x := by
  subst h
  rw [List.getElem?_append_right (Nat.le_refl _)]
  simp

/-- If network call number `k` of a call is made and iteration `k` handles its outcome by
the backoff `select` with wait `d`, then `d` is backoff wait number `k` of the call. -/
theorem backoff_of_reached (ctxErr : CtxErr) (env : Nat → AttemptEnv) (rl : RateLimiter)
    (k : Nat) (d : Int)
    (hsel : ∀ (rl1 : RateLimiter) (pre : List Event) (next : CallRun),
      handleOutcome ctxErr k (env k).net (env k).ctxDone rl1 pre next =
        selectBackoff ctxErr d (env k).ctxDone rl1 pre next)
    (hreach : k < networkCalls (doRequestWithRateLimit ctxErr env rl).log) :
    (backoffDelays (doRequestWithRateLimit ctxErr env rl).log)[k]? = some d := by
  unfold doRequestWithRateLimit at hreach ⊢
  obtain ⟨fuel1, rlk, pfx, hk3, hwk, heq, _, hb, _⟩ :=
    attemptLoop_reaches ctxErr env k maxRetries 0 rl (Nat.zero_le _) (by simpa using hreach)
  have hpre := pre_counts rlk (env k).passes hwk
  rw [heq, attemptLoop_ok ctxErr env fuel1 k rlk hk3 hwk, hsel]
  obtain ⟨rest, hrest⟩ := selectBackoff_delays ctxErr d (env k).ctxDone
    (Wait rlk (env k).passes).rl ((Wait rlk (env k).passes).log ++ [Event.httpDo])
    (attemptLoop ctxErr env fuel1 (k + 1) (Wait rlk (env k).passes).rl)
  simp only [backoffDelays_append] at hrest ⊢
  rw [hrest, ← backoffDelays_append, hpre.2.1, List.nil_append]
  exact getElem_append_cons_of_length _ _ _ _ (by simpa using hb)

/-- C10: a transport failure of network call number `k`, `k` being 0 or 1, is followed
by a backoff wait of exactly 1 s, after which (unless the signal fires in the wait) the
loop goes on with iteration `k + 1`; and when all three iterations are admitted by
`Wait` and fail at transport level with the signal never firing in a wait, the call makes
exactly three network calls, waits 1 s and 1 s, and fails with an error that wraps the
transport error of the third call. -/
theorem C10_transport_failure_retried (ctxErr : CtxErr) (env : Nat → AttemptEnv)
    (rl : RateLimiter) :
    (∀ (k : Nat) (err : Error), k < 2 → (env k).net = NetOutcome.failure err →
      k < networkCalls (doRequestWithRateLimit ctxErr env rl).log →
      (backoffDelays (doRequestWithRateLimit ctxErr env rl).log)[k]? = some Second) ∧
    (∀ (fuel k : Nat) (rlk : RateLimiter) (err : Error), k < 2 →
      (Wait rlk (env k).passes).result = WaitResult.ok →
      (env k).net = NetOutcome.failure err →
      attemptLoop ctxErr env (fuel + 1) k rlk =
        selectBackoff ctxErr Second (env k).ctxDone (Wait rlk (env k).passes).rl
          ((Wait rlk (env k).passes).log ++ [Event.httpDo])
          (attemptLoop ctxErr env fuel (k + 1) (Wait rlk (env k).passes).rl)) ∧
    (∀ err0 err1 err2 : Error,
      (env 0).net = NetOutcome.failure err0 →
      (env 1).net = NetOutcome.failure err1 →
      (env 2).net = NetOutcome.failure err2 →
      (∀ k, k < 3 → (env k).ctxDone = false) →
      AdmittedThrough env rl 3 →
      (doRequestWithRateLimit ctxErr env rl).result =
        CallResult.error (Error.wrap "HTTPリクエストエラー" err2) ∧
      networkCalls (doRequestWithRateLimit ctxErr env rl).log = 3 ∧
      backoffDelays (doRequestWithRateLimit ctxErr env rl).log = [Second, Second] ∧
      (doRequestWithRateLimit ctxErr env rl).log.getLast? = some Event.httpDo) := by
  refine ⟨?_, ?_, ?_⟩
  · intro k err hk hnet hreach
    refine backoff_of_reached ctxErr env rl k Second ?_ hreach
    intro rl1 pre next
    rw [hnet, handleOutcome_failure, if_pos (by unfold maxRetries; omega)]
  · intro fuel k rlk err hk hw hnet
    rw [attemptLoop_ok ctxErr env fuel k rlk (by unfold maxRetries; omega) hw, hnet,
      handleOutcome_failure, if_pos (by unfold maxRetries; omega)]
  · intro err0 err1 err2 hn0 hn1 hn2 hctx hadm
    have hw0 := hadm 0 (by decide)
    have hw1 := hadm 1 (by decide)
    have hw2 := hadm 2 (by decide)
    simp only [limiterAfter] at hw0 hw1 hw2
    have hrun : doRequestWithRateLimit ctxErr env rl =
        { rl := limiterAfter env rl 3
          log := ((Wait rl (env 0).passes).log ++ [Event.httpDo]) ++ Event.backoff Second ::
            (((Wait (limiterAfter env rl 1) (env 1).passes).log ++ [Event.httpDo]) ++
              Event.backoff Second ::
              ((Wait (limiterAfter env rl 2) (env 2).passes).log ++ [Event.httpDo]))
          result := CallResult.error (Error.wrap "HTTPリクエストエラー" err2) } := by
      unfold doRequestWithRateLimit maxRetries
      rw [attemptLoop_ok ctxErr env 2 0 rl (by decide) hw0, hn0,
        handleOutcome_failure, if_pos (by decide), hctx 0 (by decide),
        selectBackoff_continue,
        attemptLoop_ok ctxErr env 1 1 _ (by decide) hw1, hn1,
        handleOutcome_failure, if_pos (by decide), hctx 1 (by decide),
        selectBackoff_continue,
        attemptLoop_ok ctxErr env 0 2 _ (by decide) hw2, hn2,
        handleOutcome_failure, if_neg (by decide)]
      simp [limiterAfter]
    have hc := three_attempt_log_counts rl (limiterAfter env rl 1) (limiterAfter env rl 2)
      (env 0).passes (env 1).passes (env 2).passes Second Second
    rw [hrun]
    exact ⟨rfl, hc.1, hc.2.1, hc.2.2⟩

/-- C10 on a fresh limiter with three transport failures: the first failure is followed
by a wait of 1 s and the second iteration, and the call ends after three network calls
and waits of 1 s and 1 s with the wrapped third error. -/
theorem C10_transport_failure_retried_witness :
    (backoffDelays (doRequestWithRateLimit CtxErr.canceled
      (fun k => { passes := [{ now := 5, ctxDone := false }]
                  net := NetOutcome.failure (Error.external (if k = 2 then "eof" else "refused"))
                  ctxDone := false })
      (NewRateLimiter 0)).log)[0]? = some Second ∧
    attemptLoop CtxErr.canceled
      (fun k => { passes := [{ now := 5, ctxDone := false }]
                  net := NetOutcome.failure (Error.external (if k = 2 then "eof" else "refused"))
                  ctxDone := false })
      (2 + 1) 0 (NewRateLimiter 0) =
      selectBackoff CtxErr.canceled Second false
        (Wait (NewRateLimiter 0) [{ now := 5, ctxDone := false }]).rl
        ((Wait (NewRateLimiter 0) [{ now := 5, ctxDone := false }]).log ++ [Event.httpDo])
        (attemptLoop CtxErr.canceled
          (fun k => { passes := [{ now := 5, ctxDone := false }]
                      net := NetOutcome.failure
                        (Error.external (if k = 2 then "eof" else "refused"))
                      ctxDone := false })
          2 (0 + 1) (Wait (NewRateLimiter 0) [{ now := 5, ctxDone := false }]).rl) ∧
    ((doRequestWithRateLimit CtxErr.canceled
      (fun k => { passes := [{ now := 5, ctxDone := false }]
                  net := NetOutcome.failure (Error.external (if k = 2 then "eof" else "refused"))
                  ctxDone := false })
      (NewRateLimiter 0)).result =
        CallResult.error (Error.wrap "HTTPリクエストエラー" (Error.external "eof")) ∧
      networkCalls (doRequestWithRateLimit CtxErr.canceled
        (fun k => { passes := [{ now := 5, ctxDone := false }]
                    net := NetOutcome.failure
                      (Error.external (if k = 2 then "eof" else "refused"))
                    ctxDone := false })
        (NewRateLimiter 0)).log = 3 ∧
      backoffDelays (doRequestWithRateLimit CtxErr.canceled
        (fun k => { passes := [{ now := 5, ctxDone := false }]
                    net := NetOutcome.failure
                      (Error.external (if k = 2 then "eof" else "refused"))
                    ctxDone := false })
        (NewRateLimiter 0)).log = [Second, Second] ∧
      (doRequestWithRateLimit CtxErr.canceled
        (fun k => { passes := [{ now := 5, ctxDone := false }]
                    net := NetOutcome.failure
                      (Error.external (if k = 2 then "eof" else "refused"))
                    ctxDone := false })
        (NewRateLimiter 0)).log.getLast? = some Event.httpDo) :=
  have h := C10_transport_failure_retried CtxErr.canceled
    (fun k => { passes := [{ now := 5, ctxDone := false }]
                net := NetOutcome.failure (Error.external (if k = 2 then "eof" else "refused"))
                ctxDone := false })
    (NewRateLimiter 0)
  ⟨h.1 0 (Error.external "refused") (by decide) rfl (by decide),
   h.2.1 2 0 (NewRateLimiter 0) (Error.external "refused") (by decide) (by decide) rfl,
   h.2.2 (Error.external "refused") (Error.external "refused") (Error.external "eof")
     rfl rfl rfl (fun _ _ => rfl) (by decide)⟩

/-! ## `ParseDuration` on a `Retry-After` value -/

theorem isDigit_not_sign (c : Char) (h : isDigit c = true) : ¬ (c = '-' ∨ c = '+') := by
  rintro (rfl | rfl) <;> revert h <;> decide

theorem foldl_digits_ge (ds : List Char) :
    ∀ x : Nat, x ≤ ds.foldl (fun x c => x * 10 + digitVal c) x := by
  induction ds with
  | nil => intro x; exact Nat.le_refl _
  | cons c cs ih =>
    intro x
    have := ih (x * 10 + digitVal c)
    simp only [List.foldl_cons]
    omega

/-- On a string of digits followed by `"s"`, `leadingInt` either overflows or returns
the number written by the digits and leaves the `"s"`. -/
theorem leadingInt_digits (ds : List Char) (hd : ∀ c ∈ ds, isDigit c = true) :
    ∀ x : Nat,
      leadingInt x (ds ++ ['s']) = none ∨
      leadingInt x (ds ++ ['s']) = some (ds.foldl (fun x c => x * 10 + digitVal c) x, ['s']) := by
  induction ds with
  | nil => intro x; right; rfl
  | cons c cs ih =>
    intro x
    have hc : isDigit c = true := hd c (List.mem_cons_self _ _)
    have ih' := ih (fun c' hc' => hd c' (List.mem_cons_of_mem _ hc'))
    simp only [List.cons_append, leadingInt, hc, Bool.not_true, Bool.false_eq_true, if_false,
      List.foldl_cons]
    split_ifs
    · left; rfl
    · left; rfl
    · exact ih' _

/-- The same without overflow when the number fits. -/
theorem leadingInt_digits_small (ds : List Char) (hd : ∀ c ∈ ds, isDigit c = true) :
    ∀ x : Nat, ds.foldl (fun x c => x * 10 + digitVal c) x ≤ 9223372036 →
      leadingInt x (ds ++ ['s']) = some (ds.foldl (fun x c => x * 10 + digitVal c) x, ['s']) := by
  induction ds with
  | nil => intro x _; rfl
  | cons c cs ih =>
    intro x hx
    have hc : isDigit c = true := hd c (List.mem_cons_self _ _)
    have ih' := ih (fun c' hc' => hd c' (List.mem_cons_of_mem _ hc'))
    simp only [List.foldl_cons] at hx
    have hge := foldl_digits_ge cs (x * 10 + digitVal c)
    simp only [List.cons_append, leadingInt, hc, Bool.not_true, Bool.false_eq_true, if_false,
      List.foldl_cons]
    rw [if_neg (by norm_num; omega), if_neg (by norm_num; omega)]
    exact ih' _ hx

theorem parseDurationLoop_nil (fuel d : Nat) : parseDurationLoop fuel [] d = some d := by
  cases fuel <;> rfl

theorem parseFraction_s : parseFraction ['s'] = (0, some 1, false, ['s']) := rfl

theorem takeWhile_unit_s : List.takeWhile (fun c => !isNumberChar c) ['s'] = ['s'] := by
  decide

theorem dropWhile_unit_s : List.dropWhile (fun c => !isNumberChar c) ['s'] = [] := by
  decide

theorem unitMap_s : unitMap ['s'] = some 1000000000 := by decide

/-- One round of the loop of `ParseDuration` on digits followed by `"s"`: the number of
seconds in nanoseconds when it is at most 9223372036, an error otherwise. -/
theorem parseDurationLoop_seconds (fuel : Nat) (c : Char) (cs : List Char)
    (hc : isDigit c = true) (hd : ∀ c' ∈ cs, isDigit c' = true) :
    parseDurationLoop (fuel + 1) (c :: cs ++ ['s']) 0 =
      if decimalValue (c :: cs) ≤ 9223372036 then
        some (decimalValue (c :: cs) * 1000000000)
      else none := by
  have hds : ∀ c' ∈ c :: cs, isDigit c' = true := by
    intro c' hc'
    rcases List.mem_cons.1 hc' with h | h
    · rw [h]; exact hc
    · exact hd c' h
  have hcs : c :: cs ++ ['s'] = c :: (cs ++ ['s']) := rfl
  have hnum : isNumberChar c = true := by simp [isNumberChar, hc]
  have hlen : (c :: (cs ++ ['s'])).length ≠ 1 := by simp
  rw [hcs, parseDurationLoop]
  simp only [hnum, Bool.not_true, Bool.false_eq_true, if_false]
  unfold decimalValue
  by_cases hn : (c :: cs).foldl (fun x c => x * 10 + digitVal c) 0 ≤ 9223372036
  · rw [← hcs, leadingInt_digits_small (c :: cs) hds 0 hn, if_pos hn]
    simp only [parseFraction_s, takeWhile_unit_s, dropWhile_unit_s, unitMap_s, hcs]
    generalize List.foldl (fun x c => x * 10 + digitVal c) 0 (c :: cs) = n at hn ⊢
    have h1 : ¬ n > 2 ^ 63 / 1000000000 := by norm_num; omega
    have h2 : (0 + n * 1000000000) % 2 ^ 64 = n * 1000000000 := by
      rw [Nat.zero_add]
      exact Nat.mod_eq_of_lt (by norm_num; omega)
    have h3 : ¬ n * 1000000000 > 2 ^ 63 := by norm_num; omega
    simp only [List.length_singleton, hlen, ne_eq, not_false_eq_true, decide_True,
      Bool.not_true, Bool.false_and, Bool.false_eq_true, if_false,
      one_ne_zero, h1, gt_iff_lt, lt_self_iff_false, false_and, h2, h3,
      parseDurationLoop_nil]
  · rw [if_neg hn]
    rcases leadingInt_digits (c :: cs) hds 0 with h | h
    · rw [← hcs, h]
    · rw [← hcs, h]
      simp only [parseFraction_s, takeWhile_unit_s, dropWhile_unit_s, unitMap_s, hcs]
      generalize List.foldl (fun x c => x * 10 + digitVal c) 0 (c :: cs) = n at hn ⊢
      have h1 : n > 2 ^ 63 / 1000000000 := by norm_num; omega
      simp only [List.length_singleton, hlen, ne_eq, not_false_eq_true, decide_True,
        Bool.not_true, Bool.false_and, Bool.false_eq_true, if_false,
        one_ne_zero, h1, if_true]

theorem toList_append_s (v : String) : (v ++ "s").toList = v.toList ++ ['s'] := by
  simp [String.toList]

theorem wrapInt64_of_small (d : Nat) (h : d < 2 ^ 63) : wrapInt64 (d : Int) = d := by
  unfold wrapInt64
  have h' : ((d : Int) + 2 ^ 63) % 2 ^ 64 = (d : Int) + 2 ^ 63 :=
    Int.emod_eq_of_lt (by positivity) (by norm_num at h ⊢; omega)
  rw [h']
  ring

/-- `ParseDuration` on digits followed by `"s"`. -/
theorem ParseDuration_seconds (v : String) (c : Char) (cs : List Char)
    (hv : v.toList = c :: cs) (hc : isDigit c = true) (hd : ∀ c' ∈ cs, isDigit c' = true) :
    ParseDuration (v ++ "s") =
      if decimalValue (c :: cs) ≤ 9223372036 then
        some ((decimalValue (c :: cs) : Int) * Second)
      else none := by
  have hsign := isDigit_not_sign c hc
  have hne0 : ¬ (c :: (cs ++ ['s']) = ['0']) := by simp
  unfold ParseDuration
  rw [toList_append_s, hv]
  simp only [List.cons_append, hsign, if_false]
  unfold parseUnsigned
  have hlen : (c :: (cs ++ ['s'])).length = (cs.length + 1) + 1 := by simp
  have hloop := parseDurationLoop_seconds (cs.length + 1) c cs hc hd
  rw [List.cons_append] at hloop
  rw [if_neg hne0, if_neg (List.cons_ne_nil _ _), hlen, hloop]
  by_cases hn : decimalValue (c :: cs) ≤ 9223372036
  · simp only [if_pos hn, Bool.false_eq_true, if_false]
    have hlt : decimalValue (c :: cs) * 1000000000 < 2 ^ 63 := by norm_num; omega
    rw [if_neg (by norm_num at hlt ⊢; omega), wrapInt64_of_small _ hlt]
    simp [Second]
  · simp only [if_neg hn]

/-- The wait after a 429 whose `Retry-After` value is a string of digits. -/
theorem retryAfterDelay_digits (v : String) (c : Char) (cs : List Char)
    (hv : v.toList = c :: cs) (hc : isDigit c = true) (hd : ∀ c' ∈ cs, isDigit c' = true) :
    retryAfterDelay v =
      if decimalValue (c :: cs) ≤ 9223372036 then (decimalValue (c :: cs) : Int) * Second
      else 2 * Second := by
  have hne : v ≠ "" := by
    intro h
    rw [h] at hv
    cases hv
  unfold retryAfterDelay
  rw [if_pos hne, ParseDuration_seconds v c cs hv hc hd]
  split_ifs <;> rfl

theorem parseDurationLoop_bad_start (fuel : Nat) (c : Char) (cs : List Char) (d : Nat)
    (h : isNumberChar c = false) : parseDurationLoop (fuel + 1) (c :: cs) d = none := by
  rw [parseDurationLoop]
  simp [h]

theorem parseUnsigned_bad_start (neg : Bool) (c : Char) (cs : List Char)
    (h : isNumberChar c = false) : parseUnsigned neg (c :: cs) = none := by
  have h0 : c ≠ '0' := by
    rintro rfl
    revert h
    decide
  unfold parseUnsigned
  rw [if_neg (by simp [h0]), if_neg (List.cons_ne_nil _ _), List.length_cons,
    parseDurationLoop_bad_start _ _ _ _ h]

/-- A `Retry-After` value that does not start like a number is empty or is rejected by
`ParseDuration` once `"s"` is appended. -/
theorem ParseDuration_nonNumeric (v : String) (h : nonNumericStart v = true) :
    v = "" ∨ ParseDuration (v ++ "s") = none := by
  unfold nonNumericStart at h
  rcases hv : v.toList with _ | ⟨c, cs⟩
  · left
    cases v
    simp only [String.toList] at hv
    subst hv
    rfl
  · right
    rw [hv] at h
    unfold ParseDuration
    rw [toList_append_s, hv]
    simp only [List.cons_append]
    by_cases hs : c = '-' ∨ c = '+'
    · simp only [hs, if_true] at h ⊢
      cases cs with
      | nil => exact parseUnsigned_bad_start _ 's' [] (by decide)
      | cons c1 tail =>
        simp only [Bool.not_eq_true'] at h
        exact parseUnsigned_bad_start _ c1 (tail ++ ['s']) h
    · simp only [hs, if_false, Bool.not_eq_true'] at h ⊢
      exact parseUnsigned_bad_start _ c (cs ++ ['s']) h

theorem retryAfterDelay_default (v : String)
    (h : v = "" ∨ ParseDuration (v ++ "s") = none) : retryAfterDelay v = 2 * Second := by
  unfold retryAfterDelay
  rcases h with h | h
  · simp [h]
  · rw [h]
    split_ifs <;> rfl

/-! ## The claims about the `Retry-After` value -/

/-- C8 fails as stated. The header value `"9223372037"` is a decimal non-negative
integer, but that many seconds do not fit a `Duration`, `ParseDuration` rejects
`"9223372037s"`, and the wait after the 429 of the first attempt is the default 2 s,
less than 9223372037 s. -/
theorem C8_retry_after_counterexample :
    decimalValue "9223372037".toList = 9223372037 ∧
    ParseDuration ("9223372037" ++ "s") = none ∧
    (backoffDelays (doRequestWithRateLimit CtxErr.canceled
      (fun k => { passes := [{ now := 5, ctxDone := false }]
                  net := NetOutcome.response
                    { StatusCode := if k = 0 then 429 else 200
                      RetryAfter := if k = 0 then "9223372037" else "", Body := "" }
                  ctxDone := false })
      (NewRateLimiter 0)).log)[0]? = some (2 * Second) ∧
    2 * Second < 9223372037 * Second := by
  refine ⟨?_, ?_, ?_, ?_⟩ <;> decide

/-- C8 as amended: when network call number `k`, `k` being 0 or 1, receives a 429 whose
`Retry-After` value is a string of decimal digits writing the number `n`, the wait
before the next attempt is exactly `n` seconds if `n ≤ 9223372036` and the default 2 s
otherwise; when the third network call receives a 429, the call fails with the
rate-limit error without any further wait. -/
theorem C8_retry_after_amended (ctxErr : CtxErr) (env : Nat → AttemptEnv)
    (rl : RateLimiter) :
    (∀ (k : Nat) (resp : Response) (c : Char) (cs : List Char), k < 2 →
      (env k).net = NetOutcome.response resp → resp.StatusCode = 429 →
      resp.RetryAfter.toList = c :: cs → isDigit c = true →
      (∀ c1 ∈ cs, isDigit c1 = true) →
      k < networkCalls (doRequestWithRateLimit ctxErr env rl).log →
      (backoffDelays (doRequestWithRateLimit ctxErr env rl).log)[k]? =
        some (if decimalValue (c :: cs) ≤ 9223372036 then
                (decimalValue (c :: cs) : Int) * Second
              else 2 * Second)) ∧
    (∀ resp : Response,
      (env 2).net = NetOutcome.response resp → resp.StatusCode = 429 →
      2 < networkCalls (doRequestWithRateLimit ctxErr env rl).log →
      (doRequestWithRateLimit ctxErr env rl).result =
        CallResult.error (Error.errorf "レート制限エラー: 最大試行回数に到達") ∧
      (backoffDelays (doRequestWithRateLimit ctxErr env rl).log).length = 2 ∧
      (doRequestWithRateLimit ctxErr env rl).log.getLast? = some Event.httpDo) := by
  constructor
  · intro k resp c cs hk hnet h429 hv hc hd hreach
    refine backoff_of_reached ctxErr env rl k _ ?_ hreach
    intro rl1 pre next
    rw [hnet, handleOutcome_429 ctxErr k resp _ _ _ _ h429,
      if_pos (by unfold maxRetries; omega), retryAfterDelay_digits _ c cs hv hc hd]
  · intro resp hnet h429 hreach
    unfold doRequestWithRateLimit at hreach ⊢
    obtain ⟨fuel1, rlk, pfx, hk3, hwk, heq, _, hb, _⟩ :=
      attemptLoop_reaches ctxErr env 2 maxRetries 0 rl (Nat.zero_le _) (by simpa using hreach)
    have hpre := pre_counts rlk (env 2).passes hwk
    rw [heq, attemptLoop_ok ctxErr env fuel1 2 rlk hk3 hwk, hnet,
      handleOutcome_429 ctxErr 2 resp _ _ _ _ h429, if_neg (by decide)]
    refine ⟨rfl, ?_, ?_⟩
    · simp only [backoffDelays_append] at hpre ⊢
      rw [hpre.2.1, List.append_nil]
      simpa using hb
    · simp

/-- C8 as amended, on a fresh limiter: a 429 with `Retry-After: 5` at the first attempt
is followed by a wait of 5 s, and three 429 in a row end with the rate-limit error after
two waits. -/
theorem C8_retry_after_amended_witness :
    (backoffDelays (doRequestWithRateLimit CtxErr.canceled
      (fun k => { passes := [{ now := 5, ctxDone := false }]
                  net := NetOutcome.response
                    { StatusCode := if k = 0 then 429 else 200, RetryAfter := "5", Body := "" }
                  ctxDone := false })
      (NewRateLimiter 0)).log)[0]? = some (5 * Second) ∧
    ((doRequestWithRateLimit CtxErr.canceled
      (fun _ => { passes := [{ now := 5, ctxDone := false }]
                  net := NetOutcome.response { StatusCode := 429, RetryAfter := "5", Body := "" }
                  ctxDone := false })
      (NewRateLimiter 0)).result =
        CallResult.error (Error.errorf "レート制限エラー: 最大試行回数に到達") ∧
      (backoffDelays (doRequestWithRateLimit CtxErr.canceled
        (fun _ => { passes := [{ now := 5, ctxDone := false }]
                    net := NetOutcome.response
                      { StatusCode := 429, RetryAfter := "5", Body := "" }
                    ctxDone := false })
        (NewRateLimiter 0)).log).length = 2 ∧
      (doRequestWithRateLimit CtxErr.canceled
        (fun _ => { passes := [{ now := 5, ctxDone := false }]
                    net := NetOutcome.response
                      { StatusCode := 429, RetryAfter := "5", Body := "" }
                    ctxDone := false })
        (NewRateLimiter 0)).log.getLast? = some Event.httpDo) :=
  ⟨(C8_retry_after_amended CtxErr.canceled
      (fun k => { passes := [{ now := 5, ctxDone := false }]
                  net := NetOutcome.response
                    { StatusCode := if k = 0 then 429 else 200, RetryAfter := "5", Body := "" }
                  ctxDone := false })
      (NewRateLimiter 0)).1 0 { StatusCode := 429, RetryAfter := "5", Body := "" } '5' []
      (by decide) rfl rfl rfl (by decide) (by decide) (by decide),
   (C8_retry_after_amended CtxErr.canceled
      (fun _ => { passes := [{ now := 5, ctxDone := false }]
                  net := NetOutcome.response { StatusCode := 429, RetryAfter := "5", Body := "" }
                  ctxDone := false })
      (NewRateLimiter 0)).2 { StatusCode := 429, RetryAfter := "5", Body := "" }
      rfl rfl (by decide)⟩

/-- C9 fails as stated. The header value `"5m"` is not a decimal integer number of
seconds, yet `ParseDuration` accepts `"5ms"`, and the wait after the 429 of the first
attempt is 5 ms, not the default 2 s. -/
theorem C9_retry_after_default_counterexample :
    ParseDuration ("5m" ++ "s") = some (5 * Millisecond) ∧
    (backoffDelays (doRequestWithRateLimit CtxErr.canceled
      (fun k => { passes := [{ now := 5, ctxDone := false }]
                  net := NetOutcome.response
                    { StatusCode := if k = 0 then 429 else 200
                      RetryAfter := if k = 0 then "5m" else "", Body := "" }
                  ctxDone := false })
      (NewRateLimiter 0)).log)[0]? = some (5 * Millisecond) ∧
    5 * Millisecond ≠ 2 * Second := by
  refine ⟨?_, ?_, ?_⟩ <;> decide

/-- C9 as amended: when network call number `k`, `k` being 0 or 1, receives a 429 whose
`Retry-After` value is absent or empty, or is rejected by `time.ParseDuration` once
`"s"` is appended, the wait before the next attempt is the default of exactly 2 s; and
every value whose first character after an optional sign is neither a digit nor a dot
(such as `"abc"` or an HTTP date) is rejected in that way. -/
theorem C9_retry_after_default_amended (ctxErr : CtxErr) (env : Nat → AttemptEnv)
    (rl : RateLimiter) :
    (∀ (k : Nat) (resp : Response), k < 2 →
      (env k).net = NetOutcome.response resp → resp.StatusCode = 429 →
      (resp.RetryAfter = "" ∨ ParseDuration (resp.RetryAfter ++ "s") = none) →
      k < networkCalls (doRequestWithRateLimit ctxErr env rl).log →
      (backoffDelays (doRequestWithRateLimit ctxErr env rl).log)[k]? = some (2 * Second)) ∧
    (∀ (k : Nat) (resp : Response), k < 2 →
      (env k).net = NetOutcome.response resp → resp.StatusCode = 429 →
      nonNumericStart resp.RetryAfter = true →
      k < networkCalls (doRequestWithRateLimit ctxErr env rl).log →
      (backoffDelays (doRequestWithRateLimit ctxErr env rl).log)[k]? = some (2 * Second)) := by
  have key : ∀ (k : Nat) (resp : Response), k < 2 →
      (env k).net = NetOutcome.response resp → resp.StatusCode = 429 →
      (resp.RetryAfter = "" ∨ ParseDuration (resp.RetryAfter ++ "s") = none) →
      k < networkCalls (doRequestWithRateLimit ctxErr env rl).log →
      (backoffDelays (doRequestWithRateLimit ctxErr env rl).log)[k]? = some (2 * Second) := by
    intro k resp hk hnet h429 hv hreach
    refine backoff_of_reached ctxErr env rl k _ ?_ hreach
    intro rl1 pre next
    rw [hnet, handleOutcome_429 ctxErr k resp _ _ _ _ h429,
      if_pos (by unfold maxRetries; omega), retryAfterDelay_default _ hv]
  exact ⟨key, fun k resp hk hnet h429 hv hreach =>
    key k resp hk hnet h429 (ParseDuration_nonNumeric _ hv) hreach⟩

/-- C9 as amended, on a fresh limiter: after a 429 without `Retry-After` and after a 429
with `Retry-After: abc` the wait is 2 s. -/
theorem C9_retry_after_default_amended_witness :
    (backoffDelays (doRequestWithRateLimit CtxErr.canceled
      (fun k => { passes := [{ now := 5, ctxDone := false }]
                  net := NetOutcome.response
                    { StatusCode := if k = 0 then 429 else 200, RetryAfter := "", Body := "" }
                  ctxDone := false })
      (NewRateLimiter 0)).log)[0]? = some (2 * Second) ∧
    (backoffDelays (doRequestWithRateLimit CtxErr.canceled
      (fun k => { passes := [{ now := 5, ctxDone := false }]
                  net := NetOutcome.response
                    { StatusCode := if k = 0 then 429 else 200, RetryAfter := "abc", Body := "" }
                  ctxDone := false })
      (NewRateLimiter 0)).log)[0]? = some (2 * Second) :=
  ⟨(C9_retry_after_default_amended CtxErr.canceled
      (fun k => { passes := [{ now := 5, ctxDone := false }]
                  net := NetOutcome.response
                    { StatusCode := if k = 0 then 429 else 200, RetryAfter := "", Body := "" }
                  ctxDone := false })
      (NewRateLimiter 0)).1 0 { StatusCode := 429, RetryAfter := "", Body := "" }
      (by decide) rfl rfl (Or.inl rfl) (by decide),
   (C9_retry_after_default_amended CtxErr.canceled
      (fun k => { passes := [{ now := 5, ctxDone := false }]
                  net := NetOutcome.response
                    { StatusCode := if k = 0 then 429 else 200, RetryAfter := "abc", Body := "" }
                  ctxDone := false })
      (NewRateLimiter 0)).2 0 { StatusCode := 429, RetryAfter := "abc", Body := "" }
      (by decide) rfl rfl (by decide) (by decide)⟩

/-! ## Calls of `Wait`: cancellation and admission without blocking -/

theorem Wait_cancelled_facts (ps : List Pass) :
    ∀ rl : RateLimiter, (Wait rl ps).result = WaitResult.cancelled →
      (∃ p ∈ ps, p.ctxDone = true) ∧
      (∃ d, (Wait rl ps).log.getLast? = some (Event.rateSleep d)) ∧
      (Wait rl ps).rl = refreshedThrough rl (ps.take (Wait rl ps).log.length) := by
  induction ps with
  | nil => intro rl h; simp [Wait] at h
  | cons p ps ih =>
    intro rl h
    by_cases ha : (waitPass rl p.now).2 = PassResult.admitted
    · rw [Wait_cons_admitted rl p ps ha] at h
      cases h
    · have hs := waitPass_sleep_of_not_admitted rl p.now ha
      have hr := waitPass_of_not_admitted rl p.now ha
      rw [Wait_cons_sleep rl p ps _ hs] at h ⊢
      by_cases hc : p.ctxDone = true
      · simp only [hc, if_true] at h ⊢
        refine ⟨⟨p, List.mem_cons_self _ _, hc⟩, ⟨_, rfl⟩, ?_⟩
        simp [refreshedThrough, hr]
      · simp only [hc, Bool.false_eq_true, if_false] at h ⊢
        obtain ⟨⟨q, hq, hqc⟩, ⟨d, hd⟩, hrl⟩ := ih (waitPass rl p.now).1 h
        refine ⟨⟨q, List.mem_cons_of_mem _ hq, hqc⟩, ?_, ?_⟩
        · cases hl : (Wait (waitPass rl p.now).1 ps).log with
          | nil => rw [hl] at hd; simp at hd
          | cons e es =>
            rw [hl] at hd
            exact ⟨d, by rw [List.getLast?_cons_cons]; exact hd⟩
        · rw [hrl, hr]
          simp [refreshedThrough]

theorem Wait_not_cancelled (ps : List Pass) :
    ∀ rl : RateLimiter, (∀ p ∈ ps, p.ctxDone = false) →
      (Wait rl ps).result ≠ WaitResult.cancelled := by
  intro rl hall h
  obtain ⟨⟨p, hp, hc⟩, _⟩ := Wait_cancelled_facts ps rl h
  rw [hall p hp] at hc
  cases hc

/-- C16: `Wait` returns an error (the value `ctx.Err()`) only if the signal won the
`select` of a pass that was waiting: then some pass of the script has the signal
fired, the last step of the call is a sleep, no admission was made, and the limiter is
what the expiry checks alone of the passes made leave (no token taken); and when the
signal never fires, `Wait` does not return an error. -/
theorem C16_wait_fails_only_by_cancellation (rl : RateLimiter) (ps : List Pass) :
    ((Wait rl ps).result = WaitResult.cancelled →
      (∃ p ∈ ps, p.ctxDone = true) ∧
      (∃ d, (Wait rl ps).log.getLast? = some (Event.rateSleep d)) ∧
      tokensConsumed (Wait rl ps).log = 0 ∧
      (Wait rl ps).rl = refreshedThrough rl (ps.take (Wait rl ps).log.length)) ∧
    ((∀ p ∈ ps, p.ctxDone = false) → (Wait rl ps).result ≠ WaitResult.cancelled) := by
  refine ⟨?_, Wait_not_cancelled ps rl⟩
  intro h
  obtain ⟨h1, h2, h3⟩ := Wait_cancelled_facts ps rl h
  refine ⟨h1, h2, ?_, h3⟩
  have hc := (Wait_log_counts ps rl).2.2
  rw [hc, h]
  simp

/-- C16 on a limiter whose short window is exhausted until 1 s: a call at 0.5 s whose
first sleep is interrupted by the signal returns the error, with both counts as before,
and the same call with the signal silent does not return an error. -/
theorem C16_wait_fails_only_by_cancellation_witness :
    ((∃ p ∈ [({ now := 500000000, ctxDone := true } : Pass)], p.ctxDone = true) ∧
      (∃ d, (Wait { NewRateLimiter 0 with shortTermTokens := 0 }
        [{ now := 500000000, ctxDone := true }]).log.getLast? = some (Event.rateSleep d)) ∧
      tokensConsumed (Wait { NewRateLimiter 0 with shortTermTokens := 0 }
        [{ now := 500000000, ctxDone := true }]).log = 0 ∧
      (Wait { NewRateLimiter 0 with shortTermTokens := 0 }
        [{ now := 500000000, ctxDone := true }]).rl =
        refreshedThrough { NewRateLimiter 0 with shortTermTokens := 0 }
          ([({ now := 500000000, ctxDone := true } : Pass)].take
            (Wait { NewRateLimiter 0 with shortTermTokens := 0 }
              [{ now := 500000000, ctxDone := true }]).log.length)) ∧
    (Wait { NewRateLimiter 0 with shortTermTokens := 0 }
      [{ now := 500000000, ctxDone := false }]).result ≠ WaitResult.cancelled :=
  ⟨(C16_wait_fails_only_by_cancellation { NewRateLimiter 0 with shortTermTokens := 0 }
      [{ now := 500000000, ctxDone := true }]).1 (by decide),
   (C16_wait_fails_only_by_cancellation { NewRateLimiter 0 with shortTermTokens := 0 }
      [{ now := 500000000, ctxDone := false }]).2 (by decide)⟩

theorem runWaits_all_admitted (scripts : List (List Pass)) :
    ∀ rl : RateLimiter,
      (scripts.length : Int) ≤ rl.shortTermTokens → (scripts.length : Int) ≤ rl.shortTermLimit →
      (scripts.length : Int) ≤ rl.longTermTokens → (scripts.length : Int) ≤ rl.longTermLimit →
      (∀ ps ∈ scripts, ps ≠ []) →
      ∀ w ∈ runWaits rl scripts, w.result = WaitResult.ok ∧ ∃ t, w.log = [Event.admitted t] := by
  induction scripts with
  | nil => intro rl _ _ _ _ _ w hw; simp [runWaits] at hw
  | cons ps rest ih =>
    intro rl h1 h2 h3 h4 hne w hw
    simp only [List.length_cons, Nat.cast_add, Nat.cast_one] at h1 h2 h3 h4
    have hlen : (0 : Int) ≤ rest.length := Int.natCast_nonneg _
    obtain ⟨p, ps1, rfl⟩ := List.exists_cons_of_ne_nil (hne ps (List.mem_cons_self _ _))
    have hst := refresh_shortTermTokens rl p.now
    have hlt := refresh_longTermTokens rl p.now
    have hl := refresh_limits rl p.now
    have ha : (waitPass rl p.now).2 = PassResult.admitted := by
      rw [waitPass_admitted_iff, hst, hlt]
      constructor <;> split_ifs <;> omega
    have hW := Wait_cons_admitted rl p ps1 ha
    rw [runWaits, List.mem_cons] at hw
    rcases hw with rfl | hw
    · rw [hW]
      exact ⟨rfl, _, rfl⟩
    · rw [hW] at hw
      have hrl := waitPass_of_admitted rl p.now ha
      refine ih (waitPass rl p.now).1 ?_ ?_ ?_ ?_
        (fun q hq => hne q (List.mem_cons_of_mem _ hq)) w hw
      · rw [hrl]; simp only; rw [hst]; split_ifs <;> omega
      · rw [hrl]; simp only; rw [hl.1]; omega
      · rw [hrl]; simp only; rw [hlt]; split_ifs <;> omega
      · rw [hrl]; simp only; rw [hl.2.1]; omega

theorem runWaits_length (scripts : List (List Pass)) :
    ∀ rl : RateLimiter, (runWaits rl scripts).length = scripts.length := by
  induction scripts with
  | nil => intro rl; rfl
  | cons ps rest ih => intro rl; simp [runWaits, ih]

/-- C17: on the limiter built by `NewRateLimiter`, at most 20 consecutive calls of `Wait`,
made at any clock readings, are each admitted on their first pass: each returns nil and
its only step is the admission, without a sleep. -/
theorem C17_first_twenty_never_block (t0 : Int) (scripts : List (List Pass))
    (hlen : scripts.length ≤ 20) (hne : ∀ ps ∈ scripts, ps ≠ []) :
    (runWaits (NewRateLimiter t0) scripts).length = scripts.length ∧
    ∀ w ∈ runWaits (NewRateLimiter t0) scripts,
      w.result = WaitResult.ok ∧ ∃ t, w.log = [Event.admitted t] := by
  have h : (scripts.length : Int) ≤ 20 := by exact_mod_cast hlen
  refine ⟨runWaits_length scripts _, ?_⟩
  refine runWaits_all_admitted scripts (NewRateLimiter t0) ?_ ?_ ?_ ?_ hne <;>
    simp only [NewRateLimiter] <;> omega

/-- C17 on three calls at 0 s, 0 s and 3 s on the limiter built at time 0. -/
theorem C17_first_twenty_never_block_witness :
    (runWaits (NewRateLimiter 0)
      [[{ now := 0, ctxDone := false }], [{ now := 0, ctxDone := true }],
       [{ now := 3000000000, ctxDone := false }]]).length = 3 ∧
    ∀ w ∈ runWaits (NewRateLimiter 0)
      [[{ now := 0, ctxDone := false }], [{ now := 0, ctxDone := true }],
       [{ now := 3000000000, ctxDone := false }]],
      w.result = WaitResult.ok ∧ ∃ t, w.log = [Event.admitted t] :=
  C17_first_twenty_never_block 0
    [[{ now := 0, ctxDone := false }], [{ now := 0, ctxDone := true }],
     [{ now := 3000000000, ctxDone := false }]] (by decide) (by decide)

/-! ## A call of `Wait` under a clock that honours the sleeps -/

theorem Wait_clockScript_admitted (lates : List Int) (rl : RateLimiter) (now : Int)
    (ha : (waitPass rl now).2 = PassResult.admitted) :
    Wait rl (clockScript lates rl now) =
      { rl := (waitPass rl now).1, log := [Event.admitted now], result := WaitResult.ok } := by
  cases lates with
  | nil => exact Wait_cons_admitted rl { now := now, ctxDone := false } [] ha
  | cons late lates =>
    rw [clockScript]
    exact Wait_cons_admitted rl { now := now, ctxDone := false } _ ha

theorem Wait_clockScript_sleep (late : Int) (lates : List Int) (rl : RateLimiter) (now d : Int)
    (hs : (waitPass rl now).2 = PassResult.sleep d) :
    Wait rl (clockScript (late :: lates) rl now) =
      { rl := (Wait (waitPass rl now).1
            (clockScript lates (waitPass rl now).1 (now + d + late))).rl
        log := Event.rateSleep d :: (Wait (waitPass rl now).1
            (clockScript lates (waitPass rl now).1 (now + d + late))).log
        result := (Wait (waitPass rl now).1
            (clockScript lates (waitPass rl now).1 (now + d + late))).result } := by
  rw [clockScript]
  rw [Wait_cons_sleep rl { now := now, ctxDone := false } _ d hs]
  simp only [Bool.false_eq_true, if_false]
  rcases hw : waitPass rl now with ⟨rl1, res⟩
  rw [hw] at hs
  simp only at hs
  subst hs
  rfl

theorem computeWaitTime_pos (r : RateLimiter) (now : Int) : 0 < computeWaitTime r now := by
  unfold computeWaitTime Millisecond
  simp only
  split_ifs <;> omega

theorem computeWaitTime_reaches (r : RateLimiter) (now : Int)
    (h1 : r.shortTermTokens ≤ 0 → r.shortTermReset - now ≤ maxDuration)
    (h2 : r.longTermTokens ≤ 0 → r.longTermReset - now ≤ maxDuration) :
    (r.shortTermTokens ≤ 0 → r.shortTermReset ≤ now + computeWaitTime r now) ∧
    (r.longTermTokens ≤ 0 → r.longTermReset ≤ now + computeWaitTime r now) := by
  unfold maxDuration at h1 h2
  unfold computeWaitTime timeSub Millisecond maxDuration minDuration
  simp only
  by_cases hs : r.shortTermTokens ≤ 0 <;> by_cases hl : r.longTermTokens ≤ 0
  · have := h1 hs
    have := h2 hl
    constructor <;> intro _ <;> split_ifs <;> omega
  · have := h1 hs
    constructor <;> intro _ <;> split_ifs <;> omega
  · have := h2 hl
    constructor <;> intro _ <;> split_ifs <;> omega
  · constructor <;> intro _ <;> omega

theorem computeWaitTime_floor (r : RateLimiter) (now : Int)
    (h1 : r.shortTermTokens ≤ 0 → r.shortTermReset ≤ now)
    (h2 : r.longTermTokens ≤ 0 → r.longTermReset ≤ now) :
    computeWaitTime r now = 100 * Millisecond := by
  unfold computeWaitTime timeSub maxDuration minDuration Millisecond
  simp only
  split_ifs <;> omega

/-- The first pass: unless it admits, it sleeps long enough for every exhausted window to
reach its reset time. -/
theorem first_pass_awake (rl : RateLimiter) (now : Int)
    (hL1 : 0 < rl.shortTermLimit) (hL2 : 0 < rl.longTermLimit)
    (hB1 : rl.shortTermReset - now ≤ maxDuration) (hB2 : rl.longTermReset - now ≤ maxDuration)
    (hna : (waitPass rl now).2 ≠ PassResult.admitted) :
    (waitPass rl now).2 = PassResult.sleep (computeWaitTime (refresh rl now) now) ∧
    AwakeBy (waitPass rl now).1 (now + computeWaitTime (refresh rl now) now) := by
  have hs := waitPass_sleep_of_not_admitted rl now hna
  have hr := waitPass_of_not_admitted rl now hna
  refine ⟨hs, ?_⟩
  rw [hr]
  have hst := refresh_shortTermTokens rl now
  have hlt := refresh_longTermTokens rl now
  have hsr := refresh_shortTermReset rl now
  have hlr := refresh_longTermReset rl now
  have hpos := computeWaitTime_pos (refresh rl now) now
  have hreach := computeWaitTime_reaches (refresh rl now) now
    (by
      intro h
      rw [hst] at h
      rw [hsr]
      split_ifs at h ⊢ <;> omega)
    (by
      intro h
      rw [hlt] at h
      rw [hlr]
      split_ifs at h ⊢ <;> omega)
  unfold AwakeBy
  constructor
  · by_cases h : 0 < (refresh rl now).shortTermTokens
    · exact Or.inl h
    · exact Or.inr (hreach.1 (by omega))
  · by_cases h : 0 < (refresh rl now).longTermTokens
    · exact Or.inl h
    · exact Or.inr (hreach.2 (by omega))

/-- A later pass, not before `t`: unless it admits, it sleeps the floor of 100 ms and the
windows still exhausted have their reset time at the time of the pass. -/
theorem later_pass_awake (r : RateLimiter) (t now : Int)
    (hL1 : 0 < r.shortTermLimit) (hL2 : 0 < r.longTermLimit)
    (hA : AwakeBy r t) (ht : t ≤ now)
    (hna : (waitPass r now).2 ≠ PassResult.admitted) :
    (waitPass r now).2 = PassResult.sleep (100 * Millisecond) ∧
    AwakeBy (waitPass r now).1 now := by
  have hs := waitPass_sleep_of_not_admitted r now hna
  have hr := waitPass_of_not_admitted r now hna
  have hst := refresh_shortTermTokens r now
  have hlt := refresh_longTermTokens r now
  have hsr := refresh_shortTermReset r now
  have hlr := refresh_longTermReset r now
  unfold AwakeBy at hA
  have hS : 0 < (refresh r now).shortTermTokens ∨ (refresh r now).shortTermReset ≤ now := by
    rw [hst, hsr]
    split_ifs <;> omega
  have hLg : 0 < (refresh r now).longTermTokens ∨ (refresh r now).longTermReset ≤ now := by
    rw [hlt, hlr]
    split_ifs <;> omega
  constructor
  · rw [hs, computeWaitTime_floor (refresh r now) now (by omega) (by omega)]
  · rw [hr]
    exact ⟨hS, hLg⟩

/-- A pass strictly after `t` admits. -/
theorem pass_after_awake (r : RateLimiter) (t now : Int)
    (hL1 : 0 < r.shortTermLimit) (hL2 : 0 < r.longTermLimit)
    (hA : AwakeBy r t) (ht : t < now) :
    (waitPass r now).2 = PassResult.admitted := by
  rw [waitPass_admitted_iff, refresh_shortTermTokens, refresh_longTermTokens]
  unfold AwakeBy at hA
  constructor <;> split_ifs <;> omega

theorem waitPass_limits (rl : RateLimiter) (now : Int) :
    (waitPass rl now).1.shortTermLimit = rl.shortTermLimit ∧
    (waitPass rl now).1.longTermLimit = rl.longTermLimit := by
  have hl := refresh_limits rl now
  by_cases ha : (waitPass rl now).2 = PassResult.admitted
  · rw [waitPass_of_admitted rl now ha]
    exact ⟨hl.1, hl.2.1⟩
  · rw [waitPass_of_not_admitted rl now ha]
    exact ⟨hl.1, hl.2.1⟩

theorem rateSleeps_cons_sleep (d : Int) (l : List Event) :
    rateSleeps (Event.rateSleep d :: l) = d :: rateSleeps l := by
  simp [rateSleeps]

theorem rateSleeps_admitted (t : Int) : rateSleeps [Event.admitted t] = [] := by
  simp [rateSleeps]

theorem tokensConsumed_cons_sleep (d : Int) (l : List Event) :
    tokensConsumed (Event.rateSleep d :: l) = tokensConsumed l := by
  simp [tokensConsumed]

/-- On a limiter with positive capacities whose reset times lie at most a maximal
`Duration` after `now`, with a signal that never fires, a single caller and a clock that
advances by at least the slept duration on each sleep, a call of `Wait` entered at `now`
returns nil after at most three passes (at most two sleeps), having taken one token. -/
theorem Wait_returns_within_three_passes (rl : RateLimiter) (now j1 j2 : Int) (lates : List Int)
    (hL1 : 0 < rl.shortTermLimit) (hL2 : 0 < rl.longTermLimit)
    (hB1 : rl.shortTermReset - now ≤ maxDuration) (hB2 : rl.longTermReset - now ≤ maxDuration)
    (hj1 : 0 ≤ j1) (hj2 : 0 ≤ j2) :
    (Wait rl (clockScript (j1 :: j2 :: lates) rl now)).result = WaitResult.ok ∧
    (rateSleeps (Wait rl (clockScript (j1 :: j2 :: lates) rl now)).log).length ≤ 2 ∧
    tokensConsumed (Wait rl (clockScript (j1 :: j2 :: lates) rl now)).log = 1 := by
  by_cases ha1 : (waitPass rl now).2 = PassResult.admitted
  · rw [Wait_clockScript_admitted _ rl now ha1]
    simp [rateSleeps, tokensConsumed]
  · obtain ⟨hs1, hA1⟩ := first_pass_awake rl now hL1 hL2 hB1 hB2 ha1
    have hd1 := computeWaitTime_pos (refresh rl now) now
    have hl1 := waitPass_limits rl now
    rw [Wait_clockScript_sleep j1 (j2 :: lates) rl now _ hs1]
    simp only [rateSleeps_cons_sleep, tokensConsumed_cons_sleep, List.length_cons]
    by_cases ha2 : (waitPass (waitPass rl now).1
        (now + computeWaitTime (refresh rl now) now + j1)).2 = PassResult.admitted
    · rw [Wait_clockScript_admitted _ _ _ ha2]
      simp [rateSleeps, tokensConsumed]
    · obtain ⟨hs2, hA2⟩ := later_pass_awake (waitPass rl now).1
        (now + computeWaitTime (refresh rl now) now)
        (now + computeWaitTime (refresh rl now) now + j1)
        (by rw [hl1.1]; exact hL1) (by rw [hl1.2]; exact hL2) hA1 (by omega) ha2
      have hl2 := waitPass_limits (waitPass rl now).1
        (now + computeWaitTime (refresh rl now) now + j1)
      rw [Wait_clockScript_sleep j2 lates _ _ _ hs2]
      have ha3 := pass_after_awake
        (waitPass (waitPass rl now).1 (now + computeWaitTime (refresh rl now) now + j1)).1
        (now + computeWaitTime (refresh rl now) now + j1)
        (now + computeWaitTime (refresh rl now) now + j1 + 100 * Millisecond + j2)
        (by rw [hl2.1, hl1.1]; exact hL1) (by rw [hl2.2, hl1.2]; exact hL2) hA2
        (by unfold Millisecond; omega)
      rw [Wait_clockScript_admitted _ _ _ ha3]
      simp [rateSleeps, tokensConsumed]

theorem computeWaitTime_short_only (r : RateLimiter) (now : Int)
    (hs : r.shortTermTokens ≤ 0) (hl : 0 < r.longTermTokens)
    (hlo : 0 ≤ r.shortTermReset - now) (hhi : r.shortTermReset - now ≤ maxDuration) :
    computeWaitTime r now =
      if r.shortTermReset - now ≤ 0 then 100 * Millisecond else r.shortTermReset - now := by
  unfold maxDuration at hhi
  unfold computeWaitTime timeSub maxDuration minDuration Millisecond
  simp only
  split_ifs <;> omega

theorem computeWaitTime_long_only (r : RateLimiter) (now : Int)
    (hs : 0 < r.shortTermTokens) (hl : r.longTermTokens ≤ 0)
    (hlo : 0 ≤ r.longTermReset - now) (hhi : r.longTermReset - now ≤ maxDuration) :
    computeWaitTime r now =
      if r.longTermReset - now ≤ 0 then 100 * Millisecond else r.longTermReset - now := by
  unfold maxDuration at hhi
  unfold computeWaitTime timeSub maxDuration minDuration Millisecond
  simp only
  split_ifs <;> omega

/-- The next call of `Wait` when the short window is exhausted and not yet expired and the
long window has tokens, under a clock whose wake-ups are late by `j1` and `j2`. -/
theorem exhausted_short_wait (rl : RateLimiter) (now j1 j2 : Int) (lates : List Int)
    (hs0 : rl.shortTermTokens = 0) (hopos : 0 < rl.longTermTokens)
    (hL1 : 0 < rl.shortTermLimit) (hL2 : 0 < rl.longTermLimit)
    (hnow : now ≤ rl.shortTermReset) (hB : rl.shortTermReset - now ≤ maxDuration)
    (hj1 : 0 ≤ j1) (hj2 : 0 ≤ j2) :
    (Wait rl (clockScript (j1 :: j2 :: lates) rl now)).result = WaitResult.ok ∧
    (Wait rl (clockScript (j1 :: j2 :: lates) rl now)).rl.shortTermTokens =
      rl.shortTermLimit - 1 ∧
    (now < rl.shortTermReset → j1 = 0 →
      rateSleeps (Wait rl (clockScript (j1 :: j2 :: lates) rl now)).log =
        [rl.shortTermReset - now, 100 * Millisecond]) ∧
    (now < rl.shortTermReset → 0 < j1 →
      rateSleeps (Wait rl (clockScript (j1 :: j2 :: lates) rl now)).log =
        [rl.shortTermReset - now]) ∧
    (now = rl.shortTermReset →
      rateSleeps (Wait rl (clockScript (j1 :: j2 :: lates) rl now)).log =
        [100 * Millisecond]) := by
  have H := tracksWindow_short
  have HL := tracksWindow_long
  -- the first pass
  obtain ⟨hl1, _, hr1, ht1, hp1⟩ := H rl now
  obtain ⟨hll1, _, _, htl1, _⟩ := HL rl now
  simp only at hl1 hr1 ht1 hp1 hll1 htl1
  have hne1 : ¬ rl.shortTermReset < now := by omega
  rw [if_neg hne1] at hr1 ht1 hp1
  have hna1 : (waitPass rl now).2 ≠ PassResult.admitted := fun ha => by
    have := hp1 ha
    omega
  rw [if_neg hna1] at ht1 htl1
  have hw1 := waitPass_of_not_admitted rl now hna1
  have hs1 := waitPass_sleep_of_not_admitted rl now hna1
  have hother1 : 0 < (waitPass rl now).1.longTermTokens := by
    rw [htl1]; split_ifs <;> omega
  have hd1 : computeWaitTime (refresh rl now) now =
      if rl.shortTermReset - now ≤ 0 then 100 * Millisecond else rl.shortTermReset - now := by
    rw [← hw1]
    have := computeWaitTime_short_only (waitPass rl now).1 now (by omega) hother1
      (by rw [hr1]; omega) (by rw [hr1]; exact hB)
    rw [hr1] at this
    exact this
  rw [Wait_clockScript_sleep j1 (j2 :: lates) rl now _ hs1]
  simp only [rateSleeps_cons_sleep]
  by_cases hlt : now < rl.shortTermReset
  · -- the sleep ends at the reset time or later
    rw [if_neg (by omega)] at hd1
    rw [hd1]
    by_cases hj : j1 = 0
    · -- awake exactly at the reset time: the window is not refilled yet
      subst hj
      obtain ⟨hl2, _, hr2, ht2, hp2⟩ := H (waitPass rl now).1 (now + (rl.shortTermReset - now) + 0)
      obtain ⟨hll2, _, _, htl2, _⟩ := HL (waitPass rl now).1 (now + (rl.shortTermReset - now) + 0)
      simp only at hl2 hr2 ht2 hp2 hll2 htl2
      have hne2 : ¬ (waitPass rl now).1.shortTermReset < now + (rl.shortTermReset - now) + 0 := by
        rw [hr1]; omega
      rw [if_neg hne2] at hr2 ht2 hp2
      have hna2 : (waitPass (waitPass rl now).1 (now + (rl.shortTermReset - now) + 0)).2 ≠
          PassResult.admitted := fun ha => by
        have := hp2 ha
        omega
      rw [if_neg hna2] at ht2 htl2
      have hs2 := waitPass_sleep_of_not_admitted _ _ hna2
      have hA1 : AwakeBy (waitPass rl now).1 (now + (rl.shortTermReset - now) + 0) :=
        ⟨Or.inr (by rw [hr1]; omega), Or.inl hother1⟩
      obtain ⟨hs2', hA2⟩ := later_pass_awake (waitPass rl now).1 _ _
        (by rw [hl1]; exact hL1) (by rw [hll1]; exact hL2) hA1 (le_refl _) hna2
      rw [Wait_clockScript_sleep j2 lates _ _ _ hs2']
      have ha3 := pass_after_awake
        (waitPass (waitPass rl now).1 (now + (rl.shortTermReset - now) + 0)).1
        (now + (rl.shortTermReset - now) + 0)
        (now + (rl.shortTermReset - now) + 0 + 100 * Millisecond + j2)
        (by rw [hl2, hl1]; exact hL1) (by rw [hll2, hll1]; exact hL2) hA2
        (by unfold Millisecond; omega)
      rw [Wait_clockScript_admitted _ _ _ ha3]
      obtain ⟨hl3, _, _, ht3, _⟩ :=
        H (waitPass (waitPass rl now).1 (now + (rl.shortTermReset - now) + 0)).1
          (now + (rl.shortTermReset - now) + 0 + 100 * Millisecond + j2)
      simp only at hl3 ht3
      rw [if_pos ha3, if_pos (by rw [hr2, hr1]; unfold Millisecond; omega), hl2, hl1] at ht3
      refine ⟨rfl, ht3, ?_, ?_, ?_⟩
      · intro _ _
        simp [rateSleeps]
      · intro _ h0
        omega
      · intro h
        omega
    · -- awake after the reset time: the window is refilled
      have hA1 : AwakeBy (waitPass rl now).1 rl.shortTermReset :=
        ⟨Or.inr (by rw [hr1]), Or.inl hother1⟩
      have ha2 := pass_after_awake (waitPass rl now).1 rl.shortTermReset
        (now + (rl.shortTermReset - now) + j1)
        (by rw [hl1]; exact hL1) (by rw [hll1]; exact hL2) hA1 (by omega)
      rw [Wait_clockScript_admitted _ _ _ ha2]
      obtain ⟨_, _, _, ht2, _⟩ := H (waitPass rl now).1 (now + (rl.shortTermReset - now) + j1)
      simp only at ht2
      rw [if_pos ha2, if_pos (by rw [hr1]; omega), hl1] at ht2
      refine ⟨rfl, ht2, ?_, ?_, ?_⟩
      · intro _ h0
        exact absurd h0 hj
      · intro _ _
        simp [rateSleeps]
      · intro h
        omega
  · -- entered exactly at the reset time: one floor sleep
    have heq : now = rl.shortTermReset := by omega
    rw [if_pos (by omega)] at hd1
    rw [hd1]
    have hA1 : AwakeBy (waitPass rl now).1 now :=
      ⟨Or.inr (by rw [hr1]; omega), Or.inl hother1⟩
    have ha2 := pass_after_awake (waitPass rl now).1 now (now + 100 * Millisecond + j1)
      (by rw [hl1]; exact hL1) (by rw [hll1]; exact hL2) hA1 (by unfold Millisecond; omega)
    rw [Wait_clockScript_admitted _ _ _ ha2]
    obtain ⟨_, _, _, ht2, _⟩ := H (waitPass rl now).1 (now + 100 * Millisecond + j1)
    simp only at ht2
    rw [if_pos ha2, if_pos (by rw [hr1]; unfold Millisecond; omega), hl1] at ht2
    refine ⟨rfl, ht2, ?_, ?_, ?_⟩
    · intro h _
      omega
    · intro h _
      omega
    · intro _
      simp [rateSleeps]

/-- The next call of `Wait` when the long window is exhausted and not yet expired and the
short window has tokens, under a clock whose wake-ups are late by `j1` and `j2`. -/
theorem exhausted_long_wait (rl : RateLimiter) (now j1 j2 : Int) (lates : List Int)
    (hs0 : rl.longTermTokens = 0) (hopos : 0 < rl.shortTermTokens)
    (hL1 : 0 < rl.longTermLimit) (hL2 : 0 < rl.shortTermLimit)
    (hnow : now ≤ rl.longTermReset) (hB : rl.longTermReset - now ≤ maxDuration)
    (hj1 : 0 ≤ j1) (hj2 : 0 ≤ j2) :
    (Wait rl (clockScript (j1 :: j2 :: lates) rl now)).result = WaitResult.ok ∧
    (Wait rl (clockScript (j1 :: j2 :: lates) rl now)).rl.longTermTokens =
      rl.longTermLimit - 1 ∧
    (now < rl.longTermReset → j1 = 0 →
      rateSleeps (Wait rl (clockScript (j1 :: j2 :: lates) rl now)).log =
        [rl.longTermReset - now, 100 * Millisecond]) ∧
    (now < rl.longTermReset → 0 < j1 →
      rateSleeps (Wait rl (clockScript (j1 :: j2 :: lates) rl now)).log =
        [rl.longTermReset - now]) ∧
    (now = rl.longTermReset →
      rateSleeps (Wait rl (clockScript (j1 :: j2 :: lates) rl now)).log =
        [100 * Millisecond]) := by
  have H := tracksWindow_long
  have HL := tracksWindow_short
  -- the first pass
  obtain ⟨hl1, _, hr1, ht1, hp1⟩ := H rl now
  obtain ⟨hll1, _, _, htl1, _⟩ := HL rl now
  simp only at hl1 hr1 ht1 hp1 hll1 htl1
  have hne1 : ¬ rl.longTermReset < now := by omega
  rw [if_neg hne1] at hr1 ht1 hp1
  have hna1 : (waitPass rl now).2 ≠ PassResult.admitted := fun ha => by
    have := hp1 ha
    omega
  rw [if_neg hna1] at ht1 htl1
  have hw1 := waitPass_of_not_admitted rl now hna1
  have hs1 := waitPass_sleep_of_not_admitted rl now hna1
  have hother1 : 0 < (waitPass rl now).1.shortTermTokens := by
    rw [htl1]; split_ifs <;> omega
  have hd1 : computeWaitTime (refresh rl now) now =
      if rl.longTermReset - now ≤ 0 then 100 * Millisecond else rl.longTermReset - now := by
    rw [← hw1]
    have := computeWaitTime_long_only (waitPass rl now).1 now hother1 (by omega)
      (by rw [hr1]; omega) (by rw [hr1]; exact hB)
    rw [hr1] at this
    exact this
  rw [Wait_clockScript_sleep j1 (j2 :: lates) rl now _ hs1]
  simp only [rateSleeps_cons_sleep]
  by_cases hlt : now < rl.longTermReset
  · -- the sleep ends at the reset time or later
    rw [if_neg (by omega)] at hd1
    rw [hd1]
    by_cases hj : j1 = 0
    · -- awake exactly at the reset time: the window is not refilled yet
      subst hj
      obtain ⟨hl2, _, hr2, ht2, hp2⟩ := H (waitPass rl now).1 (now + (rl.longTermReset - now) + 0)
      obtain ⟨hll2, _, _, htl2, _⟩ := HL (waitPass rl now).1 (now + (rl.longTermReset - now) + 0)
      simp only at hl2 hr2 ht2 hp2 hll2 htl2
      have hne2 : ¬ (waitPass rl now).1.longTermReset < now + (rl.longTermReset - now) + 0 := by
        rw [hr1]; omega
      rw [if_neg hne2] at hr2 ht2 hp2
      have hna2 : (waitPass (waitPass rl now).1 (now + (rl.longTermReset - now) + 0)).2 ≠
          PassResult.admitted := fun ha => by
        have := hp2 ha
        omega
      rw [if_neg hna2] at ht2 htl2
      have hs2 := waitPass_sleep_of_not_admitted _ _ hna2
      have hA1 : AwakeBy (waitPass rl now).1 (now + (rl.longTermReset - now) + 0) :=
        ⟨Or.inl hother1, Or.inr (by rw [hr1]; omega)⟩
      obtain ⟨hs2', hA2⟩ := later_pass_awake (waitPass rl now).1 _ _
        (by rw [hll1]; exact hL2) (by rw [hl1]; exact hL1) hA1 (le_refl _) hna2
      rw [Wait_clockScript_sleep j2 lates _ _ _ hs2']
      have ha3 := pass_after_awake
        (waitPass (waitPass rl now).1 (now + (rl.longTermReset - now) + 0)).1
        (now + (rl.longTermReset - now) + 0)
        (now + (rl.longTermReset - now) + 0 + 100 * Millisecond + j2)
        (by rw [hll2, hll1]; exact hL2) (by rw [hl2, hl1]; exact hL1) hA2
        (by unfold Millisecond; omega)
      rw [Wait_clockScript_admitted _ _ _ ha3]
      obtain ⟨hl3, _, _, ht3, _⟩ :=
        H (waitPass (waitPass rl now).1 (now + (rl.longTermReset - now) + 0)).1
          (now + (rl.longTermReset - now) + 0 + 100 * Millisecond + j2)
      simp only at hl3 ht3
      rw [if_pos ha3, if_pos (by rw [hr2, hr1]; unfold Millisecond; omega), hl2, hl1] at ht3
      refine ⟨rfl, ht3, ?_, ?_, ?_⟩
      · intro _ _
        simp [rateSleeps]
      · intro _ h0
        omega
      · intro h
        omega
    · -- awake after the reset time: the window is refilled
      have hA1 : AwakeBy (waitPass rl now).1 rl.longTermReset :=
        ⟨Or.inl hother1, Or.inr (by rw [hr1])⟩
      have ha2 := pass_after_awake (waitPass rl now).1 rl.longTermReset
        (now + (rl.longTermReset - now) + j1)
        (by rw [hll1]; exact hL2) (by rw [hl1]; exact hL1) hA1 (by omega)
      rw [Wait_clockScript_admitted _ _ _ ha2]
      obtain ⟨_, _, _, ht2, _⟩ := H (waitPass rl now).1 (now + (rl.longTermReset - now) + j1)
      simp only at ht2
      rw [if_pos ha2, if_pos (by rw [hr1]; omega), hl1] at ht2
      refine ⟨rfl, ht2, ?_, ?_, ?_⟩
      · intro _ h0
        exact absurd h0 hj
      · intro _ _
        simp [rateSleeps]
      · intro h
        omega
  · -- entered exactly at the reset time: one floor sleep
    have heq : now = rl.longTermReset := by omega
    rw [if_pos (by omega)] at hd1
    rw [hd1]
    have hA1 : AwakeBy (waitPass rl now).1 now :=
      ⟨Or.inl hother1, Or.inr (by rw [hr1]; omega)⟩
    have ha2 := pass_after_awake (waitPass rl now).1 now (now + 100 * Millisecond + j1)
      (by rw [hll1]; exact hL2) (by rw [hl1]; exact hL1) hA1 (by unfold Millisecond; omega)
    rw [Wait_clockScript_admitted _ _ _ ha2]
    obtain ⟨_, _, _, ht2, _⟩ := H (waitPass rl now).1 (now + 100 * Millisecond + j1)
    simp only at ht2
    rw [if_pos ha2, if_pos (by rw [hr1]; unfold Millisecond; omega), hl1] at ht2
    refine ⟨rfl, ht2, ?_, ?_, ?_⟩
    · intro h _
      omega
    · intro h _
      omega
    · intro _
      simp [rateSleeps]

/-! ## The claim about the wait after a window is exhausted -/

set_option maxRecDepth 100000 in
/-- C18 fails as stated. On the limiter built at time 0, twenty admissions at 0.5 s
exhaust the short window (0 tokens, 80 left in the long one, reset at 1 s, so 0.5 s
remain). The next call, under a clock that advances by exactly the slept durations,
sleeps 0.5 s, finds the clock at 1 s, which is not after the reset time, sleeps the
floor of 100 ms and is admitted at 1.1 s: 0.6 s of waiting, more than the 0.5 s that
remained. -/
theorem C18_wait_after_exhaustion_counterexample :
    admissionsIn (NewRateLimiter 0) (List.replicate 20 500000000) 500000000 500000000 = 20 ∧
    ((List.replicate 20 (500000000 : Int)).foldl (fun r t => (waitPass r t).1)
      (NewRateLimiter 0)).shortTermTokens = 0 ∧
    ((List.replicate 20 (500000000 : Int)).foldl (fun r t => (waitPass r t).1)
      (NewRateLimiter 0)).longTermTokens = 80 ∧
    ((List.replicate 20 (500000000 : Int)).foldl (fun r t => (waitPass r t).1)
      (NewRateLimiter 0)).shortTermReset - 500000000 = 500000000 ∧
    (Wait ((List.replicate 20 (500000000 : Int)).foldl (fun r t => (waitPass r t).1)
        (NewRateLimiter 0))
      (clockScript [0, 0]
        ((List.replicate 20 (500000000 : Int)).foldl (fun r t => (waitPass r t).1)
          (NewRateLimiter 0)) 500000000)).log =
      [Event.rateSleep 500000000, Event.rateSleep 100000000, Event.admitted 1100000000] ∧
    sleptTotal (Wait ((List.replicate 20 (500000000 : Int)).foldl (fun r t => (waitPass r t).1)
        (NewRateLimiter 0))
      (clockScript [0, 0]
        ((List.replicate 20 (500000000 : Int)).foldl (fun r t => (waitPass r t).1)
          (NewRateLimiter 0)) 500000000)).log = 600000000 ∧
    (500000000 : Int) < 600000000 := by
  refine ⟨?_, ?_, ?_, ?_, ?_, ?_, ?_⟩ <;> decide

/-- C18 as amended: when one window holds 0 tokens and is not yet expired (its reset time
at most a maximal `Duration` ahead), the other window has tokens and both capacities are
positive, the next call of `Wait`, under a clock whose wake-ups are late by `j1 ≥ 0` and
`j2 ≥ 0`, returns nil having slept in total at most the window's remaining time-to-reset
plus the floor of 100 ms: exactly that sum under an exact clock (`j1 = 0`) when time
remained, exactly the remaining time when the first wake-up is late; and the admitting
pass refills the window, which ends with its capacity less the token just taken. -/
theorem C18_wait_after_exhaustion_amended (rl : RateLimiter) (now j1 j2 : Int)
    (lates : List Int) (hL1 : 0 < rl.shortTermLimit) (hL2 : 0 < rl.longTermLimit)
    (hj1 : 0 ≤ j1) (hj2 : 0 ≤ j2) :
    (rl.shortTermTokens = 0 → 0 < rl.longTermTokens → now ≤ rl.shortTermReset →
      rl.shortTermReset - now ≤ maxDuration →
      (Wait rl (clockScript (j1 :: j2 :: lates) rl now)).result = WaitResult.ok ∧
      (Wait rl (clockScript (j1 :: j2 :: lates) rl now)).rl.shortTermTokens =
        rl.shortTermLimit - 1 ∧
      sleptTotal (Wait rl (clockScript (j1 :: j2 :: lates) rl now)).log ≤
        (rl.shortTermReset - now) + 100 * Millisecond ∧
      (now < rl.shortTermReset → j1 = 0 →
        sleptTotal (Wait rl (clockScript (j1 :: j2 :: lates) rl now)).log =
          (rl.shortTermReset - now) + 100 * Millisecond) ∧
      (now < rl.shortTermReset → 0 < j1 →
        sleptTotal (Wait rl (clockScript (j1 :: j2 :: lates) rl now)).log =
          rl.shortTermReset - now)) ∧
    (rl.longTermTokens = 0 → 0 < rl.shortTermTokens → now ≤ rl.longTermReset →
      rl.longTermReset - now ≤ maxDuration →
      (Wait rl (clockScript (j1 :: j2 :: lates) rl now)).result = WaitResult.ok ∧
      (Wait rl (clockScript (j1 :: j2 :: lates) rl now)).rl.longTermTokens =
        rl.longTermLimit - 1 ∧
      sleptTotal (Wait rl (clockScript (j1 :: j2 :: lates) rl now)).log ≤
        (rl.longTermReset - now) + 100 * Millisecond ∧
      (now < rl.longTermReset → j1 = 0 →
        sleptTotal (Wait rl (clockScript (j1 :: j2 :: lates) rl now)).log =
          (rl.longTermReset - now) + 100 * Millisecond) ∧
      (now < rl.longTermReset → 0 < j1 →
        sleptTotal (Wait rl (clockScript (j1 :: j2 :: lates) rl now)).log =
          rl.longTermReset - now)) := by
  constructor
  · intro hs0 hopos hnow hB
    obtain ⟨h1, h2, h3, h4, h5⟩ :=
      exhausted_short_wait rl now j1 j2 lates hs0 hopos hL1 hL2 hnow hB hj1 hj2
    refine ⟨h1, h2, ?_, ?_, ?_⟩
    · unfold sleptTotal
      rcases lt_or_eq_of_le hnow with hlt | heq
      · rcases lt_or_eq_of_le hj1 with hj | hj
        · rw [h4 hlt hj]
          simp only [List.sum_cons, List.sum_nil, Millisecond]
          omega
        · rw [h3 hlt hj.symm]
          simp only [List.sum_cons, List.sum_nil, Millisecond]
          omega
      · rw [h5 heq]
        simp only [List.sum_cons, List.sum_nil, Millisecond]
        omega
    · intro hlt hj
      unfold sleptTotal
      rw [h3 hlt hj]
      simp only [List.sum_cons, List.sum_nil, add_zero]
    · intro hlt hj
      unfold sleptTotal
      rw [h4 hlt hj]
      simp only [List.sum_cons, List.sum_nil, add_zero]
  · intro hs0 hopos hnow hB
    obtain ⟨h1, h2, h3, h4, h5⟩ :=
      exhausted_long_wait rl now j1 j2 lates hs0 hopos hL2 hL1 hnow hB hj1 hj2
    refine ⟨h1, h2, ?_, ?_, ?_⟩
    · unfold sleptTotal
      rcases lt_or_eq_of_le hnow with hlt | heq
      · rcases lt_or_eq_of_le hj1 with hj | hj
        · rw [h4 hlt hj]
          simp only [List.sum_cons, List.sum_nil, Millisecond]
          omega
        · rw [h3 hlt hj.symm]
          simp only [List.sum_cons, List.sum_nil, Millisecond]
          omega
      · rw [h5 heq]
        simp only [List.sum_cons, List.sum_nil, Millisecond]
        omega
    · intro hlt hj
      unfold sleptTotal
      rw [h3 hlt hj]
      simp only [List.sum_cons, List.sum_nil, add_zero]
    · intro hlt hj
      unfold sleptTotal
      rw [h4 hlt hj]
      simp only [List.sum_cons, List.sum_nil, add_zero]

/-- C18 as amended, on the limiter built at time 0 entered at 0.5 s under an exact clock:
with the short window at 0 the call waits 0.5 s + 100 ms and leaves 19 tokens, and with
the long window at 0 it waits 119.5 s + 100 ms and leaves 99. -/
theorem C18_wait_after_exhaustion_amended_witness :
    ((Wait { NewRateLimiter 0 with shortTermTokens := 0 }
        (clockScript [0, 0] { NewRateLimiter 0 with shortTermTokens := 0 } 500000000)).result =
        WaitResult.ok ∧
      (Wait { NewRateLimiter 0 with shortTermTokens := 0 }
        (clockScript [0, 0] { NewRateLimiter 0 with shortTermTokens := 0 }
          500000000)).rl.shortTermTokens = 20 - 1 ∧
      sleptTotal (Wait { NewRateLimiter 0 with shortTermTokens := 0 }
        (clockScript [0, 0] { NewRateLimiter 0 with shortTermTokens := 0 } 500000000)).log =
        (1000000000 - 500000000) + 100 * Millisecond) ∧
    ((Wait { NewRateLimiter 0 with longTermTokens := 0 }
        (clockScript [0, 0] { NewRateLimiter 0 with longTermTokens := 0 } 500000000)).result =
        WaitResult.ok ∧
      (Wait { NewRateLimiter 0 with longTermTokens := 0 }
        (clockScript [0, 0] { NewRateLimiter 0 with longTermTokens := 0 }
          500000000)).rl.longTermTokens = 100 - 1 ∧
      sleptTotal (Wait { NewRateLimiter 0 with longTermTokens := 0 }
        (clockScript [0, 0] { NewRateLimiter 0 with longTermTokens := 0 } 500000000)).log =
        (120000000000 - 500000000) + 100 * Millisecond) :=
  have hs := (C18_wait_after_exhaustion_amended { NewRateLimiter 0 with shortTermTokens := 0 }
    500000000 0 0 [] (by decide) (by decide) (by decide) (by decide)).1
    (by decide) (by decide) (by decide) (by decide)
  have hl := (C18_wait_after_exhaustion_amended { NewRateLimiter 0 with longTermTokens := 0 }
    500000000 0 0 [] (by decide) (by decide) (by decide) (by decide)).2
    (by decide) (by decide) (by decide) (by decide)
  ⟨⟨hs.1, hs.2.1, hs.2.2.2.1 (by decide) rfl⟩, ⟨hl.1, hl.2.1, hl.2.2.2.1 (by decide) rfl⟩⟩

/-! ## `Reset` followed by `Wait` -/

/-- For every limiter state and time `now`, `Reset` at `now` sets both token counts to
their capacities and both reset times to `now + windowLength` (that is `now + 1 s` and
`now + 2 min` for the window lengths `NewRateLimiter` sets), leaving capacities and window
lengths unchanged; and when both capacities are positive, a `Wait` issued right afterwards
at the same time returns nil on its first pass without sleeping, taking one token from
each full window. -/
theorem Reset_then_Wait (rl : RateLimiter) (now : Int) :
    ((Reset rl now).shortTermTokens = rl.shortTermLimit ∧
      (Reset rl now).longTermTokens = rl.longTermLimit ∧
      (Reset rl now).shortTermReset = now + rl.shortTermWindow ∧
      (Reset rl now).longTermReset = now + rl.longTermWindow ∧
      (Reset rl now).shortTermLimit = rl.shortTermLimit ∧
      (Reset rl now).longTermLimit = rl.longTermLimit ∧
      (Reset rl now).shortTermWindow = rl.shortTermWindow ∧
      (Reset rl now).longTermWindow = rl.longTermWindow) ∧
    (rl.shortTermWindow = Second → rl.longTermWindow = 2 * Minute →
      (Reset rl now).shortTermReset = now + Second ∧
      (Reset rl now).longTermReset = now + 2 * Minute) ∧
    (0 < rl.shortTermLimit → 0 < rl.longTermLimit →
      ∀ (c : Bool) (ps : List Pass),
        (Wait (Reset rl now) ({ now := now, ctxDone := c } :: ps)).result = WaitResult.ok ∧
        (Wait (Reset rl now) ({ now := now, ctxDone := c } :: ps)).log = [Event.admitted now] ∧
        (Wait (Reset rl now) ({ now := now, ctxDone := c } :: ps)).rl.shortTermTokens =
          rl.shortTermLimit - 1 ∧
        (Wait (Reset rl now) ({ now := now, ctxDone := c } :: ps)).rl.longTermTokens =
          rl.longTermLimit - 1) := by
  refine ⟨⟨rfl, rfl, rfl, rfl, rfl, rfl, rfl, rfl⟩, ?_, ?_⟩
  · intro h1 h2
    simp [Reset, timeAdd, h1, h2]
  · intro hL1 hL2 c ps
    have hst := refresh_shortTermTokens (Reset rl now) now
    have hlt := refresh_longTermTokens (Reset rl now) now
    have e1 : (Reset rl now).shortTermTokens = rl.shortTermLimit := rfl
    have e2 : (Reset rl now).longTermTokens = rl.longTermLimit := rfl
    have e3 : (Reset rl now).shortTermLimit = rl.shortTermLimit := rfl
    have e4 : (Reset rl now).longTermLimit = rl.longTermLimit := rfl
    rw [e1, e3, ite_self] at hst
    rw [e2, e4, ite_self] at hlt
    have ha : (waitPass (Reset rl now) now).2 = PassResult.admitted := by
      rw [waitPass_admitted_iff, hst, hlt]
      exact ⟨hL1, hL2⟩
    rw [Wait_cons_admitted (Reset rl now) { now := now, ctxDone := c } ps ha]
    refine ⟨rfl, rfl, ?_, ?_⟩
    · simp only
      rw [waitPass_of_admitted _ _ ha]
      simp only [hst]
    · simp only
      rw [waitPass_of_admitted _ _ ha]
      simp only [hlt]

/-! ## The claims about cancellation inside `doRequestWithRateLimit` -/

theorem selectBackoff_cancelled (ctxErr : CtxErr) (d : Int) (rl : RateLimiter)
    (pre : List Event) (next : CallRun) :
    selectBackoff ctxErr d true rl pre next =
      { rl := rl, log := pre ++ [Event.backoff d]
        result := CallResult.error (Error.context ctxErr) } := by
  simp [selectBackoff]

/-- An outcome after which the loop waits and tries again: a transport failure, a 429 or
a status of 500 and above. -/
theorem handleOutcome_retry_cancelled (ctxErr : CtxErr) (k : Nat) (out : NetOutcome)
    (rl : RateLimiter) (pre : List Event) (next : CallRun) (hk : k < 2)
    (hout : (∃ err, out = NetOutcome.failure err) ∨
      (∃ resp, out = NetOutcome.response resp ∧
        (resp.StatusCode = 429 ∨ 500 ≤ resp.StatusCode))) :
    ∃ d, handleOutcome ctxErr k out true rl pre next =
      { rl := rl, log := pre ++ [Event.backoff d]
        result := CallResult.error (Error.context ctxErr) } := by
  have hk' : k < maxRetries - 1 := by unfold maxRetries; omega
  rcases hout with ⟨err, rfl⟩ | ⟨resp, rfl, h429 | h500⟩
  · exact ⟨_, by rw [handleOutcome_failure, if_pos hk', selectBackoff_cancelled]⟩
  · exact ⟨_, by rw [handleOutcome_429 _ _ _ _ _ _ _ h429, if_pos hk', selectBackoff_cancelled]⟩
  · exact ⟨_, by rw [handleOutcome_5xx _ _ _ _ _ _ _ h500, if_pos hk', selectBackoff_cancelled]⟩

theorem attemptLoop_wait_cancelled (ctxErr : CtxErr) (env : Nat → AttemptEnv)
    (fuel k : Nat) (rlk : RateLimiter) (hk : k < maxRetries)
    (hw : (Wait rlk (env k).passes).result = WaitResult.cancelled) :
    attemptLoop ctxErr env (fuel + 1) k rlk =
      { rl := (Wait rlk (env k).passes).rl, log := (Wait rlk (env k).passes).log
        result := CallResult.error
          (Error.wrap "レート制限待機エラー" (Error.context ctxErr)) } := by
  rw [attemptLoop, if_pos hk]
  simp only [hw]

/-- C15: cancellation seen at a suspension point of `doRequestWithRateLimit` ends the
call. If the `Wait` of an iteration returns the cancellation error, the loop returns at
once an error wrapping `ctx.Err()`, and that iteration makes no network call and takes no
token. If network call number `k`, `k` being 0 or 1, ends in a transport failure, a 429
or a status of 500 and above and the signal fires in the backoff wait that follows, the
call returns `ctx.Err()`: its last step is that wait, and it made exactly `k + 1` network
calls and admissions, none after the wait. -/
theorem C15_cancellation_never_retried (ctxErr : CtxErr) (env : Nat → AttemptEnv)
    (rl : RateLimiter) :
    (∀ (fuel k : Nat) (rlk : RateLimiter), k < 3 →
      (Wait rlk (env k).passes).result = WaitResult.cancelled →
      attemptLoop ctxErr env (fuel + 1) k rlk =
        { rl := (Wait rlk (env k).passes).rl, log := (Wait rlk (env k).passes).log
          result := CallResult.error
            (Error.wrap "レート制限待機エラー" (Error.context ctxErr)) } ∧
      networkCalls (attemptLoop ctxErr env (fuel + 1) k rlk).log = 0 ∧
      tokensConsumed (attemptLoop ctxErr env (fuel + 1) k rlk).log = 0) ∧
    ((Wait rl (env 0).passes).result = WaitResult.cancelled →
      (doRequestWithRateLimit ctxErr env rl).result =
        CallResult.error (Error.wrap "レート制限待機エラー" (Error.context ctxErr)) ∧
      networkCalls (doRequestWithRateLimit ctxErr env rl).log = 0 ∧
      tokensConsumed (doRequestWithRateLimit ctxErr env rl).log = 0) ∧
    (∀ k : Nat, k < 2 →
      ((∃ err, (env k).net = NetOutcome.failure err) ∨
        (∃ resp, (env k).net = NetOutcome.response resp ∧
          (resp.StatusCode = 429 ∨ 500 ≤ resp.StatusCode))) →
      (env k).ctxDone = true →
      k < networkCalls (doRequestWithRateLimit ctxErr env rl).log →
      (doRequestWithRateLimit ctxErr env rl).result =
        CallResult.error (Error.context ctxErr) ∧
      (∃ d, (doRequestWithRateLimit ctxErr env rl).log.getLast? = some (Event.backoff d)) ∧
      networkCalls (doRequestWithRateLimit ctxErr env rl).log = k + 1 ∧
      tokensConsumed (doRequestWithRateLimit ctxErr env rl).log = k + 1) := by
  have part1 : ∀ (fuel k : Nat) (rlk : RateLimiter), k < 3 →
      (Wait rlk (env k).passes).result = WaitResult.cancelled →
      attemptLoop ctxErr env (fuel + 1) k rlk =
        { rl := (Wait rlk (env k).passes).rl, log := (Wait rlk (env k).passes).log
          result := CallResult.error
            (Error.wrap "レート制限待機エラー" (Error.context ctxErr)) } ∧
      networkCalls (attemptLoop ctxErr env (fuel + 1) k rlk).log = 0 ∧
      tokensConsumed (attemptLoop ctxErr env (fuel + 1) k rlk).log = 0 := by
    intro fuel k rlk hk hw
    have h := attemptLoop_wait_cancelled ctxErr env fuel k rlk hk hw
    have hc := Wait_log_counts (env k).passes rlk
    refine ⟨h, ?_, ?_⟩
    · rw [h]; exact hc.1
    · rw [h]; simp only; rw [hc.2.2, hw]; simp
  refine ⟨part1, ?_, ?_⟩
  · intro hw
    obtain ⟨h1, h2, h3⟩ := part1 2 0 rl (by decide) hw
    unfold doRequestWithRateLimit maxRetries
    exact ⟨by rw [h1], h2, h3⟩
  · intro k hk hout hctx hreach
    unfold doRequestWithRateLimit at hreach ⊢
    obtain ⟨fuel1, rlk, pfx, hk3, hwk, heq, hn, _, ht⟩ :=
      attemptLoop_reaches ctxErr env k maxRetries 0 rl (Nat.zero_le _) (by simpa using hreach)
    have hpre := pre_counts rlk (env k).passes hwk
    obtain ⟨d, hd⟩ := handleOutcome_retry_cancelled ctxErr k (env k).net
      (Wait rlk (env k).passes).rl ((Wait rlk (env k).passes).log ++ [Event.httpDo])
      (attemptLoop ctxErr env fuel1 (k + 1) (Wait rlk (env k).passes).rl) hk hout
    rw [heq, attemptLoop_ok ctxErr env fuel1 k rlk hk3 hwk, hctx, hd]
    refine ⟨rfl, ⟨d, by simp⟩, ?_, ?_⟩
    · have e : networkCalls ([] : List Event) = 0 := rfl
      simp only [networkCalls_append, networkCalls_backoff_cons, hn, e] at hpre ⊢
      omega
    · have e : tokensConsumed ([] : List Event) = 0 := rfl
      simp only [tokensConsumed_append, tokensConsumed_backoff_cons, ht, e] at hpre ⊢
      omega
/-- C15 on concrete runs: with the short window exhausted and the signal firing in the
sleep of `Wait`, the call fails with the wrapped cancellation error without a network
call; with a 503 at the first attempt and the signal firing in the backoff wait, the
call returns `ctx.Err()` after one network call. -/
theorem C15_cancellation_never_retried_witness :
    (attemptLoop CtxErr.canceled
        (fun _ => { passes := [{ now := 500000000, ctxDone := true }]
                    net := NetOutcome.response { StatusCode := 200, RetryAfter := "", Body := "" }
                    ctxDone := false })
        (2 + 1) 0 { NewRateLimiter 0 with shortTermTokens := 0 } =
        { rl := (Wait { NewRateLimiter 0 with shortTermTokens := 0 }
            [{ now := 500000000, ctxDone := true }]).rl
          log := (Wait { NewRateLimiter 0 with shortTermTokens := 0 }
            [{ now := 500000000, ctxDone := true }]).log
          result := CallResult.error
            (Error.wrap "レート制限待機エラー" (Error.context CtxErr.canceled)) } ∧
      networkCalls (attemptLoop CtxErr.canceled
        (fun _ => { passes := [{ now := 500000000, ctxDone := true }]
                    net := NetOutcome.response { StatusCode := 200, RetryAfter := "", Body := "" }
                    ctxDone := false })
        (2 + 1) 0 { NewRateLimiter 0 with shortTermTokens := 0 }).log = 0 ∧
      tokensConsumed (attemptLoop CtxErr.canceled
        (fun _ => { passes := [{ now := 500000000, ctxDone := true }]
                    net := NetOutcome.response { StatusCode := 200, RetryAfter := "", Body := "" }
                    ctxDone := false })
        (2 + 1) 0 { NewRateLimiter 0 with shortTermTokens := 0 }).log = 0) ∧
    ((doRequestWithRateLimit CtxErr.canceled
        (fun _ => { passes := [{ now := 500000000, ctxDone := true }]
                    net := NetOutcome.response { StatusCode := 200, RetryAfter := "", Body := "" }
                    ctxDone := false })
        { NewRateLimiter 0 with shortTermTokens := 0 }).result =
        CallResult.error (Error.wrap "レート制限待機エラー" (Error.context CtxErr.canceled)) ∧
      networkCalls (doRequestWithRateLimit CtxErr.canceled
        (fun _ => { passes := [{ now := 500000000, ctxDone := true }]
                    net := NetOutcome.response { StatusCode := 200, RetryAfter := "", Body := "" }
                    ctxDone := false })
        { NewRateLimiter 0 with shortTermTokens := 0 }).log = 0 ∧
      tokensConsumed (doRequestWithRateLimit CtxErr.canceled
        (fun _ => { passes := [{ now := 500000000, ctxDone := true }]
                    net := NetOutcome.response { StatusCode := 200, RetryAfter := "", Body := "" }
                    ctxDone := false })
        { NewRateLimiter 0 with shortTermTokens := 0 }).log = 0) ∧
    ((doRequestWithRateLimit CtxErr.canceled
        (fun _ => { passes := [{ now := 5, ctxDone := false }]
                    net := NetOutcome.response { StatusCode := 503, RetryAfter := "", Body := "" }
                    ctxDone := true })
        (NewRateLimiter 0)).result = CallResult.error (Error.context CtxErr.canceled) ∧
      (∃ d, (doRequestWithRateLimit CtxErr.canceled
        (fun _ => { passes := [{ now := 5, ctxDone := false }]
                    net := NetOutcome.response { StatusCode := 503, RetryAfter := "", Body := "" }
                    ctxDone := true })
        (NewRateLimiter 0)).log.getLast? = some (Event.backoff d)) ∧
      networkCalls (doRequestWithRateLimit CtxErr.canceled
        (fun _ => { passes := [{ now := 5, ctxDone := false }]
                    net := NetOutcome.response { StatusCode := 503, RetryAfter := "", Body := "" }
                    ctxDone := true })
        (NewRateLimiter 0)).log = 0 + 1 ∧
      tokensConsumed (doRequestWithRateLimit CtxErr.canceled
        (fun _ => { passes := [{ now := 5, ctxDone := false }]
                    net := NetOutcome.response { StatusCode := 503, RetryAfter := "", Body := "" }
                    ctxDone := true })
        (NewRateLimiter 0)).log = 0 + 1) :=
  ⟨(C15_cancellation_never_retried CtxErr.canceled
      (fun _ => { passes := [{ now := 500000000, ctxDone := true }]
                  net := NetOutcome.response { StatusCode := 200, RetryAfter := "", Body := "" }
                  ctxDone := false })
      { NewRateLimiter 0 with shortTermTokens := 0 }).1 2 0
      { NewRateLimiter 0 with shortTermTokens := 0 } (by decide) (by decide),
   (C15_cancellation_never_retried CtxErr.canceled
      (fun _ => { passes := [{ now := 500000000, ctxDone := true }]
                  net := NetOutcome.response { StatusCode := 200, RetryAfter := "", Body := "" }
                  ctxDone := false })
      { NewRateLimiter 0 with shortTermTokens := 0 }).2.1 (by decide),
   (C15_cancellation_never_retried CtxErr.canceled
      (fun _ => { passes := [{ now := 5, ctxDone := false }]
                  net := NetOutcome.response { StatusCode := 503, RetryAfter := "", Body := "" }
                  ctxDone := true })
      (NewRateLimiter 0)).2.2 0 (by decide)
      (Or.inr ⟨{ StatusCode := 503, RetryAfter := "", Body := "" }, rfl, Or.inr (by decide)⟩)
      rfl (by decide)⟩

/-- C14 fails as stated. On the limiter built at time 0, a call entered at time 5 with
the signal already fired (every `select` is won by `ctx.Done()` and `HTTPClient.Do`
fails) still goes through `Wait`, which finds tokens and takes one from each window
without looking at the signal: the counts drop from 20 and 100 to 19 and 99, and
`HTTPClient.Do` is called once before the call returns `ctx.Err()`. -/
theorem C14_no_token_after_cancel_counterexample :
    (Wait (NewRateLimiter 0) [{ now := 5, ctxDone := true }]).result = WaitResult.ok ∧
    (Wait (NewRateLimiter 0) [{ now := 5, ctxDone := true }]).rl.shortTermTokens = 19 ∧
    (Wait (NewRateLimiter 0) [{ now := 5, ctxDone := true }]).rl.longTermTokens = 99 ∧
    (doRequestWithRateLimit CtxErr.canceled
      (fun _ => { passes := [{ now := 5, ctxDone := true }]
                  net := NetOutcome.failure (Error.external "context canceled")
                  ctxDone := true })
      (NewRateLimiter 0)).rl.shortTermTokens = 19 ∧
    (doRequestWithRateLimit CtxErr.canceled
      (fun _ => { passes := [{ now := 5, ctxDone := true }]
                  net := NetOutcome.failure (Error.external "context canceled")
                  ctxDone := true })
      (NewRateLimiter 0)).rl.longTermTokens = 99 ∧
    networkCalls (doRequestWithRateLimit CtxErr.canceled
      (fun _ => { passes := [{ now := 5, ctxDone := true }]
                  net := NetOutcome.failure (Error.external "context canceled")
                  ctxDone := true })
      (NewRateLimiter 0)).log = 1 ∧
    (doRequestWithRateLimit CtxErr.canceled
      (fun _ => { passes := [{ now := 5, ctxDone := true }]
                  net := NetOutcome.failure (Error.external "context canceled")
                  ctxDone := true })
      (NewRateLimiter 0)).result = CallResult.error (Error.context CtxErr.canceled) := by
  refine ⟨?_, ?_, ?_, ?_, ?_, ?_, ?_⟩ <;> decide

/-- C14 as amended: a call of `doRequestWithRateLimit` entered with the signal already
fired, so that `ctx.Done()` wins the `select` of its first pass of `Wait` and of its
first backoff and `HTTPClient.Do` fails, never reaches a second attempt. If a window is
exhausted at the first pass, `Wait` returns the cancellation error from its first sleep:
no token is taken (the limiter is as the expiry check leaves it) and no network call is
made. If both windows hold tokens, `Wait` takes one token from each without consulting
the signal, `HTTPClient.Do` is called once, and the call returns `ctx.Err()` from the
backoff `select`. -/
theorem C14_no_token_after_cancel_amended (ctxErr : CtxErr) (env : Nat → AttemptEnv)
    (rl : RateLimiter) (p : Pass) (ps : List Pass) (err : Error)
    (hpasses : (env 0).passes = p :: ps) (hp : p.ctxDone = true)
    (hsel : (env 0).ctxDone = true) (hnet : (env 0).net = NetOutcome.failure err) :
    ((waitPass rl p.now).2 ≠ PassResult.admitted →
      (Wait rl (p :: ps)).result = WaitResult.cancelled ∧
      (Wait rl (p :: ps)).rl = refresh rl p.now ∧
      (doRequestWithRateLimit ctxErr env rl).result =
        CallResult.error (Error.wrap "レート制限待機エラー" (Error.context ctxErr)) ∧
      (doRequestWithRateLimit ctxErr env rl).rl = refresh rl p.now ∧
      networkCalls (doRequestWithRateLimit ctxErr env rl).log = 0 ∧
      tokensConsumed (doRequestWithRateLimit ctxErr env rl).log = 0) ∧
    ((waitPass rl p.now).2 = PassResult.admitted →
      (Wait rl (p :: ps)).result = WaitResult.ok ∧
      (Wait rl (p :: ps)).rl.shortTermTokens = (refresh rl p.now).shortTermTokens - 1 ∧
      (Wait rl (p :: ps)).rl.longTermTokens = (refresh rl p.now).longTermTokens - 1 ∧
      (doRequestWithRateLimit ctxErr env rl).result =
        CallResult.error (Error.context ctxErr) ∧
      (doRequestWithRateLimit ctxErr env rl).rl = (waitPass rl p.now).1 ∧
      networkCalls (doRequestWithRateLimit ctxErr env rl).log = 1 ∧
      tokensConsumed (doRequestWithRateLimit ctxErr env rl).log = 1) := by
  constructor
  · intro hna
    have hW : Wait rl (p :: ps) =
        { rl := refresh rl p.now
          log := [Event.rateSleep (computeWaitTime (refresh rl p.now) p.now)]
          result := WaitResult.cancelled } := by
      rw [Wait_cons_sleep rl p ps _ (waitPass_sleep_of_not_admitted rl p.now hna), if_pos hp,
        waitPass_of_not_admitted rl p.now hna]
    have hrun : doRequestWithRateLimit ctxErr env rl =
        { rl := refresh rl p.now
          log := [Event.rateSleep (computeWaitTime (refresh rl p.now) p.now)]
          result := CallResult.error
            (Error.wrap "レート制限待機エラー" (Error.context ctxErr)) } := by
      unfold doRequestWithRateLimit maxRetries
      rw [attemptLoop_wait_cancelled ctxErr env 2 0 rl (by decide) (by rw [hpasses, hW]),
        hpasses, hW]
    rw [hW, hrun]
    exact ⟨rfl, rfl, rfl, rfl, by simp [networkCalls], by simp [tokensConsumed]⟩
  · intro ha
    have hW := Wait_cons_admitted rl p ps ha
    have hrl := waitPass_of_admitted rl p.now ha
    have hrun : doRequestWithRateLimit ctxErr env rl =
        { rl := (waitPass rl p.now).1
          log := ([Event.admitted p.now] ++ [Event.httpDo]) ++ [Event.backoff Second]
          result := CallResult.error (Error.context ctxErr) } := by
      unfold doRequestWithRateLimit maxRetries
      rw [attemptLoop_ok ctxErr env 2 0 rl (by decide) (by rw [hpasses, hW]), hnet,
        handleOutcome_failure, if_pos (by decide), hsel, selectBackoff_cancelled, hpasses, hW]
    rw [hW, hrun]
    refine ⟨rfl, ?_, ?_, rfl, rfl, by simp [networkCalls], by simp [tokensConsumed]⟩
    · simp only [hrl]
    · simp only [hrl]

/-- C14 as amended, on two limiters entered at 0.5 s with the signal fired: with the
short window exhausted nothing is taken and no call is made; on the fresh limiter one
token of each window is taken and one call is made. -/
theorem C14_no_token_after_cancel_amended_witness :
    ((Wait { NewRateLimiter 0 with shortTermTokens := 0 }
        [{ now := 500000000, ctxDone := true }]).result = WaitResult.cancelled ∧
      (Wait { NewRateLimiter 0 with shortTermTokens := 0 }
        [{ now := 500000000, ctxDone := true }]).rl =
        refresh { NewRateLimiter 0 with shortTermTokens := 0 } 500000000 ∧
      (doRequestWithRateLimit CtxErr.canceled
        (fun _ => { passes := [{ now := 500000000, ctxDone := true }]
                    net := NetOutcome.failure (Error.external "context canceled")
                    ctxDone := true })
        { NewRateLimiter 0 with shortTermTokens := 0 }).result =
        CallResult.error (Error.wrap "レート制限待機エラー" (Error.context CtxErr.canceled)) ∧
      (doRequestWithRateLimit CtxErr.canceled
        (fun _ => { passes := [{ now := 500000000, ctxDone := true }]
                    net := NetOutcome.failure (Error.external "context canceled")
                    ctxDone := true })
        { NewRateLimiter 0 with shortTermTokens := 0 }).rl =
        refresh { NewRateLimiter 0 with shortTermTokens := 0 } 500000000 ∧
      networkCalls (doRequestWithRateLimit CtxErr.canceled
        (fun _ => { passes := [{ now := 500000000, ctxDone := true }]
                    net := NetOutcome.failure (Error.external "context canceled")
                    ctxDone := true })
        { NewRateLimiter 0 with shortTermTokens := 0 }).log = 0 ∧
      tokensConsumed (doRequestWithRateLimit CtxErr.canceled
        (fun _ => { passes := [{ now := 500000000, ctxDone := true }]
                    net := NetOutcome.failure (Error.external "context canceled")
                    ctxDone := true })
        { NewRateLimiter 0 with shortTermTokens := 0 }).log = 0) ∧
    (networkCalls (doRequestWithRateLimit CtxErr.canceled
        (fun _ => { passes := [{ now := 500000000, ctxDone := true }]
                    net := NetOutcome.failure (Error.external "context canceled")
                    ctxDone := true })
        (NewRateLimiter 0)).log = 1 ∧
      tokensConsumed (doRequestWithRateLimit CtxErr.canceled
        (fun _ => { passes := [{ now := 500000000, ctxDone := true }]
                    net := NetOutcome.failure (Error.external "context canceled")
                    ctxDone := true })
        (NewRateLimiter 0)).log = 1) :=
  ⟨(C14_no_token_after_cancel_amended CtxErr.canceled
      (fun _ => { passes := [{ now := 500000000, ctxDone := true }]
                  net := NetOutcome.failure (Error.external "context canceled")
                  ctxDone := true })
      { NewRateLimiter 0 with shortTermTokens := 0 } { now := 500000000, ctxDone := true } []
      (Error.external "context canceled") rfl rfl rfl rfl).1 (by decide),
   ((C14_no_token_after_cancel_amended CtxErr.canceled
      (fun _ => { passes := [{ now := 500000000, ctxDone := true }]
                  net := NetOutcome.failure (Error.external "context canceled")
                  ctxDone := true })
      (NewRateLimiter 0) { now := 500000000, ctxDone := true } []
      (Error.external "context canceled") rfl rfl rfl rfl).2 (by decide)).2.2.2.2.2⟩

/-! ## The fetch loop -/

theorem fetchLoop_cons_cancelled (keep : Int → Bool)
    (decode : String → Except Error MatchDetail) (ctxErr : CtxErr) (items : Nat → ItemEnv)
    (matchID : String) (rest : List String) (i : Nat) (rl : RateLimiter)
    (acc : List MatchDetail) (h : (items i).ctxDone = true) :
    fetchLoop keep decode ctxErr items (matchID :: rest) i rl acc =
      { rl := rl, log := [], fetched := []
        result := LoopResult.error
          (Error.wrap "処理がキャンセルされました" (Error.context ctxErr)) } := by
  rw [fetchLoop, if_pos h]

theorem fetchLoop_cons_fetched (keep : Int → Bool)
    (decode : String → Except Error MatchDetail) (ctxErr : CtxErr) (items : Nat → ItemEnv)
    (matchID : String) (rest : List String) (i : Nat) (rl : RateLimiter)
    (acc : List MatchDetail) (h : (items i).ctxDone = false)
    (hb : (GetMatchDetailWithContext decode ctxErr (items i).attempts (items i).readErr
      rl).result ≠ FetchResult.blocked) :
    (fetchLoop keep decode ctxErr items (matchID :: rest) i rl acc).rl =
      (fetchLoop keep decode ctxErr items rest (i + 1)
        (GetMatchDetailWithContext decode ctxErr (items i).attempts (items i).readErr rl).rl
        (acc ++ (keptDetail keep (GetMatchDetailWithContext decode ctxErr (items i).attempts
          (items i).readErr rl).result).toList)).rl ∧
    (fetchLoop keep decode ctxErr items (matchID :: rest) i rl acc).fetched =
      matchID :: (fetchLoop keep decode ctxErr items rest (i + 1)
        (GetMatchDetailWithContext decode ctxErr (items i).attempts (items i).readErr rl).rl
        (acc ++ (keptDetail keep (GetMatchDetailWithContext decode ctxErr (items i).attempts
          (items i).readErr rl).result).toList)).fetched ∧
    (fetchLoop keep decode ctxErr items (matchID :: rest) i rl acc).result =
      (fetchLoop keep decode ctxErr items rest (i + 1)
        (GetMatchDetailWithContext decode ctxErr (items i).attempts (items i).readErr rl).rl
        (acc ++ (keptDetail keep (GetMatchDetailWithContext decode ctxErr (items i).attempts
          (items i).readErr rl).result).toList)).result := by
  rw [fetchLoop, if_neg (by rw [h]; simp)]
  cases hr : (GetMatchDetailWithContext decode ctxErr (items i).attempts (items i).readErr
      rl).result with
  | blocked => exact absurd hr hb
  | error err => simp [hr, keptDetail]
  | detail d =>
    by_cases hk : keep d.Info.QueueID = true
    · simp [hr, keptDetail, hk]
    · simp [hr, keptDetail, hk]

/-- With the signal silent at every check and every fetch returning, the loop fetches
every identifier once, in order, and falls through with the details of the fetches that
returned one passing the filter, in the order of the identifiers. -/
theorem fetchLoop_completes (keep : Int → Bool)
    (decode : String → Except Error MatchDetail) (ctxErr : CtxErr) (items : Nat → ItemEnv)
    (rl : RateLimiter) (ids : List String) :
    ∀ (i : Nat) (acc : List MatchDetail),
      (∀ j, j < ids.length → (items (i + j)).ctxDone = false) →
      (∀ j, j < ids.length →
        (itemFetch decode ctxErr items rl (i + j)).result ≠ FetchResult.blocked) →
      (fetchLoop keep decode ctxErr items ids i (limiterAtItem decode ctxErr items rl i)
        acc).result =
        LoopResult.done (acc ++ keptDetails keep decode ctxErr items rl i ids.length) ∧
      (fetchLoop keep decode ctxErr items ids i (limiterAtItem decode ctxErr items rl i)
        acc).fetched = ids ∧
      (fetchLoop keep decode ctxErr items ids i (limiterAtItem decode ctxErr items rl i)
        acc).rl = limiterAtItem decode ctxErr items rl (i + ids.length) := by
  induction ids with
  | nil =>
    intro i acc _ _
    simp [fetchLoop, keptDetails]
  | cons matchID rest ih =>
    intro i acc hctx hfetch
    have h0 := hctx 0 (by simp)
    have hb0 := hfetch 0 (by simp)
    simp only [Nat.add_zero] at h0 hb0
    obtain ⟨e1, e2, e3⟩ := fetchLoop_cons_fetched keep decode ctxErr items matchID rest i
      (limiterAtItem decode ctxErr items rl i) acc h0 hb0
    have hnext : (GetMatchDetailWithContext decode ctxErr (items i).attempts (items i).readErr
        (limiterAtItem decode ctxErr items rl i)).rl =
        limiterAtItem decode ctxErr items rl (i + 1) := rfl
    rw [hnext] at e1 e2 e3
    obtain ⟨r1, r2, r3⟩ := ih (i + 1)
      (acc ++ (keptDetail keep (GetMatchDetailWithContext decode ctxErr (items i).attempts
        (items i).readErr (limiterAtItem decode ctxErr items rl i)).result).toList)
      (fun j hj => by
        have := hctx (j + 1) (by simp only [List.length_cons]; omega)
        rwa [show i + (j + 1) = i + 1 + j by omega] at this)
      (fun j hj => by
        have := hfetch (j + 1) (by simp only [List.length_cons]; omega)
        rwa [show i + (j + 1) = i + 1 + j by omega] at this)
    rw [e1, e2, e3, r1, r2, r3]
    refine ⟨?_, rfl, ?_⟩
    · congr 1
      simp only [keptDetails, List.length_cons, List.range'_succ, List.filterMap_cons, itemFetch]
      cases keptDetail keep (GetMatchDetailWithContext decode ctxErr (items i).attempts
        (items i).readErr (limiterAtItem decode ctxErr items rl i)).result <;> simp
    · simp only [List.length_cons]
      congr 1
      omega

/-- With the signal found fired at the check before iteration `k` and silent at the
checks before, the loop returns the cancellation error after fetching exactly the first
`k` identifiers. -/
theorem fetchLoop_cancelled_at (keep : Int → Bool)
    (decode : String → Except Error MatchDetail) (ctxErr : CtxErr) (items : Nat → ItemEnv)
    (rl : RateLimiter) (ids : List String) :
    ∀ (i k : Nat) (acc : List MatchDetail), k < ids.length →
      (∀ j, j < k → (items (i + j)).ctxDone = false) →
      (items (i + k)).ctxDone = true →
      (∀ j, j < k →
        (itemFetch decode ctxErr items rl (i + j)).result ≠ FetchResult.blocked) →
      (fetchLoop keep decode ctxErr items ids i (limiterAtItem decode ctxErr items rl i)
        acc).result =
        LoopResult.error (Error.wrap "処理がキャンセルされました" (Error.context ctxErr)) ∧
      (fetchLoop keep decode ctxErr items ids i (limiterAtItem decode ctxErr items rl i)
        acc).fetched = ids.take k := by
  induction ids with
  | nil => intro i k acc hk; simp at hk
  | cons matchID rest ih =>
    intro i k acc hk hctx hdone hfetch
    cases k with
    | zero =>
      rw [fetchLoop_cons_cancelled keep decode ctxErr items matchID rest i _ acc
        (by simpa using hdone)]
      simp
    | succ k =>
      have h0 := hctx 0 (by omega)
      have hb0 := hfetch 0 (by omega)
      simp only [Nat.add_zero] at h0 hb0
      obtain ⟨_, e2, e3⟩ := fetchLoop_cons_fetched keep decode ctxErr items matchID rest i
        (limiterAtItem decode ctxErr items rl i) acc h0 hb0
      have hnext : (GetMatchDetailWithContext decode ctxErr (items i).attempts
          (items i).readErr (limiterAtItem decode ctxErr items rl i)).rl =
          limiterAtItem decode ctxErr items rl (i + 1) := rfl
      rw [hnext] at e2 e3
      obtain ⟨r1, r2⟩ := ih (i + 1) k
        (acc ++ (keptDetail keep (GetMatchDetailWithContext decode ctxErr (items i).attempts
          (items i).readErr (limiterAtItem decode ctxErr items rl i)).result).toList)
        (by simp only [List.length_cons] at hk; omega)
        (fun j hj => by
          have := hctx (j + 1) (by omega)
          rwa [show i + (j + 1) = i + 1 + j by omega] at this)
        (by rwa [show i + (k + 1) = i + 1 + k by omega] at hdone)
        (fun j hj => by
          have := hfetch (j + 1) (by omega)
          rwa [show i + (j + 1) = i + 1 + j by omega] at this)
      rw [e2, e3, r1, r2]
      simp

/-! ## The claims about the fetch loop -/

/-- C11: in each of the four analysis functions (one body, with the queue filter `keep`
of the variant), when the history call returns the identifiers `ids`, the signal is
silent at the check before every iteration and every fetch returns, the function returns
a summary, whatever fetches fail: its `MatchHistory` is exactly the details of the
fetches that succeeded and whose queue passes the filter, in the order of the
identifiers, `TotalMatches` is its length, and every identifier was fetched once, in
order. -/
theorem C11_item_failures_never_abort (keep : Int → Bool) (matchType historyErr : String)
    (decodeIDs : String → Except Error (List String))
    (decode : String → Except Error MatchDetail) (ctxErr : CtxErr) (account : Account)
    (history : HistoryEnv) (generatedAt : Int) (items : Nat → ItemEnv) (rl : RateLimiter)
    (ids : List String)
    (hhist : GetRankedMatchHistoryWithContext decodeIDs history = HistoryResult.ids ids)
    (hctx : ∀ i, i < ids.length → (items i).ctxDone = false)
    (hfetch : ∀ i, i < ids.length →
      (itemFetch decode ctxErr items rl i).result ≠ FetchResult.blocked) :
    ((playerAnalysisWithContext keep matchType historyErr decodeIDs decode ctxErr account
        history generatedAt items rl).result =
      JobResult.summary
        { Account := account
          MatchHistory := keptDetails keep decode ctxErr items rl 0 ids.length
          GeneratedAt := generatedAt
          TotalMatches := (keptDetails keep decode ctxErr items rl 0 ids.length).length
          MatchType := matchType } ∧
      (playerAnalysisWithContext keep matchType historyErr decodeIDs decode ctxErr account
        history generatedAt items rl).fetched = ids) ∧
    (GetPlayerRankedAnalysisWithContext =
        playerAnalysisWithContext IsRankedQueue "ranked" "ランク戦マッチ履歴取得エラー" ∧
      GetPlayerNormalAnalysisWithContext =
        playerAnalysisWithContext IsNormalQueue "normal" "マッチ履歴取得エラー" ∧
      GetPlayerARAMAnalysisWithContext =
        playerAnalysisWithContext IsARAMQueue "aram" "マッチ履歴取得エラー" ∧
      GetPlayerAllAnalysisWithContext =
        playerAnalysisWithContext (fun _ => true) "all" "マッチ履歴取得エラー") := by
  refine ⟨?_, rfl, rfl, rfl, rfl⟩
  unfold playerAnalysisWithContext
  rw [hhist]
  simp only
  by_cases hlen : ids.length = 0
  · have hnil : ids = [] := List.length_eq_zero.1 hlen
    subst hnil
    simp [keptDetails]
  · rw [if_neg hlen]
    obtain ⟨h1, h2, _⟩ := fetchLoop_completes keep decode ctxErr items rl ids 0 []
      (fun j hj => by simpa using hctx j hj) (fun j hj => by simpa using hfetch j hj)
    simp only [limiterAtItem] at h1 h2
    simp only [h1, h2, List.nil_append, and_self]

set_option maxRecDepth 100000 in
/-- C11 on ten identifiers whose fourth fetch fails with status 500 on every attempt: the
ranked analysis returns the nine other details in order, and all ten were fetched. -/
theorem C11_item_failures_never_abort_witness :
    ((playerAnalysisWithContext IsRankedQueue "ranked" "ランク戦マッチ履歴取得エラー"
        (fun _ => Except.ok tenMatchIDs) scriptedDecode CtxErr.canceled
        { PUUID := "p", SummonerName := "s", TagLine := "t" } scriptedHistory 9
        (scriptedItems tenMatchIDs (fun i => decide (i = 3)) (fun _ => false))
        (NewRateLimiter 0)).result =
      JobResult.summary
        { Account := { PUUID := "p", SummonerName := "s", TagLine := "t" }
          MatchHistory := keptDetails IsRankedQueue scriptedDecode CtxErr.canceled
            (scriptedItems tenMatchIDs (fun i => decide (i = 3)) (fun _ => false))
            (NewRateLimiter 0) 0 tenMatchIDs.length
          GeneratedAt := 9
          TotalMatches := (keptDetails IsRankedQueue scriptedDecode CtxErr.canceled
            (scriptedItems tenMatchIDs (fun i => decide (i = 3)) (fun _ => false))
            (NewRateLimiter 0) 0 tenMatchIDs.length).length
          MatchType := "ranked" } ∧
      (playerAnalysisWithContext IsRankedQueue "ranked" "ランク戦マッチ履歴取得エラー"
        (fun _ => Except.ok tenMatchIDs) scriptedDecode CtxErr.canceled
        { PUUID := "p", SummonerName := "s", TagLine := "t" } scriptedHistory 9
        (scriptedItems tenMatchIDs (fun i => decide (i = 3)) (fun _ => false))
        (NewRateLimiter 0)).fetched = tenMatchIDs) ∧
    (keptDetails IsRankedQueue scriptedDecode CtxErr.canceled
        (scriptedItems tenMatchIDs (fun i => decide (i = 3)) (fun _ => false))
        (NewRateLimiter 0) 0 tenMatchIDs.length).map (fun d => d.Metadata.MatchID) =
      ["m1", "m2", "m3", "m5", "m6", "m7", "m8", "m9", "m10"] :=
  ⟨(C11_item_failures_never_abort IsRankedQueue "ranked" "ランク戦マッチ履歴取得エラー"
      (fun _ => Except.ok tenMatchIDs) scriptedDecode CtxErr.canceled
      { PUUID := "p", SummonerName := "s", TagLine := "t" } scriptedHistory 9
      (scriptedItems tenMatchIDs (fun i => decide (i = 3)) (fun _ => false))
      (NewRateLimiter 0) tenMatchIDs rfl (fun _ _ => rfl) (by decide)).1,
   by decide⟩

/-- C12: in each of the four analysis functions, when the history call returns `n`
identifiers and, the first `k < n` fetches having returned with the signal silent at
their checks, the check before iteration `k` finds the signal fired, the function
returns no summary but the error wrapping `ctx.Err()`, and the identifiers fetched are
exactly the first `k`: no further one. -/
theorem C12_cancel_before_iteration (keep : Int → Bool) (matchType historyErr : String)
    (decodeIDs : String → Except Error (List String))
    (decode : String → Except Error MatchDetail) (ctxErr : CtxErr) (account : Account)
    (history : HistoryEnv) (generatedAt : Int) (items : Nat → ItemEnv) (rl : RateLimiter)
    (ids : List String) (k : Nat)
    (hhist : GetRankedMatchHistoryWithContext decodeIDs history = HistoryResult.ids ids)
    (hk : k < ids.length)
    (hctx : ∀ i, i < k → (items i).ctxDone = false)
    (hdone : (items k).ctxDone = true)
    (hfetch : ∀ i, i < k →
      (itemFetch decode ctxErr items rl i).result ≠ FetchResult.blocked) :
    (playerAnalysisWithContext keep matchType historyErr decodeIDs decode ctxErr account
      history generatedAt items rl).result =
      JobResult.error (Error.wrap "処理がキャンセルされました" (Error.context ctxErr)) ∧
    (playerAnalysisWithContext keep matchType historyErr decodeIDs decode ctxErr account
      history generatedAt items rl).fetched = ids.take k := by
  unfold playerAnalysisWithContext
  rw [hhist]
  simp only
  rw [if_neg (by omega)]
  obtain ⟨h1, h2⟩ := fetchLoop_cancelled_at keep decode ctxErr items rl ids 0 k [] hk
    (fun j hj => by simpa using hctx j hj) (by simpa using hdone)
    (fun j hj => by simpa using hfetch j hj)
  simp only [limiterAtItem] at h1 h2
  simp only [h1, h2, and_self]

set_option maxRecDepth 100000 in
/-- C12 on ten identifiers with the signal found fired before the fourth iteration: the
ranked analysis returns the cancellation error and fetched the first three only. -/
theorem C12_cancel_before_iteration_witness :
    (GetPlayerRankedAnalysisWithContext (fun _ => Except.ok tenMatchIDs) scriptedDecode
      CtxErr.canceled { PUUID := "p", SummonerName := "s", TagLine := "t" } scriptedHistory 9
      (scriptedItems tenMatchIDs (fun _ => false) (fun i => decide (3 ≤ i)))
      (NewRateLimiter 0)).result =
      JobResult.error
        (Error.wrap "処理がキャンセルされました" (Error.context CtxErr.canceled)) ∧
    (GetPlayerRankedAnalysisWithContext (fun _ => Except.ok tenMatchIDs) scriptedDecode
      CtxErr.canceled { PUUID := "p", SummonerName := "s", TagLine := "t" } scriptedHistory 9
      (scriptedItems tenMatchIDs (fun _ => false) (fun i => decide (3 ≤ i)))
      (NewRateLimiter 0)).fetched = tenMatchIDs.take 3 :=
  C12_cancel_before_iteration IsRankedQueue "ranked" "ランク戦マッチ履歴取得エラー"
    (fun _ => Except.ok tenMatchIDs) scriptedDecode CtxErr.canceled
    { PUUID := "p", SummonerName := "s", TagLine := "t" } scriptedHistory 9
    (scriptedItems tenMatchIDs (fun _ => false) (fun i => decide (3 ≤ i)))
    (NewRateLimiter 0) tenMatchIDs 3 rfl (by decide) (by decide) rfl (by decide)

/-- C13, the code at the failing input: two identifiers, the first fetched with success;
the signal fires while the second, last one is fetched (its network call fails and the
backoff `select` returns `ctx.Err()`), after the check at the top of its iteration. The
ranked analysis returns a summary holding the first detail only, and no error. -/
theorem C13_cancel_during_last_fetch :
    (GetPlayerRankedAnalysisWithContext (fun _ => Except.ok ["m1", "m2"]) scriptedDecode
      CtxErr.canceled { PUUID := "p", SummonerName := "s", TagLine := "t" } scriptedHistory 9
      (fun i =>
        { ctxDone := false
          attempts := fun _ =>
            { passes := [{ now := 5, ctxDone := false }]
              net := if i = 0 then
                  NetOutcome.response { StatusCode := 200, RetryAfter := "", Body := "m1" }
                else NetOutcome.failure (Error.external "context canceled")
              ctxDone := decide (i = 1) }
          readErr := none })
      (NewRateLimiter 0)).result =
      JobResult.summary
        { Account := { PUUID := "p", SummonerName := "s", TagLine := "t" }
          MatchHistory :=
            [{ Metadata := { MatchID := "m1" }, Info := { QueueID := QueueSoloRanked } }]
          GeneratedAt := 9
          TotalMatches := 1
          MatchType := "ranked" } ∧
    (itemFetch scriptedDecode CtxErr.canceled
      (fun i =>
        { ctxDone := false
          attempts := fun _ =>
            { passes := [{ now := 5, ctxDone := false }]
              net := if i = 0 then
                  NetOutcome.response { StatusCode := 200, RetryAfter := "", Body := "m1" }
                else NetOutcome.failure (Error.external "context canceled")
              ctxDone := decide (i = 1) }
          readErr := none })
      (NewRateLimiter 0) 1).result =
      FetchResult.error
        (Error.wrap "APIリクエストエラー" (Error.context CtxErr.canceled)) := by
  constructor <;> decide

/-! ## The claim about `GetStatus` -/

theorem refresh_of_not_expired (rl : RateLimiter) (now : Int)
    (h1 : now ≤ rl.shortTermReset) (h2 : now ≤ rl.longTermReset) : refresh rl now = rl := by
  have e1 : refreshShort rl now = rl := by
    unfold refreshShort timeAfter
    rw [if_neg (by simpa using h1)]
  unfold refresh
  rw [e1]
  unfold refreshLong timeAfter
  rw [if_neg (by simpa using h2)]

/-- The expiry checks made twice at the same clock reading do what they do once, the
window lengths being non-negative. -/
theorem refresh_refresh (rl : RateLimiter) (now : Int)
    (h1 : 0 ≤ rl.shortTermWindow) (h2 : 0 ≤ rl.longTermWindow) :
    refresh (refresh rl now) now = refresh rl now := by
  apply refresh_of_not_expired
  · rw [refresh_shortTermReset]
    split_ifs <;> omega
  · rw [refresh_longTermReset]
    split_ifs <;> omega

/-- C21 fails as stated. The limiter left by one admission at time 0 holds 19 and 99
tokens with reset times 1 s and 120 s. `GetStatus` at 2 s, past the short reset time,
changes it: the short count is back at 20 and the short reset time is 2 s + 1 s = 3 s; and
the values returned are these new ones, not the ones held when it was called. -/
theorem C21_get_status_counterexample :
    ((Wait (NewRateLimiter 0) [{ now := 0, ctxDone := false }]).rl.shortTermTokens = 19 ∧
      (Wait (NewRateLimiter 0) [{ now := 0, ctxDone := false }]).rl.shortTermReset =
        1000000000) ∧
    (GetStatus (Wait (NewRateLimiter 0) [{ now := 0, ctxDone := false }]).rl 2000000000).1 ≠
      (Wait (NewRateLimiter 0) [{ now := 0, ctxDone := false }]).rl ∧
    ((GetStatus (Wait (NewRateLimiter 0) [{ now := 0, ctxDone := false }]).rl
        2000000000).1.shortTermTokens = 20 ∧
      (GetStatus (Wait (NewRateLimiter 0) [{ now := 0, ctxDone := false }]).rl
        2000000000).1.shortTermReset = 3000000000) ∧
    (GetStatus (Wait (NewRateLimiter 0) [{ now := 0, ctxDone := false }]).rl 2000000000).2 =
      (20, 99, 3000000000, 120000000000) := by
  refine ⟨⟨?_, ?_⟩, ?_, ⟨?_, ?_⟩, ?_⟩ <;> decide

/-- C21 as amended: for every limiter state and time `now`, `GetStatus` makes the expiry
checks of an admission pass and nothing else. It leaves capacities and window lengths
unchanged; a window that has not expired (`now` not after its reset time) keeps its token
count and reset time, a window that has expired is refilled to its capacity and its reset
time becomes `now + windowLength`; the four values returned are the token counts and
reset times of the limiter after these checks. When neither window has expired the limiter
is left unchanged in every field and the values returned are the ones it held. No token is
taken: within the window invariant no count goes down, and with non-negative window
lengths a pass of `Wait` at the same clock reading does the same after `GetStatus` as
without it. -/
theorem C21_get_status_amended (rl : RateLimiter) (now : Int) :
    ((GetStatus rl now).1.shortTermLimit = rl.shortTermLimit ∧
      (GetStatus rl now).1.longTermLimit = rl.longTermLimit ∧
      (GetStatus rl now).1.shortTermWindow = rl.shortTermWindow ∧
      (GetStatus rl now).1.longTermWindow = rl.longTermWindow) ∧
    ((now ≤ rl.shortTermReset →
        (GetStatus rl now).1.shortTermTokens = rl.shortTermTokens ∧
        (GetStatus rl now).1.shortTermReset = rl.shortTermReset) ∧
      (rl.shortTermReset < now →
        (GetStatus rl now).1.shortTermTokens = rl.shortTermLimit ∧
        (GetStatus rl now).1.shortTermReset = now + rl.shortTermWindow)) ∧
    ((now ≤ rl.longTermReset →
        (GetStatus rl now).1.longTermTokens = rl.longTermTokens ∧
        (GetStatus rl now).1.longTermReset = rl.longTermReset) ∧
      (rl.longTermReset < now →
        (GetStatus rl now).1.longTermTokens = rl.longTermLimit ∧
        (GetStatus rl now).1.longTermReset = now + rl.longTermWindow)) ∧
    (GetStatus rl now).2 =
      ((GetStatus rl now).1.shortTermTokens, (GetStatus rl now).1.longTermTokens,
        (GetStatus rl now).1.shortTermReset, (GetStatus rl now).1.longTermReset) ∧
    (now ≤ rl.shortTermReset → now ≤ rl.longTermReset →
      (GetStatus rl now).1 = rl ∧
      (GetStatus rl now).2 =
        (rl.shortTermTokens, rl.longTermTokens, rl.shortTermReset, rl.longTermReset)) ∧
    (WindowInvariant rl →
      rl.shortTermTokens ≤ (GetStatus rl now).1.shortTermTokens ∧
      rl.longTermTokens ≤ (GetStatus rl now).1.longTermTokens) ∧
    (0 ≤ rl.shortTermWindow → 0 ≤ rl.longTermWindow →
      waitPass (GetStatus rl now).1 now = waitPass rl now) := by
  have e : (GetStatus rl now).1 = refresh rl now := rfl
  have hst := refresh_shortTermTokens rl now
  have hlt := refresh_longTermTokens rl now
  have hsr := refresh_shortTermReset rl now
  have hlr := refresh_longTermReset rl now
  have hlim := refresh_limits rl now
  rw [e]
  refine ⟨?_, ⟨?_, ?_⟩, ⟨?_, ?_⟩, rfl, ?_, ?_, ?_⟩
  · exact ⟨hlim.1, hlim.2.1, hlim.2.2.1, hlim.2.2.2⟩
  · intro h
    rw [hst, hsr, if_neg (by omega), if_neg (by omega)]
    exact ⟨rfl, rfl⟩
  · intro h
    rw [hst, hsr, if_pos h, if_pos h]
    exact ⟨rfl, rfl⟩
  · intro h
    rw [hlt, hlr, if_neg (by omega), if_neg (by omega)]
    exact ⟨rfl, rfl⟩
  · intro h
    rw [hlt, hlr, if_pos h, if_pos h]
    exact ⟨rfl, rfl⟩
  · intro h1 h2
    have hr := refresh_of_not_expired rl now h1 h2
    constructor
    · exact hr
    · show (GetStatus rl now).2 = _
      unfold GetStatus
      simp only [hr]
  · intro hinv
    obtain ⟨⟨_, a⟩, ⟨_, b⟩⟩ := hinv
    rw [hst, hlt]
    constructor <;> split_ifs <;> omega
  · intro h1 h2
    unfold waitPass
    rw [refresh_refresh rl now h1 h2]

/-- C21 as amended, on the limiter left by one admission at time 0. At 0.5 s neither
window has expired and `GetStatus` returns 19, 99, 1 s, 120 s, leaving the limiter as it
was; at 2 s the short window has expired and is refilled and re-dated, the long one kept;
and a pass of `Wait` at 2 s does the same with or without the `GetStatus` before it. -/
theorem C21_get_status_amended_witness :
    ((GetStatus (Wait (NewRateLimiter 0) [{ now := 0, ctxDone := false }]).rl 500000000).1 =
        (Wait (NewRateLimiter 0) [{ now := 0, ctxDone := false }]).rl ∧
      (GetStatus (Wait (NewRateLimiter 0) [{ now := 0, ctxDone := false }]).rl 500000000).2 =
        (19, 99, 1000000000, 120000000000)) ∧
    ((GetStatus (Wait (NewRateLimiter 0) [{ now := 0, ctxDone := false }]).rl
        2000000000).1.shortTermTokens = 20 ∧
      (GetStatus (Wait (NewRateLimiter 0) [{ now := 0, ctxDone := false }]).rl
        2000000000).1.shortTermReset = 2000000000 + Second) ∧
    ((GetStatus (Wait (NewRateLimiter 0) [{ now := 0, ctxDone := false }]).rl
        2000000000).1.longTermTokens = 99 ∧
      (GetStatus (Wait (NewRateLimiter 0) [{ now := 0, ctxDone := false }]).rl
        2000000000).1.longTermReset = 120000000000) ∧
    waitPass (GetStatus (Wait (NewRateLimiter 0) [{ now := 0, ctxDone := false }]).rl
        2000000000).1 2000000000 =
      waitPass (Wait (NewRateLimiter 0) [{ now := 0, ctxDone := false }]).rl 2000000000 :=
  ⟨(C21_get_status_amended (Wait (NewRateLimiter 0) [{ now := 0, ctxDone := false }]).rl
      500000000).2.2.2.2.1 (by decide) (by decide),
   (C21_get_status_amended (Wait (NewRateLimiter 0) [{ now := 0, ctxDone := false }]).rl
      2000000000).2.1.2 (by decide),
   (C21_get_status_amended (Wait (NewRateLimiter 0) [{ now := 0, ctxDone := false }]).rl
      2000000000).2.2.1.1 (by decide),
   (C21_get_status_amended (Wait (NewRateLimiter 0) [{ now := 0, ctxDone := false }]).rl
      2000000000).2.2.2.2.2.2 (by decide) (by decide)⟩

/-! ## The claim about the duration of a sleep of `Wait` -/

/-- The wait time of lines 71-87 is the larger remaining time over the exhausted windows
when that is positive, and 100 ms otherwise. -/
theorem computeWaitTime_eq (r : RateLimiter) (now : Int) :
    computeWaitTime r now =
      if 0 < remainingOverExhausted r now then remainingOverExhausted r now
      else 100 * Millisecond := by
  unfold computeWaitTime remainingOverExhausted Millisecond
  simp only
  generalize timeSub r.shortTermReset now = a
  generalize timeSub r.longTermReset now = b
  by_cases hs : r.shortTermTokens ≤ 0 <;> by_cases hl : r.longTermTokens ≤ 0 <;>
    simp only [hs, hl, if_true, if_false] <;> split_ifs <;> omega

set_option maxRecDepth 100000 in
/-- C23 fails as stated. On the limiter built at time 0, twenty admissions at time 0
exhaust the short window (0 tokens, reset at 1 s). A pass at 0.95 s finds 50 ms remaining
and sleeps exactly these 50 ms, less than 100 ms and not the 100 ms that raising 50 ms to
the floor would give; a pass at 1 s less 1 ns sleeps 1 ns. -/
theorem C23_sleep_floor_counterexample :
    (((List.replicate 20 (0 : Int)).foldl (fun r t => (waitPass r t).1)
        (NewRateLimiter 0)).shortTermTokens = 0 ∧
      ((List.replicate 20 (0 : Int)).foldl (fun r t => (waitPass r t).1)
        (NewRateLimiter 0)).shortTermReset - 950000000 = 50000000) ∧
    (waitPass ((List.replicate 20 (0 : Int)).foldl (fun r t => (waitPass r t).1)
        (NewRateLimiter 0)) 950000000).2 = PassResult.sleep 50000000 ∧
    remainingOverExhausted
      (waitPass ((List.replicate 20 (0 : Int)).foldl (fun r t => (waitPass r t).1)
        (NewRateLimiter 0)) 950000000).1 950000000 = 50000000 ∧
    ((50000000 : Int) < 100 * Millisecond ∧
      max (100 * Millisecond) 50000000 ≠ (50000000 : Int)) ∧
    (waitPass ((List.replicate 20 (0 : Int)).foldl (fun r t => (waitPass r t).1)
        (NewRateLimiter 0)) 999999999).2 = PassResult.sleep 1 := by
  refine ⟨⟨?_, ?_⟩, ?_, ?_, ⟨?_, ?_⟩, ?_⟩ <;> decide

/-- C23 as amended: whenever a pass of `Wait` does not admit, at least one window holds
no token after the expiry checks, and the duration the pass sleeps is the larger of the
remaining times-to-reset taken over the windows then exhausted only, when that is
positive, and 100 ms when it is zero or negative: the 100 ms stand in for a wait that
would not be positive, they are not a lower bound. So every sleep is positive; a sleep
shorter than 100 ms is exactly the remaining time; and the sleep is the remaining time
raised to 100 ms exactly when the remaining time is not strictly between 0 and 100 ms. -/
theorem C23_sleep_floor_amended (rl : RateLimiter) (now : Int)
    (hna : (waitPass rl now).2 ≠ PassResult.admitted) :
    ((waitPass rl now).1.shortTermTokens ≤ 0 ∨ (waitPass rl now).1.longTermTokens ≤ 0) ∧
    (waitPass rl now).2 = PassResult.sleep
      (if 0 < remainingOverExhausted (waitPass rl now).1 now
        then remainingOverExhausted (waitPass rl now).1 now else 100 * Millisecond) ∧
    (∀ d, (waitPass rl now).2 = PassResult.sleep d →
      0 < d ∧
      (d < 100 * Millisecond → d = remainingOverExhausted (waitPass rl now).1 now) ∧
      (d = max (100 * Millisecond) (remainingOverExhausted (waitPass rl now).1 now) ↔
        ¬ (0 < remainingOverExhausted (waitPass rl now).1 now ∧
          remainingOverExhausted (waitPass rl now).1 now < 100 * Millisecond))) := by
  have h1 := waitPass_of_not_admitted rl now hna
  have h2 := waitPass_sleep_of_not_admitted rl now hna
  have h3 := computeWaitTime_eq (refresh rl now) now
  have h4 : ¬ (0 < (refresh rl now).shortTermTokens ∧ 0 < (refresh rl now).longTermTokens) :=
    fun hp => hna ((waitPass_admitted_iff rl now).2 hp)
  rw [h1, h2, h3]
  refine ⟨?_, rfl, ?_⟩
  · by_cases hs : (refresh rl now).shortTermTokens ≤ 0
    · exact Or.inl hs
    · exact Or.inr (by
        by_contra hl
        exact h4 ⟨by omega, by omega⟩)
  · intro d hd
    injection hd with hd
    subst hd
    generalize remainingOverExhausted (refresh rl now) now = m
    unfold Millisecond
    refine ⟨?_, ?_, ?_⟩
    · split_ifs <;> omega
    · split_ifs <;> omega
    · constructor
      · split_ifs <;> omega
      · split_ifs <;> omega

set_option maxRecDepth 100000 in
/-- C23 as amended, on the limiter exhausted by twenty admissions at time 0: the pass at
0.95 s sleeps the 50 ms that remain, and the pass at exactly 1 s, when nothing remains and
the window is not yet expired, sleeps 100 ms. -/
theorem C23_sleep_floor_amended_witness :
    (waitPass ((List.replicate 20 (0 : Int)).foldl (fun r t => (waitPass r t).1)
        (NewRateLimiter 0)) 950000000).2 ≠ PassResult.admitted ∧
    (waitPass ((List.replicate 20 (0 : Int)).foldl (fun r t => (waitPass r t).1)
        (NewRateLimiter 0)) 950000000).2 = PassResult.sleep
      (if 0 < remainingOverExhausted
          (waitPass ((List.replicate 20 (0 : Int)).foldl (fun r t => (waitPass r t).1)
            (NewRateLimiter 0)) 950000000).1 950000000
        then remainingOverExhausted
          (waitPass ((List.replicate 20 (0 : Int)).foldl (fun r t => (waitPass r t).1)
            (NewRateLimiter 0)) 950000000).1 950000000
        else 100 * Millisecond) ∧
    (waitPass ((List.replicate 20 (0 : Int)).foldl (fun r t => (waitPass r t).1)
        (NewRateLimiter 0)) 1000000000).2 = PassResult.sleep
      (if 0 < remainingOverExhausted
          (waitPass ((List.replicate 20 (0 : Int)).foldl (fun r t => (waitPass r t).1)
            (NewRateLimiter 0)) 1000000000).1 1000000000
        then remainingOverExhausted
          (waitPass ((List.replicate 20 (0 : Int)).foldl (fun r t => (waitPass r t).1)
            (NewRateLimiter 0)) 1000000000).1 1000000000
        else 100 * Millisecond) ∧
    remainingOverExhausted
      (waitPass ((List.replicate 20 (0 : Int)).foldl (fun r t => (waitPass r t).1)
        (NewRateLimiter 0)) 1000000000).1 1000000000 = 0 :=
  ⟨by decide,
   (C23_sleep_floor_amended ((List.replicate 20 (0 : Int)).foldl (fun r t => (waitPass r t).1)
      (NewRateLimiter 0)) 950000000 (by decide)).2.1,
   (C23_sleep_floor_amended ((List.replicate 20 (0 : Int)).foldl (fun r t => (waitPass r t).1)
      (NewRateLimiter 0)) 1000000000 (by decide)).2.1,
   by decide⟩

/-! ## The claim about a count of skipped identifiers -/

/-- Every fetch that returns either contributes its detail, or returned a detail the
filter rejects, or failed. -/
theorem kept_rejected_failed_length (keep : Int → Bool) (f : Nat → FetchResult)
    (l : List Nat) (h : ∀ j ∈ l, f j ≠ FetchResult.blocked) :
    (l.filterMap (fun j => keptDetail keep (f j))).length +
      l.countP (fun j => fetchRejected keep (f j)) +
      l.countP (fun j => fetchFailed (f j)) = l.length := by
  induction l with
  | nil => simp
  | cons a l ih =>
    have ih1 := ih (fun j hj => h j (List.mem_cons_of_mem a hj))
    have ha := h a (List.mem_cons_self a l)
    rw [List.filterMap_cons, List.countP_cons, List.countP_cons, List.length_cons]
    cases hf : f a with
    | blocked => exact absurd hf ha
    | error err =>
      have e1 : keptDetail keep (FetchResult.error err) = none := rfl
      have e2 : fetchRejected keep (FetchResult.error err) = false := rfl
      have e3 : fetchFailed (FetchResult.error err) = true := rfl
      rw [e1, e2, e3]
      simp only [if_true, Bool.false_eq_true, if_false]
      omega
    | detail d =>
      have e3 : fetchFailed (FetchResult.detail d) = false := rfl
      by_cases hk : keep d.Info.QueueID = true
      · have e1 : keptDetail keep (FetchResult.detail d) = some d := by
          simp only [keptDetail, hk, if_true]
        have e2 : fetchRejected keep (FetchResult.detail d) = false := by
          simp only [fetchRejected, hk, Bool.not_true]
        rw [e1, e2, e3]
        simp only [Bool.false_eq_true, if_false, List.length_cons]
        omega
      · have e1 : keptDetail keep (FetchResult.detail d) = none := by
          simp only [keptDetail, hk, if_false, Bool.false_eq_true]
        have e2 : fetchRejected keep (FetchResult.detail d) = true := by
          simp only [Bool.not_eq_true] at hk
          simp only [fetchRejected, hk, Bool.not_false]
        rw [e1, e2, e3]
        simp only [if_true, Bool.false_eq_true, if_false]
        omega

theorem rejectedFetches_of_keep_all (keep : Int → Bool)
    (decode : String → Except Error MatchDetail) (ctxErr : CtxErr) (items : Nat → ItemEnv)
    (rl : RateLimiter) (i n : Nat) (hk : ∀ q, keep q = true) :
    rejectedFetches keep decode ctxErr items rl i n = 0 := by
  unfold rejectedFetches
  rw [List.countP_eq_zero]
  intro j _
  cases (itemFetch decode ctxErr items rl j).result <;> simp [fetchRejected, hk]

set_option maxRecDepth 100000 in
/-- C22 fails as stated: what an analysis function returns does not tell how many fetches
failed. The ranked analysis runs twice over the same two identifiers. In the first run the
fetch of `"m2"` fails on all three attempts; in the second it succeeds and returns an ARAM
match, which the ranked filter does not keep. Both runs return the same value, a summary
holding the detail of `"m1"` alone, while one identifier failed in the first run and none
in the second: no count read off the returned value equals the number of failed
identifiers in both runs. -/
theorem C22_skip_count_counterexample :
    (GetPlayerRankedAnalysisWithContext (fun _ => Except.ok ["m1", "m2"]) scriptedDecodeQueues
        CtxErr.canceled { PUUID := "p", SummonerName := "s", TagLine := "t" } scriptedHistory 9
        (scriptedItems ["m1", "m2"] (fun i => decide (i = 1)) (fun _ => false))
        (NewRateLimiter 0)).result =
      (GetPlayerRankedAnalysisWithContext (fun _ => Except.ok ["m1", "m2"])
        scriptedDecodeQueues CtxErr.canceled
        { PUUID := "p", SummonerName := "s", TagLine := "t" } scriptedHistory 9
        (scriptedItems ["m1", "m2"] (fun _ => false) (fun _ => false))
        (NewRateLimiter 0)).result ∧
    failedFetches scriptedDecodeQueues CtxErr.canceled
      (scriptedItems ["m1", "m2"] (fun i => decide (i = 1)) (fun _ => false))
      (NewRateLimiter 0) 0 2 = 1 ∧
    failedFetches scriptedDecodeQueues CtxErr.canceled
      (scriptedItems ["m1", "m2"] (fun _ => false) (fun _ => false))
      (NewRateLimiter 0) 0 2 = 0 ∧
    ∀ skippedCount : JobResult → Nat,
      ¬ (skippedCount
          (GetPlayerRankedAnalysisWithContext (fun _ => Except.ok ["m1", "m2"])
            scriptedDecodeQueues CtxErr.canceled
            { PUUID := "p", SummonerName := "s", TagLine := "t" } scriptedHistory 9
            (scriptedItems ["m1", "m2"] (fun i => decide (i = 1)) (fun _ => false))
            (NewRateLimiter 0)).result =
          failedFetches scriptedDecodeQueues CtxErr.canceled
            (scriptedItems ["m1", "m2"] (fun i => decide (i = 1)) (fun _ => false))
            (NewRateLimiter 0) 0 2 ∧
        skippedCount
          (GetPlayerRankedAnalysisWithContext (fun _ => Except.ok ["m1", "m2"])
            scriptedDecodeQueues CtxErr.canceled
            { PUUID := "p", SummonerName := "s", TagLine := "t" } scriptedHistory 9
            (scriptedItems ["m1", "m2"] (fun _ => false) (fun _ => false))
            (NewRateLimiter 0)).result =
          failedFetches scriptedDecodeQueues CtxErr.canceled
            (scriptedItems ["m1", "m2"] (fun _ => false) (fun _ => false))
            (NewRateLimiter 0) 0 2) := by
  have hEq : (GetPlayerRankedAnalysisWithContext (fun _ => Except.ok ["m1", "m2"])
        scriptedDecodeQueues
        CtxErr.canceled { PUUID := "p", SummonerName := "s", TagLine := "t" } scriptedHistory 9
        (scriptedItems ["m1", "m2"] (fun i => decide (i = 1)) (fun _ => false))
        (NewRateLimiter 0)).result =
      (GetPlayerRankedAnalysisWithContext (fun _ => Except.ok ["m1", "m2"])
        scriptedDecodeQueues CtxErr.canceled
        { PUUID := "p", SummonerName := "s", TagLine := "t" } scriptedHistory 9
        (scriptedItems ["m1", "m2"] (fun _ => false) (fun _ => false))
        (NewRateLimiter 0)).result := by decide
  have hA : failedFetches scriptedDecodeQueues CtxErr.canceled
      (scriptedItems ["m1", "m2"] (fun i => decide (i = 1)) (fun _ => false))
      (NewRateLimiter 0) 0 2 = 1 := by decide
  have hB : failedFetches scriptedDecodeQueues CtxErr.canceled
      (scriptedItems ["m1", "m2"] (fun _ => false) (fun _ => false))
      (NewRateLimiter 0) 0 2 = 0 := by decide
  refine ⟨hEq, hA, hB, ?_⟩
  intro skippedCount h
  rw [hEq, hA, hB] at h
  omega

/-- C22 as amended: an analysis function returns the results alone, with no count of the
identifiers it skipped. When the history call returns the identifiers `ids`, the signal is
silent at the check before every iteration and every fetch returns, the function returns a
summary whose `TotalMatches` is the length of its `MatchHistory`, and that length, the
number of fetches that returned a detail the queue filter rejects and the number of
fetches that failed add up to the number of identifiers. With a filter that keeps every
queue, as in `GetPlayerAllAnalysisWithContext`, the number of failed identifiers is thus
the number of identifiers less `TotalMatches`. -/
theorem C22_skip_count_amended (keep : Int → Bool) (matchType historyErr : String)
    (decodeIDs : String → Except Error (List String))
    (decode : String → Except Error MatchDetail) (ctxErr : CtxErr) (account : Account)
    (history : HistoryEnv) (generatedAt : Int) (items : Nat → ItemEnv) (rl : RateLimiter)
    (ids : List String)
    (hhist : GetRankedMatchHistoryWithContext decodeIDs history = HistoryResult.ids ids)
    (hctx : ∀ i, i < ids.length → (items i).ctxDone = false)
    (hfetch : ∀ i, i < ids.length →
      (itemFetch decode ctxErr items rl i).result ≠ FetchResult.blocked) :
    ∃ s : PlayerMatchSummary,
      (playerAnalysisWithContext keep matchType historyErr decodeIDs decode ctxErr account
        history generatedAt items rl).result = JobResult.summary s ∧
      s.TotalMatches = (s.MatchHistory.length : Int) ∧
      s.MatchHistory.length + rejectedFetches keep decode ctxErr items rl 0 ids.length +
        failedFetches decode ctxErr items rl 0 ids.length = ids.length ∧
      ((∀ q, keep q = true) →
        (failedFetches decode ctxErr items rl 0 ids.length : Int) =
          (ids.length : Int) - s.TotalMatches) := by
  have hcount : (keptDetails keep decode ctxErr items rl 0 ids.length).length +
      rejectedFetches keep decode ctxErr items rl 0 ids.length +
      failedFetches decode ctxErr items rl 0 ids.length = ids.length := by
    have h := kept_rejected_failed_length keep
      (fun j => (itemFetch decode ctxErr items rl j).result) (List.range' 0 ids.length)
      (fun j hj => hfetch j (by
        rw [List.mem_range'_1] at hj
        omega))
    rw [List.length_range'] at h
    exact h
  have hres : (playerAnalysisWithContext keep matchType historyErr decodeIDs decode ctxErr
      account history generatedAt items rl).result =
      JobResult.summary
        { Account := account
          MatchHistory := keptDetails keep decode ctxErr items rl 0 ids.length
          GeneratedAt := generatedAt
          TotalMatches := (keptDetails keep decode ctxErr items rl 0 ids.length).length
          MatchType := matchType } := by
    unfold playerAnalysisWithContext
    rw [hhist]
    simp only
    by_cases hlen : ids.length = 0
    · have hnil : ids = [] := List.length_eq_zero.1 hlen
      subst hnil
      simp [keptDetails]
    · rw [if_neg hlen]
      obtain ⟨h1, _, _⟩ := fetchLoop_completes keep decode ctxErr items rl ids 0 []
        (fun j hj => by simpa using hctx j hj) (fun j hj => by simpa using hfetch j hj)
      simp only [limiterAtItem] at h1
      simp only [h1, List.nil_append]
  refine ⟨_, hres, rfl, hcount, ?_⟩
  intro hk
  have h0 := rejectedFetches_of_keep_all keep decode ctxErr items rl 0 ids.length hk
  rw [h0] at hcount
  simp only
  omega

set_option maxRecDepth 100000 in
/-- C22 as amended, on ten identifiers whose fourth fetch fails with status 500 on every
attempt, in the analysis that keeps every queue: a summary is returned, one fetch failed,
and the number of failed identifiers, 1, is the 10 identifiers less `TotalMatches`. -/
theorem C22_skip_count_amended_witness :
    (∃ s : PlayerMatchSummary,
      (playerAnalysisWithContext (fun _ => true) "all" "マッチ履歴取得エラー"
        (fun _ => Except.ok tenMatchIDs) scriptedDecode CtxErr.canceled
        { PUUID := "p", SummonerName := "s", TagLine := "t" } scriptedHistory 9
        (scriptedItems tenMatchIDs (fun i => decide (i = 3)) (fun _ => false))
        (NewRateLimiter 0)).result = JobResult.summary s ∧
      s.TotalMatches = (s.MatchHistory.length : Int) ∧
      s.MatchHistory.length +
        rejectedFetches (fun _ => true) scriptedDecode CtxErr.canceled
          (scriptedItems tenMatchIDs (fun i => decide (i = 3)) (fun _ => false))
          (NewRateLimiter 0) 0 tenMatchIDs.length +
        failedFetches scriptedDecode CtxErr.canceled
          (scriptedItems tenMatchIDs (fun i => decide (i = 3)) (fun _ => false))
          (NewRateLimiter 0) 0 tenMatchIDs.length = tenMatchIDs.length ∧
      ((∀ q : Int, (fun _ => true) q = true) →
        (failedFetches scriptedDecode CtxErr.canceled
          (scriptedItems tenMatchIDs (fun i => decide (i = 3)) (fun _ => false))
          (NewRateLimiter 0) 0 tenMatchIDs.length : Int) =
          (tenMatchIDs.length : Int) - s.TotalMatches)) ∧
    failedFetches scriptedDecode CtxErr.canceled
      (scriptedItems tenMatchIDs (fun i => decide (i = 3)) (fun _ => false))
      (NewRateLimiter 0) 0 tenMatchIDs.length = 1 ∧
    tenMatchIDs.length = 10 :=
  ⟨C22_skip_count_amended (fun _ => true) "all" "マッチ履歴取得エラー"
      (fun _ => Except.ok tenMatchIDs) scriptedDecode CtxErr.canceled
      { PUUID := "p", SummonerName := "s", TagLine := "t" } scriptedHistory 9
      (scriptedItems tenMatchIDs (fun i => decide (i = 3)) (fun _ => false))
      (NewRateLimiter 0) tenMatchIDs rfl (fun _ _ => rfl) (by decide),
   by decide, by decide⟩

/-! ## The claim about network calls and tokens in an analysis run -/

theorem GetMatchDetailWithContext_log (decode : String → Except Error MatchDetail)
    (ctxErr : CtxErr) (attempts : Nat → AttemptEnv) (readErr : Option Error)
    (rl : RateLimiter) :
    (GetMatchDetailWithContext decode ctxErr attempts readErr rl).log =
      (doRequestWithRateLimit ctxErr attempts rl).log := by
  unfold GetMatchDetailWithContext
  simp only
  cases (doRequestWithRateLimit ctxErr attempts rl).result with
  | error err => rfl
  | blocked => rfl
  | response resp =>
    simp only
    split_ifs
    · rfl
    · cases readErr with
      | some err => rfl
      | none =>
        simp only
        cases decode resp.Body <;> rfl

/-- Every network call of a fetch follows its own admission. -/
theorem GetMatchDetailWithContext_counts (decode : String → Except Error MatchDetail)
    (ctxErr : CtxErr) (attempts : Nat → AttemptEnv) (readErr : Option Error)
    (rl : RateLimiter) :
    tokensConsumed (GetMatchDetailWithContext decode ctxErr attempts readErr rl).log =
      networkCalls (GetMatchDetailWithContext decode ctxErr attempts readErr rl).log := by
  rw [GetMatchDetailWithContext_log]
  exact (attemptLoop_counts ctxErr attempts maxRetries 0 rl).2

/-- Every network call of the fetch loop follows its own admission. -/
theorem fetchLoop_counts (keep : Int → Bool) (decode : String → Except Error MatchDetail)
    (ctxErr : CtxErr) (items : Nat → ItemEnv) (ids : List String) :
    ∀ (i : Nat) (rl : RateLimiter) (acc : List MatchDetail),
      tokensConsumed (fetchLoop keep decode ctxErr items ids i rl acc).log =
        networkCalls (fetchLoop keep decode ctxErr items ids i rl acc).log := by
  induction ids with
  | nil =>
    intro i rl acc
    simp [fetchLoop, tokensConsumed, networkCalls]
  | cons matchID rest ih =>
    intro i rl acc
    have hf := GetMatchDetailWithContext_counts decode ctxErr (items i).attempts
      (items i).readErr rl
    rw [fetchLoop]
    by_cases hc : (items i).ctxDone = true
    · rw [if_pos hc]
      simp [tokensConsumed, networkCalls]
    · rw [if_neg hc]
      simp only
      cases hr : (GetMatchDetailWithContext decode ctxErr (items i).attempts (items i).readErr
          rl).result with
      | blocked => exact hf
      | error err =>
        simp only
        rw [tokensConsumed_append, networkCalls_append, hf, ih]
      | detail d =>
        simp only
        rw [tokensConsumed_append, networkCalls_append, hf, ih]

theorem networkCalls_httpDo_cons (l : List Event) :
    networkCalls (Event.httpDo :: l) = networkCalls l + 1 := by
  simp [networkCalls]

theorem tokensConsumed_httpDo_cons (l : List Event) :
    tokensConsumed (Event.httpDo :: l) = tokensConsumed l := by
  simp [tokensConsumed]

set_option maxRecDepth 100000 in
/-- C24, the code against the claim. Inside the fetch loop every network call follows its
own successful `Wait`, so the loop makes as many network calls as it takes tokens. But
each of the four analysis functions begins with `GetRankedMatchHistoryWithContext`, which
calls `c.HTTPClient.Do(request)` directly, before any `Wait`: in every run the first step
is a network call that took no token, and the run makes exactly one network call more than
it takes tokens, so the number of network calls always exceeds the number of tokens
consumed. On an account with an empty match history the ranked analysis makes one network
call and leaves the limiter untouched, with all 20 and 100 tokens. -/
theorem C24_history_call_outside_limiter (keep : Int → Bool) (matchType historyErr : String)
    (decodeIDs : String → Except Error (List String))
    (decode : String → Except Error MatchDetail) (ctxErr : CtxErr) (account : Account)
    (history : HistoryEnv) (generatedAt : Int) (items : Nat → ItemEnv) (rl : RateLimiter) :
    (∀ (ids : List String) (i : Nat) (rl0 : RateLimiter) (acc : List MatchDetail),
      networkCalls (fetchLoop keep decode ctxErr items ids i rl0 acc).log =
        tokensConsumed (fetchLoop keep decode ctxErr items ids i rl0 acc).log) ∧
    (playerAnalysisWithContext keep matchType historyErr decodeIDs decode ctxErr account
      history generatedAt items rl).log.head? = some Event.httpDo ∧
    networkCalls (playerAnalysisWithContext keep matchType historyErr decodeIDs decode ctxErr
      account history generatedAt items rl).log =
      tokensConsumed (playerAnalysisWithContext keep matchType historyErr decodeIDs decode
        ctxErr account history generatedAt items rl).log + 1 ∧
    ¬ (networkCalls (playerAnalysisWithContext keep matchType historyErr decodeIDs decode
        ctxErr account history generatedAt items rl).log ≤
      tokensConsumed (playerAnalysisWithContext keep matchType historyErr decodeIDs decode
        ctxErr account history generatedAt items rl).log) ∧
    GetPlayerRankedAnalysisWithContext (fun _ => Except.ok []) scriptedDecode CtxErr.canceled
        { PUUID := "p", SummonerName := "s", TagLine := "t" } scriptedHistory 9
        (scriptedItems [] (fun _ => false) (fun _ => false)) (NewRateLimiter 0) =
      { rl := NewRateLimiter 0
        log := [Event.httpDo]
        fetched := []
        result := JobResult.summary
          { Account := { PUUID := "p", SummonerName := "s", TagLine := "t" }
            MatchHistory := []
            GeneratedAt := 9
            TotalMatches := 0
            MatchType := "ranked" } } := by
  have hlog : ∃ l, (playerAnalysisWithContext keep matchType historyErr decodeIDs decode
      ctxErr account history generatedAt items rl).log = Event.httpDo :: l ∧
      tokensConsumed l = networkCalls l := by
    unfold playerAnalysisWithContext
    cases GetRankedMatchHistoryWithContext decodeIDs history with
    | error err => exact ⟨[], rfl, rfl⟩
    | ids matchIDs =>
      simp only
      by_cases hlen : matchIDs.length = 0
      · rw [if_pos hlen]
        exact ⟨[], rfl, rfl⟩
      · rw [if_neg hlen]
        exact ⟨_, rfl, fetchLoop_counts keep decode ctxErr items matchIDs 0 rl []⟩
  obtain ⟨l, hl, hc⟩ := hlog
  refine ⟨fun ids i rl0 acc => (fetchLoop_counts keep decode ctxErr items ids i rl0 acc).symm,
    ?_, ?_, ?_, by decide⟩
  · rw [hl]
    rfl
  · rw [hl, networkCalls_httpDo_cons, tokensConsumed_httpDo_cons, hc]
  · rw [hl, networkCalls_httpDo_cons, tokensConsumed_httpDo_cons, hc]
    omega

/-! ## The limiter states the program can reach -/

theorem BuiltLimiter_new (t0 : Int) : BuiltLimiter (NewRateLimiter t0) := by
  unfold BuiltLimiter WindowInvariant NewRateLimiter
  simp

theorem waitPass_windows (rl : RateLimiter) (now : Int) :
    (waitPass rl now).1.shortTermWindow = rl.shortTermWindow ∧
    (waitPass rl now).1.longTermWindow = rl.longTermWindow := by
  have hl := refresh_limits rl now
  by_cases ha : (waitPass rl now).2 = PassResult.admitted
  · rw [waitPass_of_admitted rl now ha]
    exact ⟨hl.2.2.1, hl.2.2.2⟩
  · rw [waitPass_of_not_admitted rl now ha]
    exact ⟨hl.2.2.1, hl.2.2.2⟩

theorem waitPass_resets (rl : RateLimiter) (now : Int) :
    (waitPass rl now).1.shortTermReset = (refresh rl now).shortTermReset ∧
    (waitPass rl now).1.longTermReset = (refresh rl now).longTermReset := by
  by_cases ha : (waitPass rl now).2 = PassResult.admitted
  · rw [waitPass_of_admitted rl now ha]
    exact ⟨rfl, rfl⟩
  · rw [waitPass_of_not_admitted rl now ha]
    exact ⟨rfl, rfl⟩

/-- Every operation keeps the capacities, the window lengths and the window invariant. -/
theorem BuiltLimiter_applyOp (rl : RateLimiter) (op : LimiterOp) (h : BuiltLimiter rl) :
    BuiltLimiter (applyOp rl op) := by
  obtain ⟨⟨hl1, hl2⟩, ⟨hw1, hw2⟩, hinv⟩ := h
  cases op with
  | pass now =>
    have a := waitPass_limits rl now
    have b := waitPass_windows rl now
    exact ⟨⟨by rw [applyOp, a.1, hl1], by rw [applyOp, a.2, hl2]⟩,
      ⟨by rw [applyOp, b.1, hw1], by rw [applyOp, b.2, hw2]⟩,
      WindowInvariant_waitPass rl now hinv⟩
  | status now =>
    have a := refresh_limits rl now
    have e : applyOp rl (LimiterOp.status now) = refresh rl now := rfl
    rw [e]
    exact ⟨⟨by rw [a.1, hl1], by rw [a.2.1, hl2]⟩,
      ⟨by rw [a.2.2.1, hw1], by rw [a.2.2.2, hw2]⟩, WindowInvariant_refresh rl now hinv⟩
  | reset now =>
    refine ⟨⟨hl1, hl2⟩, ⟨hw1, hw2⟩, ?_⟩
    unfold WindowInvariant applyOp Reset
    simp only
    omega

theorem BuiltLimiter_applyOps (ops : List LimiterOp) :
    ∀ rl : RateLimiter, BuiltLimiter rl → BuiltLimiter (applyOps rl ops) := by
  induction ops with
  | nil => intro rl h; exact h
  | cons op ops ih =>
    intro rl h
    exact ih (applyOp rl op) (BuiltLimiter_applyOp rl op h)

/-- An operation at a clock reading not after `now` leaves each reset time at most one
window length after `now`. -/
theorem applyOp_reset_bound (rl : RateLimiter) (op : LimiterOp) (now : Int)
    (hw1 : rl.shortTermWindow = Second) (hw2 : rl.longTermWindow = 2 * Minute)
    (h1 : rl.shortTermReset ≤ now + Second) (h2 : rl.longTermReset ≤ now + 2 * Minute)
    (ht : opTime op ≤ now) :
    (applyOp rl op).shortTermReset ≤ now + Second ∧
    (applyOp rl op).longTermReset ≤ now + 2 * Minute := by
  have hsr := refresh_shortTermReset rl (opTime op)
  have hlr := refresh_longTermReset rl (opTime op)
  rw [hw1] at hsr
  rw [hw2] at hlr
  have hb : (refresh rl (opTime op)).shortTermReset ≤ now + Second ∧
      (refresh rl (opTime op)).longTermReset ≤ now + 2 * Minute := by
    rw [hsr, hlr]
    constructor <;> split_ifs <;> omega
  cases op with
  | pass t =>
    have a := waitPass_resets rl t
    rw [applyOp, a.1, a.2]
    exact hb
  | status t => exact hb
  | reset t =>
    have ht1 : t ≤ now := ht
    unfold applyOp Reset timeAdd
    simp only
    rw [hw1, hw2]
    constructor <;> omega

/-- After a history of operations none of which read the clock after `now`, on a limiter
built at a time not after `now`, both reset times are at most one window length after
`now`. -/
theorem applyOps_reset_bound (now : Int) (ops : List LimiterOp) :
    ∀ rl : RateLimiter, BuiltLimiter rl →
      rl.shortTermReset ≤ now + Second → rl.longTermReset ≤ now + 2 * Minute →
      (∀ op ∈ ops, opTime op ≤ now) →
      (applyOps rl ops).shortTermReset ≤ now + Second ∧
      (applyOps rl ops).longTermReset ≤ now + 2 * Minute := by
  induction ops with
  | nil => intro rl _ h1 h2 _; exact ⟨h1, h2⟩
  | cons op ops ih =>
    intro rl hb h1 h2 hops
    have hstep := applyOp_reset_bound rl op now hb.2.1.1 hb.2.1.2 h1 h2
      (hops op (List.mem_cons_self op ops))
    exact ih (applyOp rl op) (BuiltLimiter_applyOp rl op hb) hstep.1 hstep.2
      (fun o ho => hops o (List.mem_cons_of_mem op ho))

/-- The limiter a call of `Wait` leaves is the limiter after the passes it made. -/
theorem Wait_rl_applyOps (ps : List Pass) :
    ∀ rl : RateLimiter, ∃ k, k ≤ ps.length ∧
      (Wait rl ps).rl = applyOps rl ((ps.take k).map (fun p => LimiterOp.pass p.now)) := by
  induction ps with
  | nil => intro rl; exact ⟨0, le_refl _, rfl⟩
  | cons p ps ih =>
    intro rl
    by_cases ha : (waitPass rl p.now).2 = PassResult.admitted
    · rw [Wait_cons_admitted rl p ps ha]
      exact ⟨1, by simp, rfl⟩
    · rw [Wait_cons_sleep rl p ps _ (waitPass_sleep_of_not_admitted rl p.now ha)]
      by_cases hc : p.ctxDone = true
      · rw [if_pos hc]
        exact ⟨1, by simp, rfl⟩
      · rw [if_neg hc]
        obtain ⟨k, hk, e⟩ := ih (waitPass rl p.now).1
        refine ⟨k + 1, by simp only [List.length_cons]; omega, ?_⟩
        simp only [e]
        rfl

/-- Each pass of `Wait` leaves one step in the log: a sleep or the admission. -/
theorem Wait_log_length (ps : List Pass) :
    ∀ rl : RateLimiter,
      (Wait rl ps).log.length =
        (rateSleeps (Wait rl ps).log).length + tokensConsumed (Wait rl ps).log := by
  induction ps with
  | nil => intro rl; simp [Wait, rateSleeps, tokensConsumed]
  | cons p ps ih =>
    intro rl
    by_cases ha : (waitPass rl p.now).2 = PassResult.admitted
    · rw [Wait_cons_admitted rl p ps ha]
      simp [rateSleeps, tokensConsumed]
    · rw [Wait_cons_sleep rl p ps _ (waitPass_sleep_of_not_admitted rl p.now ha)]
      by_cases hc : p.ctxDone = true
      · rw [if_pos hc]
        simp [rateSleeps, tokensConsumed]
      · rw [if_neg hc]
        have h := ih (waitPass rl p.now).1
        simp only [List.length_cons, rateSleeps_cons_sleep, tokensConsumed_cons_sleep, h]
        omega

/-! ## The claims about every limiter state: admission is never denied for good, `Reset` -/

/-- C19: admission is never permanently denied. Take any limiter state of the program:
the limiter built by `NewRateLimiter` at `t0` after any history `ops` of passes of `Wait`,
calls of `GetStatus` and calls of `Reset`; it satisfies the window invariant. With a signal
that never fires, a single caller and a clock that advances by at least the slept duration
on each sleep (wake-ups late by `j1 ≥ 0` and `j2 ≥ 0`), a call of `Wait` entered at a time
`now` not before the earlier readings of the clock returns nil after at most three passes
through its loop, that is at most two sleeps, having taken one token. -/
theorem C19_never_permanently_denied (t0 : Int) (ops : List LimiterOp) (now j1 j2 : Int)
    (lates : List Int) (h0 : t0 ≤ now) (hops : ∀ op ∈ ops, opTime op ≤ now)
    (hj1 : 0 ≤ j1) (hj2 : 0 ≤ j2) :
    WindowInvariant (applyOps (NewRateLimiter t0) ops) ∧
    (Wait (applyOps (NewRateLimiter t0) ops)
      (clockScript (j1 :: j2 :: lates) (applyOps (NewRateLimiter t0) ops) now)).result =
      WaitResult.ok ∧
    (Wait (applyOps (NewRateLimiter t0) ops)
      (clockScript (j1 :: j2 :: lates) (applyOps (NewRateLimiter t0) ops) now)).log.length ≤ 3 ∧
    (rateSleeps (Wait (applyOps (NewRateLimiter t0) ops)
      (clockScript (j1 :: j2 :: lates) (applyOps (NewRateLimiter t0) ops)
        now)).log).length ≤ 2 ∧
    tokensConsumed (Wait (applyOps (NewRateLimiter t0) ops)
      (clockScript (j1 :: j2 :: lates) (applyOps (NewRateLimiter t0) ops) now)).log = 1 := by
  have hb := BuiltLimiter_applyOps ops (NewRateLimiter t0) (BuiltLimiter_new t0)
  have hr := applyOps_reset_bound now ops (NewRateLimiter t0) (BuiltLimiter_new t0)
    (by
      show t0 + Second ≤ now + Second
      omega)
    (by
      show t0 + 2 * Minute ≤ now + 2 * Minute
      omega)
    hops
  obtain ⟨⟨hl1, hl2⟩, _, hinv⟩ := hb
  have hmain := Wait_returns_within_three_passes (applyOps (NewRateLimiter t0) ops) now j1 j2
    lates (by rw [hl1]; decide) (by rw [hl2]; decide)
    (by
      have := hr.1
      unfold Second at this
      unfold maxDuration
      omega)
    (by
      have := hr.2
      unfold Minute Second at this
      unfold maxDuration
      omega)
    hj1 hj2
  have hlen := Wait_log_length
    (clockScript (j1 :: j2 :: lates) (applyOps (NewRateLimiter t0) ops) now)
    (applyOps (NewRateLimiter t0) ops)
  refine ⟨hinv, hmain.1, ?_, hmain.2.1, hmain.2.2⟩
  rw [hlen, hmain.2.2]
  have := hmain.2.1
  omega

set_option maxRecDepth 100000 in
/-- C19 on the limiter built at time 0 whose short window twenty passes at 0.5 s have
exhausted, `GetStatus` having been called since: the call of `Wait` entered at 0.5 s under
an exact clock sleeps 0.5 s, then 100 ms, and is admitted on its third pass. -/
theorem C19_never_permanently_denied_witness :
    (WindowInvariant (applyOps (NewRateLimiter 0)
        (List.replicate 20 (LimiterOp.pass 500000000) ++ [LimiterOp.status 500000000])) ∧
      (Wait (applyOps (NewRateLimiter 0)
          (List.replicate 20 (LimiterOp.pass 500000000) ++ [LimiterOp.status 500000000]))
        (clockScript [0, 0] (applyOps (NewRateLimiter 0)
          (List.replicate 20 (LimiterOp.pass 500000000) ++ [LimiterOp.status 500000000]))
          500000000)).result = WaitResult.ok ∧
      (Wait (applyOps (NewRateLimiter 0)
          (List.replicate 20 (LimiterOp.pass 500000000) ++ [LimiterOp.status 500000000]))
        (clockScript [0, 0] (applyOps (NewRateLimiter 0)
          (List.replicate 20 (LimiterOp.pass 500000000) ++ [LimiterOp.status 500000000]))
          500000000)).log.length ≤ 3 ∧
      (rateSleeps (Wait (applyOps (NewRateLimiter 0)
          (List.replicate 20 (LimiterOp.pass 500000000) ++ [LimiterOp.status 500000000]))
        (clockScript [0, 0] (applyOps (NewRateLimiter 0)
          (List.replicate 20 (LimiterOp.pass 500000000) ++ [LimiterOp.status 500000000]))
          500000000)).log).length ≤ 2 ∧
      tokensConsumed (Wait (applyOps (NewRateLimiter 0)
          (List.replicate 20 (LimiterOp.pass 500000000) ++ [LimiterOp.status 500000000]))
        (clockScript [0, 0] (applyOps (NewRateLimiter 0)
          (List.replicate 20 (LimiterOp.pass 500000000) ++ [LimiterOp.status 500000000]))
          500000000)).log = 1) ∧
    (Wait (applyOps (NewRateLimiter 0)
        (List.replicate 20 (LimiterOp.pass 500000000) ++ [LimiterOp.status 500000000]))
      (clockScript [0, 0] (applyOps (NewRateLimiter 0)
        (List.replicate 20 (LimiterOp.pass 500000000) ++ [LimiterOp.status 500000000]))
        500000000)).log =
      [Event.rateSleep 500000000, Event.rateSleep 100000000, Event.admitted 1100000000] :=
  ⟨C19_never_permanently_denied 0
      (List.replicate 20 (LimiterOp.pass 500000000) ++ [LimiterOp.status 500000000])
      500000000 0 0 [] (by decide) (by decide) (by decide) (by decide),
   by decide⟩

/-- C20: take any limiter state of the program, the limiter built by `NewRateLimiter` at
`t0` after any history `ops` of passes of `Wait`, calls of `GetStatus` and calls of
`Reset`, and any time `now`. `Reset` at `now` sets both token counts to their capacities,
20 and 100, and both reset times to `now + windowLength`, that is `now + 1 s` and
`now + 2 min`, leaving capacities and window lengths unchanged; and a `Wait` issued right
afterwards at the same time returns nil on its first pass without sleeping, whatever the
signal, taking one token from each window. -/
theorem C20_reset_restores_and_admits (t0 : Int) (ops : List LimiterOp) (now : Int) :
    (((Reset (applyOps (NewRateLimiter t0) ops) now).shortTermTokens =
          (applyOps (NewRateLimiter t0) ops).shortTermLimit ∧
        (Reset (applyOps (NewRateLimiter t0) ops) now).longTermTokens =
          (applyOps (NewRateLimiter t0) ops).longTermLimit) ∧
      ((Reset (applyOps (NewRateLimiter t0) ops) now).shortTermTokens = 20 ∧
        (Reset (applyOps (NewRateLimiter t0) ops) now).longTermTokens = 100)) ∧
    (((Reset (applyOps (NewRateLimiter t0) ops) now).shortTermReset =
          now + (applyOps (NewRateLimiter t0) ops).shortTermWindow ∧
        (Reset (applyOps (NewRateLimiter t0) ops) now).longTermReset =
          now + (applyOps (NewRateLimiter t0) ops).longTermWindow) ∧
      ((Reset (applyOps (NewRateLimiter t0) ops) now).shortTermReset = now + Second ∧
        (Reset (applyOps (NewRateLimiter t0) ops) now).longTermReset = now + 2 * Minute)) ∧
    ((Reset (applyOps (NewRateLimiter t0) ops) now).shortTermLimit =
        (applyOps (NewRateLimiter t0) ops).shortTermLimit ∧
      (Reset (applyOps (NewRateLimiter t0) ops) now).longTermLimit =
        (applyOps (NewRateLimiter t0) ops).longTermLimit ∧
      (Reset (applyOps (NewRateLimiter t0) ops) now).shortTermWindow =
        (applyOps (NewRateLimiter t0) ops).shortTermWindow ∧
      (Reset (applyOps (NewRateLimiter t0) ops) now).longTermWindow =
        (applyOps (NewRateLimiter t0) ops).longTermWindow) ∧
    (∀ (c : Bool) (ps : List Pass),
      (Wait (Reset (applyOps (NewRateLimiter t0) ops) now)
        ({ now := now, ctxDone := c } :: ps)).result = WaitResult.ok ∧
      (Wait (Reset (applyOps (NewRateLimiter t0) ops) now)
        ({ now := now, ctxDone := c } :: ps)).log = [Event.admitted now] ∧
      (Wait (Reset (applyOps (NewRateLimiter t0) ops) now)
        ({ now := now, ctxDone := c } :: ps)).rl.shortTermTokens = 19 ∧
      (Wait (Reset (applyOps (NewRateLimiter t0) ops) now)
        ({ now := now, ctxDone := c } :: ps)).rl.longTermTokens = 99) := by
  obtain ⟨⟨hl1, hl2⟩, ⟨hw1, hw2⟩, _⟩ :=
    BuiltLimiter_applyOps ops (NewRateLimiter t0) (BuiltLimiter_new t0)
  obtain ⟨⟨a1, a2, a3, a4, a5, a6, a7, a8⟩, hsec, hwait⟩ :=
    Reset_then_Wait (applyOps (NewRateLimiter t0) ops) now
  have hs := hsec hw1 hw2
  refine ⟨⟨⟨a1, a2⟩, ⟨by rw [a1, hl1], by rw [a2, hl2]⟩⟩, ⟨⟨a3, a4⟩, hs⟩,
    ⟨a5, a6, a7, a8⟩, ?_⟩
  intro c ps
  obtain ⟨b1, b2, b3, b4⟩ := hwait (by rw [hl1]; decide) (by rw [hl2]; decide) c ps
  refine ⟨b1, b2, ?_, ?_⟩
  · rw [b3, hl1]
    rfl
  · rw [b4, hl2]
    rfl

end Riot
